import Mathlib

/-!
# GoDCCP connection engine: write pipeline, options, transitions, timers

A shallow embedding of `dccp/options.go`, `dccp/inj.go`, `dccp/goto.go`,
`dccp/backoff.go`, `dccp/mono.go`, `dccp/synthetic.go`, `dccp/muxmsg.go` and
`dccp/chanlink.go`.

* Go slices are lists, `byte` and `int64` values are `Nat` and `Int`.  Where
  the source adds, subtracts or multiplies `int64` values (the back-off record,
  the virtual clock) the result is wrapped by `wrap64`; the loop counter `nidle`
  is not wrapped.
* A method with receiver `c *Conn` is a function that takes the connection
  record and returns the updated one.  Every call that leaves the embedded
  function (congestion control, lock, event log, header codec) is appended to
  `Conn.trace`, so that the order of effects can be stated.
* A Go `panic` is the constructor `Result.panic`, which keeps the values
  reached when the panic was raised.
* Pointers are taken to be non-nil unless the source tests them against `nil`;
  a nillable `*writeHeader` is an `Option writeHeader`.
* What a goroutine receives from the rest of the program (channel receives, the
  state other goroutines leave behind a lock, requests to the runtime) is an
  argument of the function that embeds it.
* An unbuffered channel of a `ChanLink` is the list of the datagrams whose sends
  wait for a receiver, with a flag for `close`; the calls that the goroutines
  make on the two links are a list, in the order in which they take effect, and a
  call of WriteTo stands as waiting in the log until a receive takes its datagram
  or the channel is closed.
-/

namespace dccp

/-! ## options.go -/

/-- The struct `Option` of options.go (renamed: `Option` is taken in Lean). -/
structure DccpOption where
  Type_ : Nat
  Data : List Nat
  Mandatory : Bool
deriving DecidableEq, Repr

def OptionPadding : Nat := 0
def OptionMandatory : Nat := 1
def OptionSlowReceiver : Nat := 2
def OptionChangeL : Nat := 32
def OptionConfirmL : Nat := 33
def OptionChangeR : Nat := 34
def OptionConfirmR : Nat := 35
def OptionInitCookie : Nat := 36
def OptionNDPCount : Nat := 37
def OptionAckVectorNonce0 : Nat := 38
def OptionAckVectorNonce1 : Nat := 39
def OptionDataDropped : Nat := 40
def OptionTimestamp : Nat := 41
def OptionTimestampEcho : Nat := 42
def OptionElapsedTime : Nat := 43
def OptionDataChecksum : Nat := 44

/-- Modelled from the spec: the packet type constants are declared outside the
embedded files.  Spec §3 lists the packet types as "Request, Response, Data,
Ack, DataAck, CloseReq, Close, Reset, Sync, SyncAck"; they are numbered from 0
in that order (RFC 4340).  No theorem depends on the numeric value. -/
def Data : Nat := 2

def isOptionReserved (optionType : Nat) : Bool :=
  (decide (optionType ≥ 3) && decide (optionType ≤ 31)) ||
    (decide (optionType ≥ 45) && decide (optionType ≤ 127))

def isOptionCCIDSpecific (optionType : Nat) : Bool :=
  decide (optionType ≥ 128) && decide (optionType ≤ 255)

def isOptionCCIDSenderToReceiver (optionType : Nat) : Bool :=
  (decide (optionType ≥ 38) && decide (optionType ≤ 43)) ||
    (decide (optionType ≥ 128) && decide (optionType ≤ 191))

/-- The `for _, o := range opts` loop of validateCCIDSenderToReceiver,
with its early `return false`. -/
def validateCCIDSenderToReceiver : List DccpOption → Bool
  | [] => true
  | o :: opts =>
    if !isOptionCCIDSenderToReceiver o.Type_ then false
    else validateCCIDSenderToReceiver opts

def isOptionCCIDReceiverToSender (optionType : Nat) : Bool :=
  (decide (optionType ≥ 38) && decide (optionType ≤ 43)) ||
    (decide (optionType ≥ 192) && decide (optionType ≤ 255))

/-- The `for _, o := range opts` loop of validateCCIDReceiverToSender,
with its early `return false`. -/
def validateCCIDReceiverToSender : List DccpOption → Bool
  | [] => true
  | o :: opts =>
    if !isOptionCCIDReceiverToSender o.Type_ then false
    else validateCCIDReceiverToSender opts

def isOptionSingleByte (optionType : Nat) : Bool :=
  decide (optionType ≥ 0) && decide (optionType ≤ 31)

/-- The function isOptionValidForType of options.go: the `switch` over the six
option constants, guarded by the test on the packet type. -/
def isOptionValidForType (optionType Type_ : Nat) : Bool :=
  if Type_ ≠ Data then true
  else if optionType = OptionPadding ∨ optionType = OptionSlowReceiver ∨
      optionType = OptionNDPCount ∨ optionType = OptionTimestamp ∨
      optionType = OptionTimestampEcho ∨ optionType = OptionDataChecksum then true
  else false

/-! ## Records used by inj.go and goto.go -/

/-- Modelled from the spec: the struct `Header` is declared outside the embedded
files.  Spec §3: "packet type, extended-seq bit, sequence number,
acknowledgement number, service code, CCVal nibble, and an ordered list of
options"; inj.go uses the fields Type, X, SeqNo, AckNo, CCVal, Options, Data. -/
structure Header where
  Type_ : Nat
  X : Bool
  SeqNo : Int
  AckNo : Int
  ServiceCode : Nat
  CCVal : Int
  Options : List DccpOption
  Data : List Nat
deriving DecidableEq, Repr

/-- The struct `PreHeader` as built in WriteCC (spec glossary: "type, X, SeqNo,
AckNo, TimeWrite"). -/
structure PreHeader where
  Type_ : Nat
  X : Bool
  SeqNo : Int
  AckNo : Int
  TimeWrite : Int
deriving DecidableEq, Repr

/-- The struct `writeHeader` of inj.go. -/
structure writeHeader where
  Header : Header
  SeqAckType : Int
  InResponseTo : Option dccp.Header
deriving DecidableEq, Repr

/-- Socket states named in goto.go and inj.go (spec §3). -/
inductive State where
  | CLOSED | LISTEN | REQUEST | RESPOND | PARTOPEN | OPEN | CLOSING | TIMEWAIT
deriving DecidableEq, Repr

/-- User-visible errors named in goto.go (spec §7). -/
inductive ConnError where
  | ErrEOF | ErrAbort | ErrIO | ErrBad
deriving DecidableEq, Repr

/-- Event kinds passed to `c.amb.E` in inj.go and goto.go. -/
inductive EventKind where
  | EventWrite | EventDrop | EventInfo | EventMatch | EventTurn
deriving DecidableEq, Repr

/-- The trailing argument of `c.amb.E`: nothing, a `*writeHeader` (possibly
nil) or a `*Header`. -/
inductive EvArg where
  | none
  | wh (h : Option writeHeader)
  | hdr (h : Header)
deriving DecidableEq, Repr

/-- One externally visible effect of the connection code, in program order. -/
inductive Act where
  | sccStrobe
  | sccOnWrite (ph : PreHeader)
  | rccOnWrite (ph : PreHeader)
  | sccOpen
  | rccOpen
  | sccClose
  | rccClose
  | lock
  | unlock
  | writeSeqAck (h : writeHeader)
  | timeNow
  | writeCC (h : Header) (timeWrite : Int)
  | recvNonData (h : Option writeHeader)
  | recvNonDataClosed
  | recvData (appData : List Nat)
  | recvDataClosed
  | emit (kind : EventKind) (comment : String) (arg : EvArg)
  | hcWrite (h : Header)
  | getState (s : State)
  | generateDataAck (appData : List Nat)
  | abortQuietly
  | emitSetState (s : State)
  | setState (s : State)
  | setError (e : ConnError)
  | teardownUser
  | teardownWriteLoop
  | abort
  | inject (h : Option writeHeader)
  | go (name : String)
  | expire (name : String)
deriving DecidableEq, Repr

/-- The methods of the sender congestion control that the connection calls
(`c.scc`), over the module's own state `σ`. -/
structure SenderCC (σ : Type) where
  Open : σ → σ
  Close : σ → σ
  OnWrite : σ → PreHeader → σ × Int × List DccpOption
  Strobe : σ → σ

/-- The methods of the receiver congestion control that the connection calls
(`c.rcc`), over the module's own state `ρ`. -/
structure ReceiverCC (ρ : Type) where
  Open : ρ → ρ
  Close : ρ → ρ
  OnWrite : ρ → PreHeader → ρ × List DccpOption

/-- A buffered Go channel: its queued items (head is the next one received)
and its capacity `cap(ch)`. -/
structure Chan (α : Type) where
  buf : List α
  cap : Nat
deriving DecidableEq, Repr

/-- The send `ch <- a` on a buffered channel: `none` when the send cannot
proceed at once (the buffer is full), else the channel with `a` at its tail. -/
def Chan.send {α : Type} (ch : Chan α) (a : α) : Option (Chan α) :=
  if ch.buf.length < ch.cap then some { ch with buf := ch.buf ++ [a] } else none

/-- Modelled from the spec: the socket record is declared outside the embedded
files.  Spec §3: "ISS, ISR, GSS, GSR, GAR, OSR, service code, role, current
state, RTT". -/
structure Socket where
  ISS : Int
  ISR : Int
  GSS : Int
  GSR : Int
  GAR : Int
  OSR : Int
  ServiceCode : Nat
  Server : Bool
  State : State
  RTT : Int
deriving DecidableEq, Repr

/-- The part of `Conn` that inj.go and goto.go read and write.  `υ` is the state
of the user side (torn down by `teardownUser`, declared outside the embedded
files); `locked` says whether the running task holds the connection lock;
`trace` is the log of effects. -/
structure Conn (σ ρ υ : Type) where
  socket : Socket
  scc : σ
  rcc : ρ
  ccidOpen : Bool
  err : Option ConnError
  user : υ
  writeNonData : Option (Chan (Option writeHeader))
  locked : Bool
  trace : List Act

/-- Outcome of a call that may panic: the values it returns, or the panic
message with the values as they stand when the panic is raised. -/
inductive Result (α : Type) where
  | ok (a : α)
  | panic (msg : String) (a : α)

/-- Whether a call ended in a panic. -/
def Result.panicked {α : Type} : Result α → Bool
  | .ok _ => false
  | .panic _ _ => true

/-- The values carried by an outcome. -/
def Result.val {α : Type} : Result α → α
  | .ok a => a
  | .panic _ a => a

section
variable {σ ρ υ : Type}

/-- Appends effects to the connection's log. -/
def Conn.log (c : Conn σ ρ υ) (as : List Act) : Conn σ ρ υ :=
  { c with trace := c.trace ++ as }

/-- The `&PreHeader{...}` literal of WriteCC. -/
def mkPreHeader (h : Header) (timeWrite : Int) : PreHeader :=
  { Type_ := h.Type_, X := h.X, SeqNo := h.SeqNo, AckNo := h.AckNo, TimeWrite := timeWrite }

/-- The method Conn.WriteCC of inj.go.  The header `h` is updated in place in the
source, so the header is returned next to the connection. -/
def WriteCC (S : SenderCC σ) (R : ReceiverCC ρ) (c : Conn σ ρ υ) (h : Header)
    (timeWrite : Int) : Result (Conn σ ρ υ × Header) :=
  let c := c.log [Act.writeCC h timeWrite]
  -- HC-Sender CCID
  let ph := mkPreHeader h timeWrite
  let r := S.OnWrite c.scc ph
  let ccval := r.2.1
  let sropts := r.2.2
  let c := { c with scc := r.1, trace := c.trace ++ [Act.sccOnWrite ph] }
  if !validateCCIDSenderToReceiver sropts then
    .panic "sender congestion control writes disallowed options" (c, h)
  else
    let h := { h with CCVal := ccval }
    -- HC-Receiver CCID
    let ph := mkPreHeader h timeWrite
    let q := R.OnWrite c.rcc ph
    let rsopts := q.2
    let c := { c with rcc := q.1, trace := c.trace ++ [Act.rccOnWrite ph] }
    if !validateCCIDReceiverToSender rsopts then
      .panic "receiver congestion control writes disallowed options" (c, h)
    else
      let h := { h with Options := h.Options ++ (sropts ++ rsopts) }
      let c := c.log [Act.emit .EventInfo
        ("CC placed " ++ toString h.Options.length ++ " options") (.hdr h)]
      .ok (c, h)

/-- The method Conn.inject of inj.go.  `none` stands for a call that cannot
return at once because its channel send has to wait.  The mutex
`writeNonDataLk`, held for the whole body, keeps other producers from sending
between the test of `len` and the send.  The field holds nil or an open
channel: nil is the only other case that inject tests for. -/
def inject (c : Conn σ ρ υ) (h : Option writeHeader) : Option (Conn σ ρ υ) :=
  match c.writeNonData with
  | none => some c
  | some ch =>
    -- Dropping a nil is OK, since it happens only if there are other packets in the queue
    if ch.buf.length < ch.cap then
      match ch.send h with
      | some ch1 => some { c with writeNonData := some ch1 }
      | none => none
    else
      some (c.log [Act.emit .EventWrite "Write before drop" (.wh h),
        Act.emit .EventDrop "Slow strobe" (.wh h)])

end

/-! ## The writer: Conn.write and Conn.writeLoop -/

/-- The result of a channel receive `v, ok := <-ch`: `closed` is `ok = false`. -/
inductive Recv (α : Type) where
  | closed
  | item (a : α)
deriving DecidableEq, Repr

/-- What the rest of the program presents to the writer during one iteration of
its loop: what a receive on each conduit yields at that moment (`none`: the
receive cannot proceed), the choice made by the Go `select` statement when both
of its cases can proceed (`true`: the first case), the changes the other tasks
have made to the connection by the time the writer takes the lock, the value of
`c.writeTime.Now()` and whether `c.hc.Write` returns an error. -/
structure Tick (σ ρ υ : Type) where
  nonData : Option (Recv (Option writeHeader))
  data : Option (Recv (List Nat))
  pick : Bool
  others : Conn σ ρ υ → Conn σ ρ υ
  timeWrite : Int
  hcErr : Bool

/-- Methods of `Conn` that inj.go calls and that are declared outside the
embedded files.  They are arbitrary functions of the connection; every call is
logged by the caller, and the callee returns with the lock as it found it. -/
structure Externals (σ ρ υ : Type) where
  WriteSeqAck : Conn σ ρ υ → writeHeader → Conn σ ρ υ × writeHeader
  generateDataAck : Conn σ ρ υ → List Nat → Conn σ ρ υ × Option writeHeader
  abortQuietly : Conn σ ρ υ → Conn σ ρ υ

/-- The phases of Conn.writeLoop: the labels `_Loop_I`, `_Loop_II`, `_Loop_III`
and `_Exit`. -/
inductive Phase where
  | I | II | III | Exit
deriving DecidableEq, Repr

/-- Position of a phase in the order I, II, III, Exit. -/
def Phase.rank : Phase → Nat
  | .I => 0
  | .II => 1
  | .III => 2
  | .Exit => 3

/-- The case of the `select` of `_Loop_II` that proceeds. -/
inductive Selected where
  | blocked
  | nonData (r : Recv (Option writeHeader))
  | data (r : Recv (List Nat))
deriving DecidableEq, Repr

section
variable {σ ρ υ : Type}

/-- `c.Lock()`: the task now holds the lock and sees the connection as the other
tasks left it. -/
def Conn.Lock (others : Conn σ ρ υ → Conn σ ρ υ) (c : Conn σ ρ υ) : Conn σ ρ υ :=
  { (others c) with locked := true, trace := c.trace ++ [Act.lock] }

/-- `c.Unlock()`. -/
def Conn.Unlock (c : Conn σ ρ υ) : Conn σ ρ υ :=
  { c with locked := false, trace := c.trace ++ [Act.unlock] }

/-- `c.scc.Strobe()`. -/
def Conn.Strobe (S : SenderCC σ) (c : Conn σ ρ υ) : Conn σ ρ υ :=
  { c with scc := S.Strobe c.scc, trace := c.trace ++ [Act.sccStrobe] }

/-- The connection `c1` that a method declared outside the embedded files
returns when called on `c`: the call is logged as `a`, the lock is as it was. -/
def Conn.ret (c : Conn σ ρ υ) (a : Act) (c1 : Conn σ ρ υ) : Conn σ ρ υ :=
  { c1 with locked := c.locked, trace := c.trace ++ [a] }

/-- The method Conn.write of inj.go.  Returns the connection, the header as
annotated and whether `c.hc.Write` returned an error. -/
def write (S : SenderCC σ) (R : ReceiverCC ρ) (X : Externals σ ρ υ) (c : Conn σ ρ υ)
    (h : writeHeader) (t : Tick σ ρ υ) : Result (Conn σ ρ υ × writeHeader × Bool) :=
  let c := c.Strobe S
  let c := c.Lock t.others
  let r := X.WriteSeqAck c h
  let c := c.ret (Act.writeSeqAck h) r.1
  let h := r.2
  let c := c.log [Act.timeNow]
  match WriteCC S R c h.Header t.timeWrite with
  | .panic msg (c, hd) => .panic msg (c, { h with Header := hd }, false)
  | .ok (c, hd) =>
    let h := { h with Header := hd }
    let c := c.Unlock
    let c := c.log [Act.emit .EventWrite "Write to header link" (.wh (some h))]
    let c := c.log [Act.hcWrite h.Header]
    .ok (c, h, t.hcErr)

/-- The statements at `_Exit`. -/
def exitLoop (c : Conn σ ρ υ) : Conn σ ρ υ :=
  c.log [Act.emit .EventInfo "Write loop EXIT" .none]

/-- The statement that ends the body of each of the three loops:
`if h != nil { err := c.write(h); if err != nil { c.abortQuietly(); goto _Exit } }`.
The boolean says whether `goto _Exit` is taken. -/
def sendIfAny (S : SenderCC σ) (R : ReceiverCC ρ) (X : Externals σ ρ υ) (c : Conn σ ρ υ)
    (h : Option writeHeader) (t : Tick σ ρ υ) : Result (Conn σ ρ υ × Bool) :=
  match h with
  | none => .ok (c, false)
  | some wh =>
    match write S R X c wh t with
    | .panic msg (c, _, _) => .panic msg (c, false)
    | .ok (c, _, err) =>
      if err then
        .ok (c.ret Act.abortQuietly (X.abortQuietly c), true)
      else .ok (c, false)

/-- One iteration of `_Loop_I`. -/
def stepI (S : SenderCC σ) (R : ReceiverCC ρ) (X : Externals σ ρ υ) (c : Conn σ ρ υ)
    (t : Tick σ ρ υ) : Result (Phase × Conn σ ρ υ) :=
  match t.nonData with
  | none => .ok (.I, c)
  | some .closed =>
    -- Closing writeNonData means that the Conn is done and dead
    .ok (.Exit, exitLoop (c.log [Act.recvNonDataClosed]))
  | some (.item h) =>
    let c := c.log [Act.recvNonData h]
    match sendIfAny S R X c h t with
    | .panic msg (c, _) => .panic msg (.I, c)
    | .ok (c, true) => .ok (.Exit, exitLoop c)
    | .ok (c, false) =>
      let c := c.Lock t.others
      let state := c.socket.State
      let c := c.log [Act.getState state]
      let c := c.Unlock
      if state = .OPEN ∨ state = .PARTOPEN then .ok (.II, c) else .ok (.I, c)

/-- The Go `select` over the two receives of `_Loop_II`: it waits when no case
can proceed, takes the only case that can, and when both can it takes one of
them by a choice that the program does not control (`t.pick`). -/
def select (t : Tick σ ρ υ) : Selected :=
  match t.nonData, t.data with
  | none, none => .blocked
  | some r, none => .nonData r
  | none, some d => .data d
  | some r, some d => if t.pick then .nonData r else .data d

/-- One iteration of `_Loop_II`. -/
def stepII (S : SenderCC σ) (R : ReceiverCC ρ) (X : Externals σ ρ υ) (c : Conn σ ρ υ)
    (t : Tick σ ρ υ) : Result (Phase × Conn σ ρ υ) :=
  let send := fun (c : Conn σ ρ υ) (h : Option writeHeader) =>
    match sendIfAny S R X c h t with
    | .panic msg (c, _) => Result.panic msg (Phase.II, c)
    | .ok (c, true) => .ok (.Exit, exitLoop c)
    | .ok (c, false) => .ok (.II, c)
  match select t with
  | .blocked => .ok (.II, c)
  | .nonData .closed =>
    -- Closing writeNonData means that the Conn is done and dead
    .ok (.Exit, exitLoop (c.log [Act.recvNonDataClosed]))
  | .nonData (.item h) => send (c.log [Act.recvNonData h]) h
  | .data .closed =>
    -- When writeData is closed, we transition to the 3rd loop
    .ok (.III, c.log [Act.recvDataClosed])
  | .data (.item appData) =>
    let c := c.log [Act.recvData appData]
    let c := c.Lock t.others
    let r := X.generateDataAck c appData
    let c := c.ret (Act.generateDataAck appData) r.1
    let c := c.Unlock
    send c r.2

/-- One iteration of `_Loop_III`. -/
def stepIII (S : SenderCC σ) (R : ReceiverCC ρ) (X : Externals σ ρ υ) (c : Conn σ ρ υ)
    (t : Tick σ ρ υ) : Result (Phase × Conn σ ρ υ) :=
  match t.nonData with
  | none => .ok (.III, c)
  | some .closed =>
    -- Closing writeNonData means that the Conn is done and dead
    .ok (.Exit, exitLoop (c.log [Act.recvNonDataClosed]))
  | some (.item h) =>
    let c := c.log [Act.recvNonData h]
    match sendIfAny S R X c h t with
    | .panic msg (c, _) => .panic msg (.III, c)
    | .ok (c, true) => .ok (.Exit, exitLoop c)
    | .ok (c, false) => .ok (.III, c)

/-- One iteration of the loop of the given phase; nothing runs after `_Exit`. -/
def loopStep (S : SenderCC σ) (R : ReceiverCC ρ) (X : Externals σ ρ υ) (p : Phase)
    (c : Conn σ ρ υ) (t : Tick σ ρ υ) : Result (Phase × Conn σ ρ υ) :=
  match p with
  | .I => stepI S R X c t
  | .II => stepII S R X c t
  | .III => stepIII S R X c t
  | .Exit => .ok (.Exit, c)

/-- The loops of Conn.writeLoop from phase `p` on, one iteration per tick. -/
def runLoop (S : SenderCC σ) (R : ReceiverCC ρ) (X : Externals σ ρ υ) :
    Phase → Conn σ ρ υ → List (Tick σ ρ υ) → Result (Phase × Conn σ ρ υ)
  | p, c, [] => .ok (p, c)
  | p, c, t :: ts =>
    match loopStep S R X p c t with
    | .panic msg r => .panic msg r
    | .ok (p1, c1) => runLoop S R X p1 c1 ts

/-- The method Conn.writeLoop of inj.go, run against the ticks `ts`.  The
statements `c.amb.E(EventInfo, "Write Loop II")` and `"Write Loop III"` stand
between an endless `for` and the label that follows it, so no path runs them. -/
def writeLoop (S : SenderCC σ) (R : ReceiverCC ρ) (X : Externals σ ρ υ) (c : Conn σ ρ υ)
    (ts : List (Tick σ ρ υ)) : Result (Phase × Conn σ ρ υ) :=
  runLoop S R X .I (c.log [Act.emit .EventInfo "Write Loop I" .none]) ts

end

/-! ## goto.go: the congestion-control lifecycle and gotoCLOSED -/

/-- Methods of `Conn` that gotoCLOSED calls and that are declared outside the
embedded files, each as a function of the part of the connection it is named
after: `setError` of the error field, `teardownUser` of the user side,
`teardownWriteLoop` of the control conduit. -/
structure Helpers (υ : Type) where
  setError : ConnError → Option ConnError → Option ConnError
  teardownUser : υ → υ
  teardownWriteLoop : Option (Chan (Option writeHeader)) → Option (Chan (Option writeHeader))

section
variable {σ ρ υ : Type}

/-- Modelled from the spec: `c.AssertLocked()` is declared outside the embedded
files.  Spec §4.1: "Each transition is invoked with the connection's lock held
(`AssertLocked`)"; a call without the lock is a panic. -/
def AssertLocked (c : Conn σ ρ υ) : Result (Conn σ ρ υ) :=
  if c.locked then .ok c else .panic "AssertLocked" c

/-- The method Conn.openCCID of goto.go. -/
def openCCID (S : SenderCC σ) (R : ReceiverCC ρ) (c : Conn σ ρ υ) : Result (Conn σ ρ υ) :=
  match AssertLocked c with
  | .panic msg c => .panic msg c
  | .ok c =>
    if c.ccidOpen then .ok c
    else
      let c := { c with scc := S.Open c.scc, trace := c.trace ++ [Act.sccOpen] }
      let c := { c with rcc := R.Open c.rcc, trace := c.trace ++ [Act.rccOpen] }
      let c := { c with ccidOpen := true }
      .ok (c.log [Act.emit .EventMatch "CCID open" .none])

/-- The method Conn.closeCCID of goto.go. -/
def closeCCID (S : SenderCC σ) (R : ReceiverCC ρ) (c : Conn σ ρ υ) : Result (Conn σ ρ υ) :=
  match AssertLocked c with
  | .panic msg c => .panic msg c
  | .ok c =>
    if !c.ccidOpen then .ok c
    else
      let c := { c with scc := S.Close c.scc, trace := c.trace ++ [Act.sccClose] }
      let c := { c with rcc := R.Close c.rcc, trace := c.trace ++ [Act.rccClose] }
      let c := { c with ccidOpen := false }
      .ok (c.log [Act.emit .EventMatch "CCID close" .none])

/-- The method Conn.gotoCLOSED of goto.go.  `c.emitSetState()` is logged with the
socket state it finds. -/
def gotoCLOSED (S : SenderCC σ) (R : ReceiverCC ρ) (H : Helpers υ) (c : Conn σ ρ υ) :
    Result (Conn σ ρ υ) :=
  match AssertLocked c with
  | .panic msg c => .panic msg c
  | .ok c =>
    let c := c.log [Act.emitSetState c.socket.State]
    let c := { c with socket := { c.socket with State := .CLOSED },
                      trace := c.trace ++ [Act.setState .CLOSED] }
    let c := { c with err := H.setError .ErrAbort c.err,
                      trace := c.trace ++ [Act.setError .ErrAbort] }
    let c := { c with user := H.teardownUser c.user, trace := c.trace ++ [Act.teardownUser] }
    let c := { c with writeNonData := H.teardownWriteLoop c.writeNonData,
                      trace := c.trace ++ [Act.teardownWriteLoop] }
    closeCCID S R c

end

/-! ## backoff.go -/

/-- The value of an `int64` expression whose exact result is `x`: Go wraps
around on overflow (two's complement). -/
def wrap64 (x : Int) : Int :=
  (x + 2 ^ 63) % 2 ^ 64 - 2 ^ 63

/-- Whether an integer is an `int64` value. -/
def inInt64 (x : Int) : Prop :=
  -2 ^ 63 ≤ x ∧ x < 2 ^ 63

instance (x : Int) : Decidable (inInt64 x) := by
  unfold inInt64
  exact inferInstance

/-- Modelled from the spec: `max64` is declared outside the embedded files.
Spec §4.5: "sleep for `max(BackoffMin, sleep)`"; §4.6: "`max(raw_runtime_now(),
last_returned)`". -/
def max64 (x y : Int) : Int :=
  if x > y then x else y

/-- The methods of the runtime (`*Env`) that back-off timers call, over the
runtime's own state `τ`. -/
structure Env (τ : Type) where
  Sleep : τ → Int → τ
  Now : τ → τ × Int

/-- A call into the runtime. -/
inductive EnvCall where
  | Sleep (nsec : Int)
  | Now
deriving DecidableEq, Repr

/-- The struct `backOff` of backoff.go; the field `env` is the runtime that the
methods are given. -/
structure backOff where
  sleep : Int
  lifetime : Int
  timeout : Int
  backoffFreq : Int
  lastBackoff : Int
deriving DecidableEq, Repr

def newBackOff (firstSleep timeout backoffFreq : Int) : backOff :=
  { sleep := firstSleep, lifetime := 0, timeout := timeout, backoffFreq := backoffFreq,
    lastBackoff := 0 }

/-- BackoffMin is the minimum time before two firings of the backoff timers. -/
def BackoffMin : Int := 100000000

/-- What a call of backOff.Sleep leaves: whether it returned `io.EOF`, the time
it returned, the record, the runtime, and the calls it made into the runtime. -/
structure Slept (τ : Type) where
  eof : Bool
  time : Int
  b : backOff
  rt : τ
  calls : List EnvCall

/-- The method backOff.Sleep of backoff.go. -/
def backOff.Sleep {τ : Type} (E : Env τ) (b : backOff) (rt : τ) : Slept τ :=
  if b.lifetime ≥ b.timeout then
    { eof := true, time := 0, b := b, rt := rt, calls := [] }
  else
    let effectiveSleep := max64 BackoffMin b.sleep
    let rt := E.Sleep rt effectiveSleep
    let b := { b with lifetime := wrap64 (b.lifetime + effectiveSleep) }
    let b := if wrap64 (b.lifetime - b.lastBackoff) ≥ b.backoffFreq then
        { b with sleep := Int.tdiv (wrap64 (4 * b.sleep)) 3, lastBackoff := b.lifetime }
      else b
    let n := E.Now rt
    { eof := false, time := n.2, b := b, rt := n.1, calls := [.Sleep effectiveSleep, .Now] }

/-- Successive calls of backOff.Sleep until one returns `io.EOF`, at most `fuel`
of them: the durations slept, in order, and the record at the end; `none` when
`fuel` calls did not reach `io.EOF`. -/
def sleepUntilEOF {τ : Type} (E : Env τ) : Nat → backOff → τ → Option (List Int × backOff)
  | 0, _, _ => none
  | fuel + 1, b, rt =>
    let r := b.Sleep E rt
    if r.eof then some ([], r.b)
    else
      match sleepUntilEOF E fuel r.b r.rt with
      | none => none
      | some (ds, b1) => some (max64 BackoffMin b.sleep :: ds, b1)

/-! ## mono.go -/

/-- The struct `monotoneTime` of mono.go; the mutex and the runtime are left
out, the raw reading of the runtime is an argument of Now. -/
structure monotoneTime where
  last : Int
deriving DecidableEq, Repr

/-- The method monotoneTime.Init of mono.go. -/
def monotoneTime.Init (_x : monotoneTime) : monotoneTime :=
  { last := 0 }

/-- The method monotoneTime.Now of mono.go, `now` being the value that
`x.env.Now()` returns in this call. -/
def monotoneTime.Now (x : monotoneTime) (now : Int) : Result (monotoneTime × Int) :=
  if now < x.last then .panic "negative time in mono" (x, 0)
  else
    let x := { x with last := max64 now x.last }
    .ok (x, x.last)

/-- Successive calls of Now, one per raw reading, up to the first panic: the
values returned so far and the record. -/
def monotoneTime.NowAll : monotoneTime → List Int → Result (monotoneTime × List Int)
  | x, [] => .ok (x, [])
  | x, now :: rest =>
    match x.Now now with
    | .panic msg (x1, _) => .panic msg (x1, [])
    | .ok (x1, v) =>
      match monotoneTime.NowAll x1 rest with
      | .panic msg (x2, vs) => .panic msg (x2, v :: vs)
      | .ok (x2, vs) => .ok (x2, v :: vs)

/-! ## synthetic.go -/

/-- The struct `scheduledToSleep` of synthetic.go; the channel `resp` is known
by a number. -/
structure scheduledToSleep where
  wake : Int
  resp : Nat
deriving DecidableEq, Repr

/-- The type `sleeperQueue` of synthetic.go. -/
abbrev sleeperQueue := List scheduledToSleep

/-- The order that `sort.Sort` establishes with the method sleeperQueue.Less:
no element is `Less` than one before it. -/
def wakeLE (a b : scheduledToSleep) : Prop :=
  a.wake ≤ b.wake

instance : DecidableRel wakeLE := fun a b => inferInstanceAs (Decidable (a.wake ≤ b.wake))

/-- What the library function `sort.Sort` does to a queue: it permutes it into
ascending order of `wake`; the order among equal wake times is not fixed. -/
structure SortsByWake (sort : sleeperQueue → sleeperQueue) : Prop where
  perm : ∀ q, (sort q).Perm q
  sorted : ∀ q, (sort q).Sorted wakeLE

/-- The method sleeperQueue.Add of synthetic.go, `sort` standing for `sort.Sort`. -/
def sleeperQueue.Add (sort : sleeperQueue → sleeperQueue) (t : sleeperQueue)
    (a : scheduledToSleep) : sleeperQueue :=
  sort (t ++ [a])

/-- The method sleeperQueue.DeleteMin of synthetic.go: the sleeper returned (nil
is `none`) and the queue left. -/
def sleeperQueue.DeleteMin (t : sleeperQueue) : Option scheduledToSleep × sleeperQueue :=
  match t with
  | [] => (none, [])
  | q :: rest => (some q, rest)

/-- A message on the request channel of the synthetic runtime. -/
inductive Request where
  | requestSleep (duration : Int) (resp : Nat)
  | requestNow (resp : Nat)
  | unknown
deriving DecidableEq, Repr

/-- What the loop of the synthetic runtime does to the tasks: it answers a
requestNow on its channel, or wakes a sleeper by closing its channel; `clock` is
the virtual time at that moment. -/
inductive LoopEffect where
  | answered (resp : Nat) (clock : Int)
  | woke (resp : Nat) (clock : Int)
deriving DecidableEq, Repr

/-- The local variables of SyntheticRuntime.loop. -/
structure LoopVars where
  now : Int
  sleepers : sleeperQueue
  nidle : Int
deriving DecidableEq, Repr

def SpinThreshold : Int := 100

/-- One pass of the `for` of SyntheticRuntime.loop.  `req` is what the `select`
receives from `x.reqch`, `none` when nothing is ready and the `default` case
runs.  The boolean of the result says whether the loop goes on (`false`: the
`break`). -/
def SyntheticRuntime.loopPass (sort : sleeperQueue → sleeperQueue) (v : LoopVars)
    (req : Option Request) : Result (Bool × LoopVars × List LoopEffect) :=
  match req with
  | some (.requestSleep duration resp) =>
    if duration < 0 then .panic "sleeping for negative time" (true, v, [])
    else
      let a : scheduledToSleep := { wake := wrap64 (v.now + duration), resp := resp }
      .ok (true, { v with sleepers := v.sleepers.Add sort a }, [])
  | some (.requestNow resp) => .ok (true, v, [.answered resp v.now])
  | some .unknown => .panic "unknown request" (true, v, [])
  | none =>
    let v := { v with nidle := v.nidle + 1 }
    if v.nidle < SpinThreshold then .ok (true, v, [])
    else
      let d := v.sleepers.DeleteMin
      let v := { v with sleepers := d.2 }
      match d.1 with
      -- If no goroutines are left running, then quit the loop
      | none => .ok (false, v, [])
      | some nextToWake =>
        -- Otherwise set clock forward and wake goroutine
        if nextToWake.wake < v.now then .panic "waking in the past" (true, v, [])
        else
          .ok (true, { v with now := nextToWake.wake },
            [.woke nextToWake.resp nextToWake.wake])

/-- SyntheticRuntime.loop from the variables `v` on, one pass per element of
`reqs`, up to the `break` or a panic; the effects are in order. -/
def SyntheticRuntime.loopFrom (sort : sleeperQueue → sleeperQueue) :
    LoopVars → List (Option Request) → Result (Bool × LoopVars × List LoopEffect)
  | v, [] => .ok (true, v, [])
  | v, req :: reqs =>
    match SyntheticRuntime.loopPass sort v req with
    | .panic msg a => .panic msg a
    | .ok (false, v1, es) => .ok (false, v1, es)
    | .ok (true, v1, es) =>
      match SyntheticRuntime.loopFrom sort v1 reqs with
      | .panic msg (b, v2, es2) => .panic msg (b, v2, es ++ es2)
      | .ok (b, v2, es2) => .ok (b, v2, es ++ es2)

/-- SyntheticRuntime.loop: the loop from `var now int64`, `var sleepers
sleeperQueue`, `var nidle int`. -/
def SyntheticRuntime.loop (sort : sleeperQueue → sleeperQueue)
    (reqs : List (Option Request)) : Result (Bool × LoopVars × List LoopEffect) :=
  SyntheticRuntime.loopFrom sort { now := 0, sleepers := [], nidle := 0 } reqs

/-- The virtual times at which sleepers are woken, in order. -/
def wakeTimes : List LoopEffect → List Int
  | [] => []
  | .woke _ clock :: es => clock :: wakeTimes es
  | .answered _ _ :: es => wakeTimes es

/-! ## muxmsg.go -/

/-- What `Label.Write(p)` leaves: the bytes of `p` after the call, and the
count and the error it returns (`none` is a nil error). -/
structure Written where
  buf : List Nat
  n : Nat
  err : Option String
deriving DecidableEq, Repr

/-- The label codec, declared outside the embedded files: the constant
`labelFootprint`, the function `ReadLabel` (its error, or the label and the
count it returns) and the method `Label.Write`. -/
structure LabelCodec (Label : Type) where
  labelFootprint : Nat
  ReadLabel : List Nat → Except String (Label × Nat)
  Write : Label → List Nat → Written

/-- The label codec round-trips: on a buffer of at least labelFootprint bytes
Write returns labelFootprint and no error and writes in place, and ReadLabel of
a buffer that starts with the bytes written returns the label and
labelFootprint. -/
structure LabelCodec.RoundTrips {Label : Type} (C : LabelCodec Label) : Prop where
  write_ok : ∀ (l : Label) (p : List Nat), C.labelFootprint ≤ p.length →
    (C.Write l p).err = none ∧ (C.Write l p).n = C.labelFootprint ∧
      (C.Write l p).buf.length = p.length
  read_written : ∀ (l : Label) (p rest : List Nat), C.labelFootprint ≤ p.length →
    C.ReadLabel ((C.Write l p).buf.take C.labelFootprint ++ rest) = .ok (l, C.labelFootprint)

/-- The struct `muxMsg` of muxmsg.go. -/
structure muxMsg (Label : Type) where
  Source : Label
  Sink : Label
deriving DecidableEq, Repr

def muxMsgFootprint {Label : Type} (C : LabelCodec Label) : Nat :=
  2 * C.labelFootprint

/-- The function readMuxMsg of muxmsg.go; the slice expression `p[n0:]` panics
when `n0` exceeds `len(p)`. -/
def readMuxMsg {Label : Type} (C : LabelCodec Label) (p : List Nat) :
    Result (Option (muxMsg Label) × Nat × Option String) :=
  match C.ReadLabel p with
  | .error err => .ok (none, 0, some err)
  | .ok (source, n0) =>
    if n0 > p.length then .panic "slice bounds out of range" (none, 0, none)
    else
      match C.ReadLabel (p.drop n0) with
      | .error err => .ok (none, 0, some err)
      | .ok (dest, n1) => .ok (some { Source := source, Sink := dest }, n0 + n1, none)

/-- The method muxMsg.Write of muxmsg.go: the bytes of `p` after the call, the
count and the error. -/
def muxMsg.Write {Label : Type} (C : LabelCodec Label) (msg : muxMsg Label) (p : List Nat) :
    Result (List Nat × Nat × Option String) :=
  let w0 := C.Write msg.Source p
  match w0.err with
  | some err => .ok (w0.buf, 0, some err)
  | none =>
    if w0.n > p.length then .panic "slice bounds out of range" (w0.buf, 0, none)
    else
      let w1 := C.Write msg.Sink (w0.buf.drop w0.n)
      let buf := w0.buf.take w0.n ++ w1.buf
      match w1.err with
      | some err => .ok (buf, 0, some err)
      | none => .ok (buf, w0.n + w1.n, none)

/-! ## goto.go: the transitions and their back-off tasks -/

def REQUEST_BACKOFF_FIRST : Int := 1000000000
def REQUEST_BACKOFF_FREQ : Int := 10000000000
def REQUEST_BACKOFF_TIMEOUT : Int := 30000000000
def RESPOND_TIMEOUT : Int := 30000000000
def LISTEN_TIMEOUT : Int := REQUEST_BACKOFF_TIMEOUT
def CLOSING_BACKOFF_FREQ : Int := 64000000000
def PARTOPEN_BACKOFF_FIRST : Int := 200000000
def PARTOPEN_BACKOFF_FREQ : Int := 200000000
def PARTOPEN_BACKOFF_TIMEOUT : Int := 30000000000
def EXPIRE_INTERVAL : Int := 1000000000

/-- Methods and constants that goto.go uses and that are declared outside the
embedded files: `c.socket.ChooseISS()` (the socket it leaves and the number it
returns), the three header constructors, `c.abort()` and the constant `MSL`. -/
structure GotoDeps (σ ρ υ : Type) where
  ChooseISS : Socket → Socket × Int
  generateRequest : Conn σ ρ υ → Nat → Option writeHeader
  generateAck : Conn σ ρ υ → Option writeHeader
  generateClose : Conn σ ρ υ → Option writeHeader
  abort : Conn σ ρ υ → Conn σ ρ υ
  MSL : Int

/-- The transitions of goto.go with their arguments. -/
inductive Goto where
  | LISTEN
  | RESPOND (hServiceCode : Nat) (hSeqNo : Int)
  | REQUEST (serviceCode : Nat)
  | PARTOPEN
  | OPEN (hSeqNo : Int)
  | TIMEWAIT
  | CLOSING
  | CLOSED
deriving DecidableEq, Repr

section
variable {σ ρ υ τ : Type}

/-- `MSL/4`, the division being that of Go integer constants. -/
def CLOSING_BACKOFF_TIMEOUT (D : GotoDeps σ ρ υ) : Int :=
  Int.tdiv D.MSL 4

/-- `MSL/2`, the division being that of Go integer constants. -/
def TIMEWAIT_TIMEOUT (D : GotoDeps σ ρ υ) : Int :=
  Int.tdiv D.MSL 2

/-- Modelled from the spec: the setters of the socket record are declared
outside the embedded files; a setter stores its argument in the field it is
named after (spec §3, "Socket record").  `f` is the assignment. -/
def Conn.setSocket (c : Conn σ ρ υ) (f : Socket → Socket) : Conn σ ρ υ :=
  { c with socket := f c.socket }

/-- `c.socket.SetState(s)` followed by `c.emitSetState()`, which is logged with
the state it finds. -/
def Conn.SetStateEmit (c : Conn σ ρ υ) (s : State) : Conn σ ρ υ :=
  (c.setSocket (fun k => { k with State := s })).log [Act.setState s, Act.emitSetState s]

/-- The events that `c.inject(h)` logs: the two events of a drop when the
control conduit is full, none otherwise. -/
def injectEvents (c : Conn σ ρ υ) (h : Option writeHeader) : List Act :=
  match c.writeNonData with
  | none => []
  | some ch =>
    if ch.buf.length < ch.cap then []
    else [Act.emit .EventWrite "Write before drop" (.wh h),
      Act.emit .EventDrop "Slow strobe" (.wh h)]

/-- The call `c.inject(h)` made by a transition or a task: the call is logged
and inject runs; inject never has to wait (its send is guarded by the test of
`len`), so the last case does not occur. -/
def Conn.doInject (c : Conn σ ρ υ) (h : Option writeHeader) : Conn σ ρ υ :=
  match inject (c.log [Act.inject h]) h with
  | some c1 => c1
  | none => c.log [Act.inject h]

/-- The method Conn.gotoLISTEN of goto.go; `c.env.Expire` is logged. -/
def gotoLISTEN (c : Conn σ ρ υ) : Result (Conn σ ρ υ) :=
  match AssertLocked c with
  | .panic msg c => .panic msg c
  | .ok c =>
    let c := c.setSocket (fun k => { k with Server := true })
    let c := c.SetStateEmit .LISTEN
    .ok (c.log [Act.expire "gotoLISTEN"])

/-- The method Conn.gotoRESPOND of goto.go. -/
def gotoRESPOND (D : GotoDeps σ ρ υ) (c : Conn σ ρ υ) (hServiceCode : Nat) (hSeqNo : Int) :
    Result (Conn σ ρ υ) :=
  match AssertLocked c with
  | .panic msg c => .panic msg c
  | .ok c =>
    let c := c.SetStateEmit .RESPOND
    let iss := (D.ChooseISS c.socket).2
    let c := c.setSocket (fun k => (D.ChooseISS k).1)
    let c := c.setSocket (fun k => { k with GAR := iss })
    let c := c.setSocket (fun k => { k with ISR := hSeqNo })
    let c := c.setSocket (fun k => { k with GSR := hSeqNo })
    let c := c.setSocket (fun k => { k with ServiceCode := hServiceCode })
    .ok (c.log [Act.expire "gotoRESPOND"])

/-- The method Conn.gotoREQUEST of goto.go; the task given to `c.env.Go` is
logged here and is `requestTaskPass` below. -/
def gotoREQUEST (D : GotoDeps σ ρ υ) (c : Conn σ ρ υ) (serviceCode : Nat) :
    Result (Conn σ ρ υ) :=
  match AssertLocked c with
  | .panic msg c => .panic msg c
  | .ok c =>
    let c := c.setSocket (fun k => { k with Server := false })
    let c := c.SetStateEmit .REQUEST
    let c := c.setSocket (fun k => { k with ServiceCode := serviceCode })
    let iss := (D.ChooseISS c.socket).2
    let c := c.setSocket (fun k => (D.ChooseISS k).1)
    let c := c.setSocket (fun k => { k with GAR := iss })
    let c := c.doInject (D.generateRequest c serviceCode)
    .ok (c.log [Act.go "gotoREQUEST"])

/-- The method Conn.gotoPARTOPEN of goto.go; the task is `partopenTaskPass`. -/
def gotoPARTOPEN (S : SenderCC σ) (R : ReceiverCC ρ) (c : Conn σ ρ υ) : Result (Conn σ ρ υ) :=
  match AssertLocked c with
  | .panic msg c => .panic msg c
  | .ok c =>
    let c := c.SetStateEmit .PARTOPEN
    match openCCID S R c with
    | .panic msg c => .panic msg c
    | .ok c =>
      -- Unblocks the writeLoop select, so it can see the state change
      let c := c.doInject none
      .ok (c.log [Act.go "gotoPARTOPEN"])

/-- The method Conn.gotoOPEN of goto.go. -/
def gotoOPEN (S : SenderCC σ) (R : ReceiverCC ρ) (c : Conn σ ρ υ) (hSeqNo : Int) :
    Result (Conn σ ρ υ) :=
  match AssertLocked c with
  | .panic msg c => .panic msg c
  | .ok c =>
    let c := c.setSocket (fun k => { k with OSR := hSeqNo })
    let c := c.SetStateEmit .OPEN
    match openCCID S R c with
    | .panic msg c => .panic msg c
    | .ok c =>
      -- Unblocks the writeLoop select, so it can see the state change
      .ok (c.doInject none)

/-- `c.setError(err)` followed by `c.teardownUser()`, the first statements of
gotoTIMEWAIT and gotoCLOSING. -/
def Conn.errorAndTeardownUser (H : Helpers υ) (c : Conn σ ρ υ) (e : ConnError) : Conn σ ρ υ :=
  { c with err := H.setError e c.err, user := H.teardownUser c.user,
           trace := c.trace ++ [Act.setError e, Act.teardownUser] }

/-- The method Conn.gotoTIMEWAIT of goto.go; the task given to `c.env.Go` is
logged. -/
def gotoTIMEWAIT (S : SenderCC σ) (R : ReceiverCC ρ) (H : Helpers υ) (c : Conn σ ρ υ) :
    Result (Conn σ ρ υ) :=
  match AssertLocked c with
  | .panic msg c => .panic msg c
  | .ok c =>
    let c := c.errorAndTeardownUser H .ErrEOF
    let c := c.SetStateEmit .TIMEWAIT
    match closeCCID S R c with
    | .panic msg c => .panic msg c
    | .ok c => .ok (c.log [Act.go "gotoTIMEWAIT"])

/-- The method Conn.gotoCLOSING of goto.go; the task is `closingTaskPass`. -/
def gotoCLOSING (S : SenderCC σ) (R : ReceiverCC ρ) (H : Helpers υ) (c : Conn σ ρ υ) :
    Result (Conn σ ρ υ) :=
  match AssertLocked c with
  | .panic msg c => .panic msg c
  | .ok c =>
    let c := c.errorAndTeardownUser H .ErrEOF
    let c := c.SetStateEmit .CLOSING
    match closeCCID S R c with
    | .panic msg c => .panic msg c
    | .ok c => .ok (c.log [Act.go "gotoCLOSING"])

/-- One transition. -/
def Goto.apply (S : SenderCC σ) (R : ReceiverCC ρ) (H : Helpers υ) (D : GotoDeps σ ρ υ)
    (g : Goto) (c : Conn σ ρ υ) : Result (Conn σ ρ υ) :=
  match g with
  | .LISTEN => gotoLISTEN c
  | .RESPOND hServiceCode hSeqNo => gotoRESPOND D c hServiceCode hSeqNo
  | .REQUEST serviceCode => gotoREQUEST D c serviceCode
  | .PARTOPEN => gotoPARTOPEN S R c
  | .OPEN hSeqNo => gotoOPEN S R c hSeqNo
  | .TIMEWAIT => gotoTIMEWAIT S R H c
  | .CLOSING => gotoCLOSING S R H c
  | .CLOSED => gotoCLOSED S R H c

/-- A sequence of transitions, one after the other, up to the first panic. -/
def gotoAll (S : SenderCC σ) (R : ReceiverCC ρ) (H : Helpers υ) (D : GotoDeps σ ρ υ) :
    List Goto → Conn σ ρ υ → Result (Conn σ ρ υ)
  | [], c => .ok c
  | g :: gs, c =>
    match g.apply S R H D c with
    | .panic msg c1 => .panic msg c1
    | .ok c1 => gotoAll S R H D gs c1

/-- What one pass of the loop of a back-off task leaves: whether the loop goes
on (`false`: the `break`), the back-off record, the runtime and the
connection. -/
structure TaskPass (σ ρ υ τ : Type) where
  again : Bool
  b : backOff
  rt : τ
  c : Conn σ ρ υ

/-- One pass of the `for` of the task that gotoREQUEST starts; its back-off
record is `newBackOff(c.env, REQUEST_BACKOFF_FIRST, REQUEST_BACKOFF_TIMEOUT,
REQUEST_BACKOFF_FREQ)` at first.  `others` is what the other tasks have done to
the connection when this task takes the lock. -/
def requestTaskPass (E : Env τ) (D : GotoDeps σ ρ υ) (serviceCode : Nat)
    (others : Conn σ ρ υ → Conn σ ρ υ) (b : backOff) (rt : τ) (c : Conn σ ρ υ) :
    TaskPass σ ρ υ τ :=
  let r := b.Sleep E rt
  let c := c.Lock others
  let state := c.socket.State
  let c := c.log [Act.getState state]
  let c := c.Unlock
  if state ≠ .REQUEST then { again := false, b := r.b, rt := r.rt, c := c }
  -- If the back-off timer has reached maximum wait, quit trying
  else if r.eof then { again := false, b := r.b, rt := r.rt, c := c.ret Act.abort (D.abort c) }
  else
    let c := c.Lock others
    let c := c.log [Act.emit .EventTurn "Request resend" .none]
    let c := c.doInject (D.generateRequest c serviceCode)
    let c := c.Unlock
    { again := true, b := r.b, rt := r.rt, c := c }

/-- One pass of the `for` of the task that gotoPARTOPEN starts; its back-off
record is `newBackOff(c.env, PARTOPEN_BACKOFF_FIRST, PARTOPEN_BACKOFF_TIMEOUT,
PARTOPEN_BACKOFF_FREQ)` at first. -/
def partopenTaskPass (E : Env τ) (D : GotoDeps σ ρ υ)
    (others : Conn σ ρ υ → Conn σ ρ υ) (b : backOff) (rt : τ) (c : Conn σ ρ υ) :
    TaskPass σ ρ υ τ :=
  let r := b.Sleep E rt
  let btm := r.time
  let c := c.Lock others
  let state := c.socket.State
  let c := c.log [Act.getState state]
  let c := c.Unlock
  if state ≠ .PARTOPEN then
    { again := false, b := r.b, rt := r.rt,
      c := c.log [Act.emit .EventInfo "PARTOPEN backoff EXIT via state change" .none] }
  -- If the back-off timer has reached maximum wait. End the connection.
  else if r.eof then { again := false, b := r.b, rt := r.rt, c := c.ret Act.abort (D.abort c) }
  else
    let c := c.log [Act.emit .EventInfo ("PARTOPEN backoff " ++ toString btm) .none]
    let c := c.Lock others
    let c := c.doInject (D.generateAck c)
    let c := c.Unlock
    { again := true, b := r.b, rt := r.rt, c := c }

/-- The statements of the task that gotoCLOSING starts, up to its `for`: the
connection and the back-off record `newBackOff(c.env, 2*rtt,
CLOSING_BACKOFF_TIMEOUT, CLOSING_BACKOFF_FREQ)`. -/
def closingTaskStart (D : GotoDeps σ ρ υ) (others : Conn σ ρ υ → Conn σ ρ υ)
    (c : Conn σ ρ υ) : Conn σ ρ υ × backOff :=
  let c := c.Lock others
  let rtt := c.socket.RTT
  let c := c.Unlock
  let c := c.log [Act.emit .EventInfo ("CLOSING RTT=" ++ toString rtt ++ "ns") .none]
  (c, newBackOff (wrap64 (2 * rtt)) (CLOSING_BACKOFF_TIMEOUT D) CLOSING_BACKOFF_FREQ)

/-- One pass of the `for` of the task that gotoCLOSING starts. -/
def closingTaskPass (E : Env τ) (S : SenderCC σ) (R : ReceiverCC ρ) (H : Helpers υ)
    (D : GotoDeps σ ρ υ) (others : Conn σ ρ υ → Conn σ ρ υ) (b : backOff) (rt : τ)
    (c : Conn σ ρ υ) : Result (TaskPass σ ρ υ τ) :=
  let r := b.Sleep E rt
  let c := c.Lock others
  let state := c.socket.State
  let c := c.log [Act.getState state]
  let c := c.Unlock
  if state ≠ .CLOSING then .ok { again := false, b := r.b, rt := r.rt, c := c }
  else if r.eof then
    let c := c.Lock others
    match gotoTIMEWAIT S R H c with
    | .panic msg c => .panic msg { again := false, b := r.b, rt := r.rt, c := c }
    | .ok c => .ok { again := false, b := r.b, rt := r.rt, c := c.Unlock }
  else
    let c := c.log [Act.emit .EventInfo "Resend Close" .none]
    let c := c.Lock others
    let c := c.doInject (D.generateClose c)
    let c := c.Unlock
    .ok { again := true, b := r.b, rt := r.rt, c := c }

end

/-- A call on a congestion-control module that opens or closes it. -/
inductive CCCall where
  | sccOpen | rccOpen | sccClose | rccClose
deriving DecidableEq, Repr

/-- The lifecycle call that an effect is, if any. -/
def Act.ccCall : Act → Option CCCall
  | .sccOpen => some .sccOpen
  | .rccOpen => some .rccOpen
  | .sccClose => some .sccClose
  | .rccClose => some .rccClose
  | _ => none

/-- The lifecycle calls of a trace, in order. -/
def ccCalls (tr : List Act) : List CCCall :=
  tr.filterMap Act.ccCall

/-- Checks that the calls `op` (Open) and `cl` (Close) of one module alternate
in a sequence of lifecycle calls, `isOpen` telling whether the module is open at
its start: Open only on a closed module, Close only on an open one.  Returns
whether the module is open at the end, `none` when the rule is broken. -/
def alternates (op cl : CCCall) : Bool → List CCCall → Option Bool
  | isOpen, [] => some isOpen
  | isOpen, k :: ks =>
    if k = op then (if isOpen then none else alternates op cl true ks)
    else if k = cl then (if isOpen then alternates op cl false ks else none)
    else alternates op cl isOpen ks

/-- Whether the transition opens the congestion control (`some true`), closes
it (`some false`) or leaves it (`none`). -/
def Goto.opens : Goto → Option Bool
  | .PARTOPEN => some true
  | .OPEN _ => some true
  | .CLOSING => some false
  | .TIMEWAIT => some false
  | .CLOSED => some false
  | _ => none

/-! ## backoff.go and synthetic.go: bounds that keep the arithmetic inside `int64` -/

/-- The bounds under which the additions of backOff.Sleep stay inside `int64`
until the timeout. -/
def backOff.Bounded (b : backOff) : Prop :=
  0 ≤ b.lifetime ∧ b.timeout ≤ 2 ^ 62 ∧
    (b.lifetime < b.timeout → b.lifetime + max BackoffMin b.sleep < 2 ^ 63)

/-- The duration that a request asks to sleep; 0 for a pass that receives no
sleep request. -/
def sleepDuration : Option Request → Int
  | some (.requestSleep duration _) => duration
  | _ => 0

/-- The durations requested in a run of the loop, one per pass. -/
def sleepDurations (reqs : List (Option Request)) : List Int :=
  reqs.map sleepDuration

/-- The queue is sorted and every queued sleeper is to wake between the clock
and `bound`. -/
def LoopVars.Ahead (v : LoopVars) (bound : Int) : Prop :=
  -2 ^ 63 ≤ v.now ∧ v.now ≤ bound ∧ v.sleepers.Sorted wakeLE ∧
    ∀ s ∈ v.sleepers, v.now ≤ s.wake ∧ s.wake ≤ bound

/-! ## chanlink.go -/

/-- The two channels that NewChanPipe makes. -/
inductive ChanId where
  | c0 | c1
deriving DecidableEq, Repr

/-- An unbuffered `chan []byte`: the datagrams of the sends `out <- p` that wait
for a receiver, oldest first, and whether the channel has been closed. -/
structure ByteChan where
  waiting : List (List Nat)
  closed : Bool
deriving DecidableEq, Repr

/-- The struct `ChanLink` of chanlink.go; a nil channel is `none`. -/
structure ChanLink where
  in_ : Option ChanId
  out : Option ChanId
deriving DecidableEq, Repr

/-- The two ends of a pipe. -/
inductive PipeEnd where
  | p | q
deriving DecidableEq, Repr

/-- The other end of the pipe. -/
def PipeEnd.peer : PipeEnd → PipeEnd
  | .p => .q
  | .q => .p

/-- The two channels and the two links of a pipe. -/
structure ChanPipe where
  c0 : ByteChan
  c1 : ByteChan
  p : ChanLink
  q : ChanLink
deriving DecidableEq, Repr

def ChanPipe.chan (w : ChanPipe) : ChanId → ByteChan
  | .c0 => w.c0
  | .c1 => w.c1

def ChanPipe.setChan (w : ChanPipe) (ch : ChanId) (c : ByteChan) : ChanPipe :=
  match ch with
  | .c0 => { w with c0 := c }
  | .c1 => { w with c1 := c }

def ChanPipe.link (w : ChanPipe) : PipeEnd → ChanLink
  | .p => w.p
  | .q => w.q

def ChanPipe.setLink (w : ChanPipe) (l : PipeEnd) (x : ChanLink) : ChanPipe :=
  match l with
  | .p => { w with p := x }
  | .q => { w with q := x }

/-- The function NewChanPipe of chanlink.go. -/
def NewChanPipe : ChanPipe :=
  { c0 := { waiting := [], closed := false },
    c1 := { waiting := [], closed := false },
    p := { in_ := some .c0, out := some .c1 },
    q := { in_ := some .c1, out := some .c0 } }

/-- How a call of a method of a link stands: it waits (`blocks`) on a receive
for which no send waits or on a send that no receive has taken yet, it returned
`n` and `err` with the caller's buffer as the call leaves it, it returned a nil
error (Close), or it panicked. -/
inductive LinkResult where
  | blocks
  | returns (n : Nat) (err : Option ConnError) (buf : List Nat)
  | returnsNil
  | panics (msg : String)
deriving DecidableEq, Repr

/-- The built-in `copy(dst, src)` of Go: the number of bytes copied and `dst`
after the copy. -/
def copy (dst src : List Nat) : Nat × List Nat :=
  (min dst.length src.length,
    src.take (min dst.length src.length) ++ dst.drop (min dst.length src.length))

/-- The method ChanLink.ReadFrom of chanlink.go, called on the end `l`. -/
def ChanLink.ReadFrom (w : ChanPipe) (l : PipeEnd) (buf : List Nat) : ChanPipe × LinkResult :=
  match (w.link l).in_ with
  | none => (w, .returns 0 (some .ErrBad) buf)
  | some ch =>
    match (w.chan ch).waiting with
    | [] =>
      if (w.chan ch).closed then (w, .returns 0 (some ConnError.ErrIO) buf)
      else (w, .blocks)
    | p :: rest =>
      let w := w.setChan ch { waiting := rest, closed := (w.chan ch).closed }
      if (copy buf p).1 ≠ p.length then (w, .panics "insufficient buf len")
      else (w, .returns p.length none (copy buf p).2)

/-- The method ChanLink.WriteTo of chanlink.go, called on the end `l`, up to its
send `out <- p`: the copy of the buffer joins the sends that wait on `out`, and
the call waits until a receive takes it (see `sendEnds` for how it ends).  A send
on a closed channel panics. -/
def ChanLink.WriteTo (w : ChanPipe) (l : PipeEnd) (buf : List Nat) : ChanPipe × LinkResult :=
  match (w.link l).out with
  | none => (w, .returns 0 (some .ErrBad) buf)
  | some ch =>
    if (w.chan ch).closed then (w, .panics "send on closed channel")
    else
      (w.setChan ch { waiting := (w.chan ch).waiting ++ [(copy (List.replicate buf.length 0) buf).2],
                      closed := false },
        .blocks)

/-- How a call of ChanLink.WriteTo whose send waits ends: once a receive has
taken the datagram the send returns and the call runs `return len(buf), nil`; if
the channel is closed while the send waits, the send panics. -/
def ChanLink.sendEnds (buf : List Nat) (taken : Bool) : LinkResult :=
  if taken then .returns buf.length none buf else .panics "send on closed channel"

/-- The method ChanLink.Close of chanlink.go, called on the end `l`.  Closing a
channel makes the sends that wait on it panic, so that their datagrams are never
received; closing a closed channel panics. -/
def ChanLink.Close (w : ChanPipe) (l : PipeEnd) : ChanPipe × LinkResult :=
  match (w.link l).out with
  | none => (w, .returnsNil)
  | some ch =>
    if (w.chan ch).closed then (w, .panics "close of closed channel")
    else
      ((w.setChan ch { waiting := [], closed := true }).setLink l
          { in_ := (w.link l).in_, out := none },
        .returnsNil)

/-- A call of a method of one of the two links. -/
inductive LinkCall where
  | ReadFrom (l : PipeEnd) (buf : List Nat)
  | WriteTo (l : PipeEnd) (buf : List Nat)
  | Close (l : PipeEnd)
deriving DecidableEq, Repr

def ChanPipe.call (w : ChanPipe) : LinkCall → ChanPipe × LinkResult
  | .ReadFrom l buf => ChanLink.ReadFrom w l buf
  | .WriteTo l buf => ChanLink.WriteTo w l buf
  | .Close l => ChanLink.Close w l

/-- The calls made so far on the two links, oldest first, each with how it
stands. -/
abbrev LinkLog := List (LinkCall × LinkResult)

/-- The entry is a call of WriteTo on the end `l` whose send waits. -/
def sendWaits (l : PipeEnd) : LinkCall × LinkResult → Bool
  | (.WriteTo l1 _, .blocks) => decide (l1 = l)
  | _ => false

/-- The entry of a call of WriteTo, with the call ended. -/
def endSend (taken : Bool) : LinkCall × LinkResult → LinkCall × LinkResult
  | (.WriteTo l1 buf, _) => (.WriteTo l1 buf, ChanLink.sendEnds buf taken)
  | e => e

/-- The oldest call of WriteTo on the end `l` whose send waits ends: a channel
hands its datagrams over in the order of the sends. -/
def settleSend (l : PipeEnd) (taken : Bool) : LinkLog → LinkLog
  | [] => []
  | e :: rest =>
    if sendWaits l e then endSend taken e :: rest else e :: settleSend l taken rest

/-- Every call of WriteTo on the end `l` whose send waits ends in the panic of a
send on a closed channel. -/
def failSends (l : PipeEnd) (log : LinkLog) : LinkLog :=
  log.map (fun e => if sendWaits l e then endSend false e else e)

/-- A call of ReadFrom on the end `l` finds a send waiting on `in`. -/
def ChanPipe.takes (w : ChanPipe) (l : PipeEnd) : Bool :=
  match (w.link l).in_ with
  | none => false
  | some ch => !(w.chan ch).waiting.isEmpty

/-- A call of Close on the end `l` closes the channel `out`. -/
def ChanPipe.closes (w : ChanPipe) (l : PipeEnd) : Bool :=
  match (w.link l).out with
  | none => false
  | some ch => !(w.chan ch).closed

/-- What the call `c` does to the calls that wait: a receive on the `in` of an
end takes the datagram of the oldest waiting WriteTo of the other end, whose
`out` is that channel, and that call returns; a Close that closes `out` makes the
waiting calls of WriteTo of its end panic. -/
def ChanPipe.settle (w : ChanPipe) (c : LinkCall) (log : LinkLog) : LinkLog :=
  match c with
  | .ReadFrom l _ => if w.takes l then settleSend l.peer true log else log
  | .WriteTo _ _ => log
  | .Close l => if w.closes l then failSends l log else log

/-- The calls `cs` made on the two links by the goroutines that hold them, in the
order in which they take effect, after the calls of `log`.  A call of ReadFrom
that finds no send waiting is logged as waiting, and the reader's next call of
ReadFrom in the list stands for that call resumed. -/
def ChanPipe.callsFrom (w : ChanPipe) (log : LinkLog) : List LinkCall → ChanPipe × LinkLog
  | [] => (w, log)
  | c :: cs => ChanPipe.callsFrom (w.call c).1 (w.settle c log ++ [(c, (w.call c).2)]) cs

/-- The calls `cs` made on the two links of the pipe `w`, on which no call
waits: the pipe they leave, and each call with how it stands at the end. -/
def ChanPipe.calls (w : ChanPipe) (cs : List LinkCall) : ChanPipe × LinkLog :=
  w.callsFrom [] cs

/-- The datagram of a call of WriteTo on the end `l` whose send was made: the
call returned without error or still waits. -/
def sentDatagram (l : PipeEnd) : LinkCall × LinkResult → Option (List Nat)
  | (.WriteTo l1 buf, .returns _ none _) => if l1 = l then some buf else none
  | (.WriteTo l1 buf, .blocks) => if l1 = l then some buf else none
  | _ => none

/-- The datagram of a call of WriteTo on the end `l` that returned without
error. -/
def returnedDatagram (l : PipeEnd) : LinkCall × LinkResult → Option (List Nat)
  | (.WriteTo l1 buf, .returns _ none _) => if l1 = l then some buf else none
  | _ => none

/-- The datagram of a call of WriteTo on the end `l` whose send waits. -/
def waitingDatagram (l : PipeEnd) : LinkCall × LinkResult → Option (List Nat)
  | (.WriteTo l1 buf, .blocks) => if l1 = l then some buf else none
  | _ => none

/-- The datagram that a call of ReadFrom on the end `l` returned: the first `n`
bytes of the buffer. -/
def receivedDatagram (l : PipeEnd) : LinkCall × LinkResult → Option (List Nat)
  | (.ReadFrom l1 _, .returns n none buf) => if l1 = l then some (buf.take n) else none
  | _ => none

/-- The datagrams that the calls of WriteTo on the end `l` sent, in order. -/
def written (l : PipeEnd) (log : LinkLog) : List (List Nat) :=
  log.filterMap (sentDatagram l)

/-- The datagrams of the calls of WriteTo on the end `l` that returned, in
order. -/
def returnedSends (l : PipeEnd) (log : LinkLog) : List (List Nat) :=
  log.filterMap (returnedDatagram l)

/-- The datagrams of the calls of WriteTo on the end `l` that wait, in order. -/
def waitingSends (l : PipeEnd) (log : LinkLog) : List (List Nat) :=
  log.filterMap (waitingDatagram l)

/-- The datagrams that the calls of ReadFrom on the end `l` returned, in order. -/
def received (l : PipeEnd) (log : LinkLog) : List (List Nat) :=
  log.filterMap (receivedDatagram l)

/-- No call of WriteTo on the end `l` has returned after one that still waits. -/
def settledFirst (l : PipeEnd) : LinkLog → Prop
  | [] => True
  | e :: rest => (sendWaits l e = true → returnedSends l rest = []) ∧ settledFirst l rest

/-- The buffers of a run are large enough for datagrams of at most `m` bytes,
and the run closes no link. -/
def LinkCall.fits (m : Nat) : LinkCall → Prop
  | .ReadFrom _ buf => m ≤ buf.length
  | .WriteTo _ buf => buf.length ≤ m
  | .Close _ => False

/-- Both links are as NewChanPipe made them and neither channel is closed. -/
def ChanPipe.Open (w : ChanPipe) : Prop :=
  w.p = { in_ := some .c0, out := some .c1 } ∧ w.q = { in_ := some .c1, out := some .c0 } ∧
  w.c0.closed = false ∧ w.c1.closed = false

/-- A call of WriteTo returned the length of its buffer and no error; a call of
ReadFrom waits or returned a datagram, its length and no error, the datagram at
the front of the buffer and the rest of the buffer as it was. -/
def wellEnded : LinkCall × LinkResult → Prop
  | (.WriteTo _ buf, r) => r = .returns buf.length none buf
  | (.ReadFrom _ buf, r) =>
    r = .blocks ∨ ∃ d : List Nat, r = .returns d.length none (d ++ buf.drop d.length)
  | (.Close _, _) => False

/-- The pipe and the log agree: the sends that wait on a channel are the calls
of WriteTo that wait on the end that sends on it, the calls of WriteTo that
returned on an end are those whose datagram the other end received, and on each
end the calls that returned come before those that wait. -/
def ChanPipe.Agrees (w : ChanPipe) (log : LinkLog) : Prop :=
  waitingSends .p log = w.c1.waiting ∧ waitingSends .q log = w.c0.waiting ∧
  returnedSends .p log = received .q log ∧ returnedSends .q log = received .p log ∧
  settledFirst .p log ∧ settledFirst .q log

/-! ## Properties of traces -/

/-- What an effect of the writer is, payloads left out: the six steps of the
per-packet send (spec §4.4), the receives on the two conduits, the state read
of `_Loop_I`, the construction of a DataAck and the quiet abort. -/
inductive Mark where
  | strobe | lock | seqAck | cc | unlock | codec
  | ctl | ctlClosed | data | dataClosed | genDataAck
  | state (s : State)
  | abort
deriving DecidableEq, Repr

/-- The mark of an effect; effects of the congestion-control hooks, the clock
and the event log have none. -/
def Act.mark : Act → Option Mark
  | .sccStrobe => some .strobe
  | .lock => some .lock
  | .writeSeqAck _ => some .seqAck
  | .writeCC _ _ => some .cc
  | .unlock => some .unlock
  | .hcWrite _ => some .codec
  | .recvNonData _ => some .ctl
  | .recvNonDataClosed => some .ctlClosed
  | .recvData _ => some .data
  | .recvDataClosed => some .dataClosed
  | .generateDataAck _ => some .genDataAck
  | .getState s => some (.state s)
  | .abortQuietly => some .abort
  | _ => none

/-- The marks of a trace, in order. -/
def marks (tr : List Act) : List Mark :=
  tr.filterMap Act.mark

/-- The lock rule on a sequence of marks, `held` telling whether the task holds
the connection lock at its start: the sender strobe and the link write happen
with the lock released, WriteSeqAck and WriteCC with the lock held, and Lock and
Unlock alternate. -/
def lockRule : Bool → List Mark → Bool
  | _, [] => true
  | held, .lock :: ms => !held && lockRule true ms
  | held, .unlock :: ms => held && lockRule false ms
  | held, .strobe :: ms => !held && lockRule held ms
  | held, .codec :: ms => !held && lockRule held ms
  | held, .seqAck :: ms => held && lockRule held ms
  | held, .cc :: ms => held && lockRule held ms
  | held, _ :: ms => lockRule held ms

/-- Whether the task holds the lock after a sequence of marks. -/
def heldAfter : Bool → List Mark → Bool
  | held, [] => held
  | _, .lock :: ms => heldAfter true ms
  | _, .unlock :: ms => heldAfter false ms
  | held, _ :: ms => heldAfter held ms

/-- Whether a mark is the taking of a data payload or the making of a DataAck. -/
def Mark.isData : Mark → Bool
  | .data => true
  | .genDataAck => true
  | _ => false

/-- The marks that the statement `if h != nil { ... c.write(h) ... }` of the
loops can leave, with whether it panicked and whether it took `goto _Exit`;
`hcErr` tells whether the link write fails. -/
inductive SendShape (hcErr : Bool) : Bool → Bool → List Mark → Prop where
  | wake : SendShape hcErr false false []
  | sent : hcErr = false →
      SendShape hcErr false false [.strobe, .lock, .seqAck, .cc, .unlock, .codec]
  | failed : hcErr = true →
      SendShape hcErr false true [.strobe, .lock, .seqAck, .cc, .unlock, .codec, .abort]
  | panic : SendShape hcErr true false [.strobe, .lock, .seqAck, .cc]

/-- The marks that one iteration of the writer's loop can leave, by the phase
it starts in, the phase it ends in and whether it panicked. -/
inductive StepShape (hcErr : Bool) : Phase → Phase → Bool → List Mark → Prop where
  | blocked (p : Phase) : StepShape hcErr p p false []
  | ctlClosed (p : Phase) : p ≠ .Exit → StepShape hcErr p .Exit false [.ctlClosed]
  | dataClosed : StepShape hcErr .II .III false [.dataClosed]
  | ctlI (sm : List Mark) (s : State) : SendShape hcErr false false sm →
      StepShape hcErr .I (if s = .OPEN ∨ s = .PARTOPEN then .II else .I) false
        (.ctl :: sm ++ [.lock, .state s, .unlock])
  | ctlGo (p : Phase) (sm : List Mark) : p = .II ∨ p = .III →
      SendShape hcErr false false sm → StepShape hcErr p p false (.ctl :: sm)
  | ctlStop (p : Phase) (sm : List Mark) (pan ex : Bool) : p ≠ .Exit →
      (pan || ex) = true → SendShape hcErr pan ex sm →
      StepShape hcErr p (if ex then .Exit else p) pan (.ctl :: sm)
  | data (sm : List Mark) (pan ex : Bool) : SendShape hcErr pan ex sm →
      StepShape hcErr .II (if ex then .Exit else .II) pan
        (.data :: .lock :: .genDataAck :: .unlock :: sm)

/-- The effects that a call added to the trace `before`. -/
def added (before after : List Act) : List Act :=
  after.drop before.length

/-- The order of the per-packet send as spec §4.4 words it. -/
def specSendOrder : List Mark :=
  [.lock, .seqAck, .cc, .unlock, .strobe, .codec]

/-- The order of the per-packet send in Conn.write. -/
def codeSendOrder : List Mark :=
  [.strobe, .lock, .seqAck, .cc, .unlock, .codec]

/-! ## Concrete modules and inputs used to evaluate the embedding -/

/-- A blank header of the given packet type. -/
def blankHeader (ty : Nat) : Header :=
  { Type_ := ty, X := true, SeqNo := 0, AckNo := 0, ServiceCode := 0, CCVal := 0,
    Options := [], Data := [] }

/-- A socket record in the given state. -/
def blankSocket (s : State) : Socket :=
  { ISS := 0, ISR := 0, GSS := 0, GSR := 0, GAR := 0, OSR := 0, ServiceCode := 0,
    Server := false, State := s, RTT := 0 }

/-- A connection over stateless congestion-control modules, with the control
conduit `ch`. -/
def blankConn (s : State) (ch : Option (Chan (Option writeHeader))) : Conn Unit Unit Unit :=
  { socket := blankSocket s, scc := (), rcc := (), ccidOpen := false, err := none,
    user := (), writeNonData := ch, locked := false, trace := [] }

/-- A sender congestion control that places the options `opts` on every packet. -/
def sccWith (opts : List DccpOption) : SenderCC Unit :=
  { Open := id, Close := id, OnWrite := fun s _ => (s, 0, opts), Strobe := id }

/-- A receiver congestion control that places the options `opts` on every packet. -/
def rccWith (opts : List DccpOption) : ReceiverCC Unit :=
  { Open := id, Close := id, OnWrite := fun s _ => (s, opts) }

/-- An option of the given type with no payload. -/
def optOfType (t : Nat) : DccpOption :=
  { Type_ := t, Data := [], Mandatory := false }

/-- Externals that leave the connection and the header as they are; a data
payload becomes a header of type DataAck (4) that carries it. -/
def plainExternals : Externals Unit Unit Unit :=
  { WriteSeqAck := fun c h => (c, h),
    generateDataAck := fun c appData =>
      (c, some { Header := { blankHeader 4 with Data := appData }, SeqAckType := 0,
                 InResponseTo := none }),
    abortQuietly := fun c => c }

/-- A control envelope: a header of type Ack (3). -/
def ackEnvelope : writeHeader :=
  { Header := blankHeader 3, SeqAckType := 0, InResponseTo := none }

/-- A tick at which both conduits hold an item and the `select` takes its
second case. -/
def tickBothReady : Tick Unit Unit Unit :=
  { nonData := some (.item (some ackEnvelope)), data := some (.item [7]), pick := false,
    others := id, timeWrite := 10, hcErr := false }

/-- A tick at which only the control conduit holds an item. -/
def tickControl : Tick Unit Unit Unit :=
  { nonData := some (.item (some ackEnvelope)), data := none, pick := true,
    others := id, timeWrite := 10, hcErr := false }

/-- Helpers that record the error they are given, leave the user side as it is
and clear the control conduit. -/
def plainHelpers : Helpers Unit :=
  { setError := fun e _ => some e, teardownUser := id, teardownWriteLoop := fun _ => none }

/-- A tick at which the control conduit offers `r` and the data conduit `d`, the
`select` preferring its first case. -/
def tickOf (r : Option (Recv (Option writeHeader))) (d : Option (Recv (List Nat))) :
    Tick Unit Unit Unit :=
  { nonData := r, data := d, pick := true, others := id, timeWrite := 10, hcErr := false }

/-- A runtime that is a clock: sleeping adds the duration to the time. -/
def clockEnv : Env Int :=
  { Sleep := fun t d => t + d, Now := fun t => (t, t) }

/-- A back-off record whose sleep is negative. -/
def negativeSleep : backOff :=
  { sleep := -1, lifetime := 0, timeout := 1, backoffFreq := 0, lastBackoff := 0 }

/-- A back-off record whose sleep is 2^62 ns. -/
def hugeSleep : backOff :=
  { sleep := 2 ^ 62, lifetime := 0, timeout := 1, backoffFreq := 0, lastBackoff := 0 }

/-- A back-off record whose lifetime is two short of the largest `int64`. -/
def lateLifetime : backOff :=
  { sleep := 0, lifetime := 2 ^ 63 - 2, timeout := 2 ^ 63 - 1, backoffFreq := 0,
    lastBackoff := 0 }

/-- A back-off record whose lastBackoff is the least `int64`. -/
def earlyBackoff : backOff :=
  { sleep := 5, lifetime := 0, timeout := 1, backoffFreq := 0, lastBackoff := -2 ^ 63 }

/-- A stand-in for `sort.Sort`: insertion sort by wake time. -/
def sortByWake (q : sleeperQueue) : sleeperQueue :=
  q.insertionSort wakeLE

/-- A run of the loop in which a task sleeps 1 ns and is woken, and a second
task then asks to sleep 2^63 - 1 ns. -/
def overflowRun : List (Option Request) :=
  [some (.requestSleep 1 0)] ++ List.replicate 100 none ++
    [some (.requestSleep (2 ^ 63 - 1) 1), none]

/-- A label codec with labels of two bytes. -/
def pairCodec : LabelCodec (Nat × Nat) :=
  { labelFootprint := 2,
    ReadLabel := fun p =>
      match p with
      | a :: b :: _ => .ok ((a, b), 2)
      | _ => .error "short",
    Write := fun l p =>
      if p.length < 2 then { buf := p, n := 0, err := some "short" }
      else { buf := l.1 :: l.2 :: p.drop 2, n := 2, err := none } }

/-- Dependencies of goto.go that build headers of the RFC 4340 types Request
(0), Ack (3) and Close (6), leave the socket alone and take MSL to be 2 min. -/
def plainDeps : GotoDeps Unit Unit Unit :=
  { ChooseISS := fun k => (k, 1),
    generateRequest := fun _ serviceCode =>
      some { Header := { blankHeader 0 with ServiceCode := serviceCode }, SeqAckType := 0,
             InResponseTo := none },
    generateAck := fun _ => some ackEnvelope,
    generateClose := fun _ =>
      some { Header := blankHeader 6, SeqAckType := 0, InResponseTo := none },
    abort := fun c => c,
    MSL := 120000000000 }

/-- A fresh connection with the lock held: state CLOSED, congestion control not
open, a control conduit of capacity 5. -/
def freshLockedConn : Conn Unit Unit Unit :=
  { blankConn .CLOSED (some { buf := [], cap := 5 }) with locked := true }

/-- The transitions of a client from the request to the end of the connection,
followed by a second pass through OPEN. -/
def clientLife : List Goto :=
  [.REQUEST 7, .PARTOPEN, .OPEN 5, .CLOSING, .TIMEWAIT, .CLOSED, .OPEN 9, .PARTOPEN, .CLOSED]

/-- The back-off record of the REQUEST task once its lifetime has reached the
timeout. -/
def expiredRequestBackOff : backOff :=
  { newBackOff REQUEST_BACKOFF_FIRST REQUEST_BACKOFF_TIMEOUT REQUEST_BACKOFF_FREQ with
    lifetime := REQUEST_BACKOFF_TIMEOUT }

/-- A back-off timer with first sleep 2^60 ns, the largest `int64` as timeout and
as back-off period, after `k` sleeps. -/
def wrappingTimer (k : Nat) : backOff :=
  { newBackOff (2 ^ 60) (2 ^ 63 - 1) (2 ^ 63 - 1) with lifetime := wrap64 (k * 2 ^ 60) }

/-- A back-off record whose first sleep overflows the lifetime. -/
def overflowingSleep : backOff :=
  { sleep := 2 ^ 63 - 1, lifetime := 1, timeout := 2, backoffFreq := 2 ^ 63 - 1,
    lastBackoff := 0 }

/-- A back-off record whose lifetime is negative. -/
def negativeLifetime : backOff :=
  { sleep := 0, lifetime := -1000000000, timeout := 1, backoffFreq := 1000000000,
    lastBackoff := 0 }

/-- Two tasks ask to sleep 1 ns and 2 ns, and the loop then spins 100 times. -/
def spinRun : List (Option Request) :=
  [some (.requestSleep 1 0), some (.requestSleep 2 1)] ++ List.replicate 100 none

/-- A task sleeps 2^63 - 1 ns and is woken, and a second task then asks to sleep
1 ns. -/
def lateSleepRun : List (Option Request) :=
  [some (.requestSleep (2 ^ 63 - 1) 0)] ++ List.replicate 100 none ++
    [some (.requestSleep 1 1), none]

/-! ## Theorems -/

theorem validateCCIDSenderToReceiver_eq_all (opts : List DccpOption) :
    validateCCIDSenderToReceiver opts = opts.all (fun o => isOptionCCIDSenderToReceiver o.Type_) := by
  induction opts with
  | nil => rfl
  | cons o opts ih =>
    simp only [validateCCIDSenderToReceiver, List.all_cons, ih]
    cases isOptionCCIDSenderToReceiver o.Type_ <;> simp

theorem validateCCIDReceiverToSender_eq_all (opts : List DccpOption) :
    validateCCIDReceiverToSender opts = opts.all (fun o => isOptionCCIDReceiverToSender o.Type_) := by
  induction opts with
  | nil => rfl
  | cons o opts ih =>
    simp only [validateCCIDReceiverToSender, List.all_cons, ih]
    cases isOptionCCIDReceiverToSender o.Type_ <;> simp

theorem isOptionCCIDSenderToReceiver_iff (t : Nat) :
    isOptionCCIDSenderToReceiver t = true ↔ (38 ≤ t ∧ t ≤ 43) ∨ (128 ≤ t ∧ t ≤ 191) := by
  simp [isOptionCCIDSenderToReceiver]

theorem isOptionCCIDReceiverToSender_iff (t : Nat) :
    isOptionCCIDReceiverToSender t = true ↔ (38 ≤ t ∧ t ≤ 43) ∨ (192 ≤ t ∧ t ≤ 255) := by
  simp [isOptionCCIDReceiverToSender]

/-- C2: validateCCIDSenderToReceiver returns true exactly when every option of
the list has a type in 38..43 or 128..191; so it is true on the empty list and
false on every list in which some option has a type outside these ranges. -/
theorem validateCCIDSenderToReceiver_iff :
    (∀ opts : List DccpOption,
      validateCCIDSenderToReceiver opts = true ↔
        ∀ o ∈ opts, (38 ≤ o.Type_ ∧ o.Type_ ≤ 43) ∨ (128 ≤ o.Type_ ∧ o.Type_ ≤ 191)) ∧
    validateCCIDSenderToReceiver [] = true ∧
    (∀ (pre post : List DccpOption) (o : DccpOption),
      ¬ ((38 ≤ o.Type_ ∧ o.Type_ ≤ 43) ∨ (128 ≤ o.Type_ ∧ o.Type_ ≤ 191)) →
        validateCCIDSenderToReceiver (pre ++ o :: post) = false) := by
  have key : ∀ opts : List DccpOption,
      validateCCIDSenderToReceiver opts = true ↔
        ∀ o ∈ opts, (38 ≤ o.Type_ ∧ o.Type_ ≤ 43) ∨ (128 ≤ o.Type_ ∧ o.Type_ ≤ 191) := by
    intro opts
    rw [validateCCIDSenderToReceiver_eq_all, List.all_eq_true]
    exact forall₂_congr fun o _ => isOptionCCIDSenderToReceiver_iff o.Type_
  refine ⟨key, rfl, ?_⟩
  intro pre post o ho
  cases hv : validateCCIDSenderToReceiver (pre ++ o :: post) with
  | false => rfl
  | true => exact absurd ((key _).1 hv o (by simp)) ho

/-- C3: validateCCIDReceiverToSender returns true exactly when every option of
the list has a type in 38..43 or 192..255. -/
theorem validateCCIDReceiverToSender_iff (opts : List DccpOption) :
    validateCCIDReceiverToSender opts = true ↔
      ∀ o ∈ opts, (38 ≤ o.Type_ ∧ o.Type_ ≤ 43) ∨ (192 ≤ o.Type_ ∧ o.Type_ ≤ 255) := by
  rw [validateCCIDReceiverToSender_eq_all, List.all_eq_true]
  exact forall₂_congr fun o _ => isOptionCCIDReceiverToSender_iff o.Type_

theorem validate_s2r_false_iff (opts : List DccpOption) :
    validateCCIDSenderToReceiver opts = false ↔
      ∃ o ∈ opts, isOptionCCIDSenderToReceiver o.Type_ = false := by
  rw [validateCCIDSenderToReceiver_eq_all, List.all_eq_false]
  simp

theorem validate_r2s_false_iff (opts : List DccpOption) :
    validateCCIDReceiverToSender opts = false ↔
      ∃ o ∈ opts, isOptionCCIDReceiverToSender o.Type_ = false := by
  rw [validateCCIDReceiverToSender_eq_all, List.all_eq_false]
  simp

section
variable {σ ρ υ : Type}

/-- C1: Conn.WriteCC panics exactly when the sender congestion control returns
an option that is not sender-to-receiver valid or the receiver congestion
control returns one that is not receiver-to-sender valid; a sender option of
type 200 always panics; and whenever it panics the option list of the header
is the one it was called with. -/
theorem WriteCC_panics_iff (S : SenderCC σ) (R : ReceiverCC ρ) (c : Conn σ ρ υ)
    (h : Header) (timeWrite : Int) :
    ((WriteCC S R c h timeWrite).panicked = true ↔
      (∃ o ∈ (S.OnWrite c.scc (mkPreHeader h timeWrite)).2.2,
          isOptionCCIDSenderToReceiver o.Type_ = false) ∨
      (∃ o ∈ (R.OnWrite c.rcc (mkPreHeader h timeWrite)).2,
          isOptionCCIDReceiverToSender o.Type_ = false)) ∧
    ((∃ o ∈ (S.OnWrite c.scc (mkPreHeader h timeWrite)).2.2, o.Type_ = 200) →
      (WriteCC S R c h timeWrite).panicked = true) ∧
    ((WriteCC S R c h timeWrite).panicked = true →
      (WriteCC S R c h timeWrite).val.2.Options = h.Options) := by
  have hph : ∀ v : Int, mkPreHeader { h with CCVal := v } timeWrite = mkPreHeader h timeWrite :=
    fun _ => rfl
  cases hs : validateCCIDSenderToReceiver (S.OnWrite c.scc (mkPreHeader h timeWrite)).2.2 with
  | false =>
    have hs1 := (validate_s2r_false_iff _).1 hs
    have hp : (WriteCC S R c h timeWrite).panicked = true := by
      simp [WriteCC, Conn.log, hs, Result.panicked]
    refine ⟨⟨fun _ => Or.inl hs1, fun _ => hp⟩, fun _ => hp, fun _ => ?_⟩
    simp [WriteCC, Conn.log, hs, Result.val]
  | true =>
    have hs1 : ¬ ∃ o ∈ (S.OnWrite c.scc (mkPreHeader h timeWrite)).2.2,
        isOptionCCIDSenderToReceiver o.Type_ = false := by
      rw [← validate_s2r_false_iff, hs]; simp
    have h200 : ¬ ∃ o ∈ (S.OnWrite c.scc (mkPreHeader h timeWrite)).2.2, o.Type_ = 200 := by
      rintro ⟨o, ho, h2⟩
      exact hs1 ⟨o, ho, by rw [h2]; rfl⟩
    cases hr : validateCCIDReceiverToSender (R.OnWrite c.rcc (mkPreHeader h timeWrite)).2 with
    | false =>
      have hr1 := (validate_r2s_false_iff _).1 hr
      have hp : (WriteCC S R c h timeWrite).panicked = true := by
        simp [WriteCC, Conn.log, hs, hph, hr, Result.panicked]
      refine ⟨⟨fun _ => Or.inr hr1, fun _ => hp⟩, fun _ => hp, fun _ => ?_⟩
      simp [WriteCC, Conn.log, hs, hph, hr, Result.val]
    | true =>
      have hr1 : ¬ ∃ o ∈ (R.OnWrite c.rcc (mkPreHeader h timeWrite)).2,
          isOptionCCIDReceiverToSender o.Type_ = false := by
        rw [← validate_r2s_false_iff, hr]; simp
      have hp : (WriteCC S R c h timeWrite).panicked = false := by
        simp [WriteCC, Conn.log, hs, hph, hr, Result.panicked]
      refine ⟨⟨fun hp1 => ?_, fun hx => ?_⟩, fun hx => absurd hx h200, fun hp1 => ?_⟩
      · rw [hp] at hp1; exact absurd hp1 (by simp)
      · rcases hx with hx | hx
        · exact absurd hx hs1
        · exact absurd hx hr1
      · rw [hp] at hp1; exact absurd hp1 (by simp)

/-- C5: Conn.inject does nothing when writeNonData is nil; appends h at the tail
and emits no event when the conduit holds fewer items than its capacity; leaves
the conduit unchanged and emits exactly an EventWrite then an EventDrop event,
both carrying h, when it is full; it never waits on the send; and a conduit within
its capacity stays within it. -/
theorem inject_spec (c : Conn σ ρ υ) (h : Option writeHeader) :
    (c.writeNonData = none → inject c h = some c) ∧
    (∀ ch, c.writeNonData = some ch → ch.buf.length < ch.cap →
      inject c h = some { c with writeNonData := some { ch with buf := ch.buf ++ [h] } }) ∧
    (∀ ch, c.writeNonData = some ch → ch.cap ≤ ch.buf.length →
      inject c h = some { c with trace := c.trace ++
        [Act.emit .EventWrite "Write before drop" (.wh h),
         Act.emit .EventDrop "Slow strobe" (.wh h)] }) ∧
    inject c h ≠ none ∧
    (∀ ch, c.writeNonData = some ch → ch.buf.length ≤ ch.cap →
      ∃ c1 ch1, inject c h = some c1 ∧ c1.writeNonData = some ch1 ∧
        ch1.cap = ch.cap ∧ ch1.buf.length ≤ ch1.cap) := by
  refine ⟨?_, ?_, ?_, ?_, ?_⟩
  · intro hn
    simp [inject, hn]
  · intro ch hc hlt
    simp [inject, hc, hlt, Chan.send]
  · intro ch hc hge
    simp [inject, hc, Nat.not_lt.2 hge, Conn.log]
  · cases hc : c.writeNonData with
    | none => simp [inject, hc]
    | some ch =>
      by_cases hlt : ch.buf.length < ch.cap
      · simp [inject, hc, hlt, Chan.send]
      · simp [inject, hc, hlt]
  · intro ch hc hle
    by_cases hlt : ch.buf.length < ch.cap
    · refine ⟨{ c with writeNonData := some { ch with buf := ch.buf ++ [h] } },
        { ch with buf := ch.buf ++ [h] }, ?_, rfl, rfl, ?_⟩
      · simp [inject, hc, hlt, Chan.send]
      · simp only [List.length_append, List.length_singleton]
        omega
    · refine ⟨c.log [Act.emit .EventWrite "Write before drop" (.wh h),
        Act.emit .EventDrop "Slow strobe" (.wh h)], ch, ?_, ?_, rfl, hle⟩
      · simp only [inject, hc, hlt, if_false]
      · simp [Conn.log, hc]

end

/-- C4: on a Data header without options, with a sender congestion control that
places one option of type 128, Conn.WriteCC returns normally and leaves on the
header an option that isOptionValidForType rejects for Data packets. -/
theorem WriteCC_data_option_not_filtered :
    (WriteCC (sccWith [optOfType 128]) (rccWith []) (blankConn .OPEN none)
        (blankHeader Data) 0).panicked = false ∧
    (WriteCC (sccWith [optOfType 128]) (rccWith []) (blankConn .OPEN none)
        (blankHeader Data) 0).val.2.Options = [optOfType 128] ∧
    (∀ o ∈ (blankHeader Data).Options, isOptionValidForType o.Type_ Data = true) ∧
    isOptionValidForType (optOfType 128).Type_ (blankHeader Data).Type_ = false := by
  refine ⟨by decide, by decide, by decide, by decide⟩

/-! ### Traces of the writer -/

theorem marks_append (a b : List Act) : marks (a ++ b) = marks a ++ marks b := by
  simp [marks, List.filterMap_append]

theorem marks_nil : marks [] = [] := rfl

theorem marks_cons (a : Act) (l : List Act) :
    marks (a :: l) = (match a.mark with
      | some m => m :: marks l
      | none => marks l) := by
  simp only [marks, List.filterMap_cons]
  cases a.mark <;> rfl

theorem added_append (a b : List Act) : added a (a ++ b) = b := by
  simp [added]

theorem lockRule_append (held : Bool) (a b : List Mark) :
    lockRule held (a ++ b) = (lockRule held a && lockRule (heldAfter held a) b) := by
  induction a generalizing held with
  | nil => simp [lockRule, heldAfter]
  | cons m a ih =>
    cases m <;> simp [lockRule, heldAfter, ih, Bool.and_assoc]

theorem heldAfter_append (held : Bool) (a b : List Mark) :
    heldAfter held (a ++ b) = heldAfter (heldAfter held a) b := by
  induction a generalizing held with
  | nil => simp [heldAfter]
  | cons m a ih =>
    cases m <;> simp [heldAfter, ih]

section
variable {σ ρ υ : Type}

theorem WriteCC_marks (S : SenderCC σ) (R : ReceiverCC ρ) (c : Conn σ ρ υ) (h : Header)
    (tw : Int) :
    ∃ ext, (WriteCC S R c h tw).val.1.trace = c.trace ++ ext ∧ marks ext = [.cc] ∧
      (WriteCC S R c h tw).val.1.locked = c.locked := by
  have hph : ∀ v : Int, mkPreHeader { h with CCVal := v } tw = mkPreHeader h tw :=
    fun _ => rfl
  cases hs : validateCCIDSenderToReceiver (S.OnWrite c.scc (mkPreHeader h tw)).2.2 <;>
    cases hr : validateCCIDReceiverToSender (R.OnWrite c.rcc (mkPreHeader h tw)).2 <;>
    simp [WriteCC, Conn.log, hs, hr, hph, Result.val, marks, Act.mark]

theorem WriteCC_marks_of (S : SenderCC σ) (R : ReceiverCC ρ) (c : Conn σ ρ υ) (h : Header)
    (tw : Int) (r : Result (Conn σ ρ υ × Header)) (hr : WriteCC S R c h tw = r) :
    ∃ ext, r.val.1.trace = c.trace ++ ext ∧ marks ext = [.cc] := by
  obtain ⟨ext, h1, h2, _⟩ := WriteCC_marks S R c h tw
  exact ⟨ext, hr ▸ h1, h2⟩

@[simp] theorem trace_log (c : Conn σ ρ υ) (as : List Act) :
    (c.log as).trace = c.trace ++ as := rfl

@[simp] theorem trace_Lock (f : Conn σ ρ υ → Conn σ ρ υ) (c : Conn σ ρ υ) :
    (c.Lock f).trace = c.trace ++ [Act.lock] := rfl

@[simp] theorem trace_Unlock (c : Conn σ ρ υ) : c.Unlock.trace = c.trace ++ [Act.unlock] := rfl

@[simp] theorem trace_Strobe (S : SenderCC σ) (c : Conn σ ρ υ) :
    (c.Strobe S).trace = c.trace ++ [Act.sccStrobe] := rfl

@[simp] theorem trace_ret (c c1 : Conn σ ρ υ) (a : Act) :
    (c.ret a c1).trace = c.trace ++ [a] := rfl

theorem write_marks (S : SenderCC σ) (R : ReceiverCC ρ) (X : Externals σ ρ υ)
    (c : Conn σ ρ υ) (h : writeHeader) (t : Tick σ ρ υ) :
    ∃ ext, (write S R X c h t).val.1.trace = c.trace ++ ext ∧
      marks ext = (if (write S R X c h t).panicked then [.strobe, .lock, .seqAck, .cc]
        else codeSendOrder) ∧
      ((write S R X c h t).panicked = false → (write S R X c h t).val.2.2 = t.hcErr) := by
  cases hw : WriteCC S R
      ((((c.Strobe S).Lock t.others).ret (Act.writeSeqAck h)
        (X.WriteSeqAck ((c.Strobe S).Lock t.others) h).1).log [Act.timeNow])
      (X.WriteSeqAck ((c.Strobe S).Lock t.others) h).2.Header t.timeWrite with
  | ok a =>
    obtain ⟨ext, h1, h2⟩ := WriteCC_marks_of S R _ _ _ _ hw
    simp only [Result.val, trace_log, trace_ret, trace_Lock, trace_Strobe] at h1
    simp [write, hw, Result.val, Result.panicked, h1, marks_append, h2, marks_cons, marks_nil,
      Act.mark, codeSendOrder]
  | panic msg a =>
    obtain ⟨ext, h1, h2⟩ := WriteCC_marks_of S R _ _ _ _ hw
    simp only [Result.val, trace_log, trace_ret, trace_Lock, trace_Strobe] at h1
    simp [write, hw, Result.val, Result.panicked, h1, marks_append, h2, marks_cons, marks_nil,
      Act.mark]

theorem sendIfAny_shape (S : SenderCC σ) (R : ReceiverCC ρ) (X : Externals σ ρ υ)
    (c : Conn σ ρ υ) (h : Option writeHeader) (t : Tick σ ρ υ)
    (r : Result (Conn σ ρ υ × Bool)) (hr : sendIfAny S R X c h t = r) :
    ∃ ext, r.val.1.trace = c.trace ++ ext ∧
      SendShape t.hcErr r.panicked (!r.panicked && r.val.2) (marks ext) := by
  subst hr
  cases h with
  | none => exact ⟨[], by simp [sendIfAny, Result.val], by
      simpa [sendIfAny, Result.val, Result.panicked, marks_nil] using SendShape.wake⟩
  | some wh =>
    obtain ⟨ext, h1, h2, h3⟩ := write_marks S R X c wh t
    cases hw : write S R X c wh t with
    | panic msg a =>
      refine ⟨ext, ?_, ?_⟩
      · simpa [sendIfAny, hw, Result.val] using h1
      · rw [hw] at h2
        simpa [sendIfAny, hw, Result.val, Result.panicked, h2] using SendShape.panic
    | ok a =>
      rw [hw] at h1 h2 h3
      simp only [Result.val, Result.panicked] at h1 h2 h3
      have h4 : a.2.2 = t.hcErr := h3 trivial
      cases he : t.hcErr with
      | false =>
        rw [he] at h4
        refine ⟨ext, ?_, ?_⟩
        · simp [sendIfAny, hw, Result.val, h1, h4]
        · simpa [sendIfAny, hw, Result.val, Result.panicked, h2, h4, codeSendOrder]
            using @SendShape.sent (false) rfl
      | true =>
        rw [he] at h4
        refine ⟨ext ++ [Act.abortQuietly], ?_, ?_⟩
        · simp [sendIfAny, hw, Result.val, h1, h4]
        · simpa [sendIfAny, hw, Result.val, Result.panicked, h2, h4, codeSendOrder, marks_append,
            marks_cons, marks_nil, Act.mark] using @SendShape.failed (true) rfl

@[simp] theorem trace_exitLoop (c : Conn σ ρ υ) :
    (exitLoop c).trace = c.trace ++ [Act.emit .EventInfo "Write loop EXIT" .none] := rfl

theorem stepI_shape (S : SenderCC σ) (R : ReceiverCC ρ) (X : Externals σ ρ υ)
    (c : Conn σ ρ υ) (t : Tick σ ρ υ) :
    ∃ ext, (stepI S R X c t).val.2.trace = c.trace ++ ext ∧
      StepShape t.hcErr .I (stepI S R X c t).val.1 (stepI S R X c t).panicked (marks ext) := by
  cases hn : t.nonData with
  | none =>
    exact ⟨[], by simp [stepI, hn, Result.val], by
      simpa [stepI, hn, Result.val, Result.panicked, marks_nil] using StepShape.blocked .I⟩
  | some r =>
    cases r with
    | closed =>
      refine ⟨[Act.recvNonDataClosed, Act.emit .EventInfo "Write loop EXIT" .none], ?_, ?_⟩
      · simp [stepI, hn, Result.val]
      · simpa [stepI, hn, Result.val, Result.panicked, marks_cons, marks_nil, Act.mark]
          using @StepShape.ctlClosed (t.hcErr) .I (by decide)
    | item h =>
      cases hs : sendIfAny S R X (c.log [Act.recvNonData h]) h t with
      | panic msg a =>
        obtain ⟨ext, h1, h2⟩ := sendIfAny_shape S R X _ h t _ hs
        simp only [Result.val, Result.panicked, trace_log] at h1 h2
        refine ⟨Act.recvNonData h :: ext, ?_, ?_⟩
        · simp [stepI, hn, hs, Result.val, h1]
        · simpa [stepI, hn, hs, Result.val, Result.panicked, marks_cons, Act.mark]
            using StepShape.ctlStop .I (marks ext) true false (by decide) rfl h2
      | ok a =>
        obtain ⟨ext, h1, h2⟩ := sendIfAny_shape S R X _ h t _ hs
        simp only [Result.val, Result.panicked, trace_log] at h1 h2
        rcases a with ⟨c1, b⟩
        cases b with
        | true =>
          refine ⟨Act.recvNonData h :: ext ++ [Act.emit .EventInfo "Write loop EXIT" .none],
            ?_, ?_⟩
          · simp at h1
            simp [stepI, hn, hs, Result.val, h1]
          · simpa [stepI, hn, hs, Result.val, Result.panicked, marks_cons, marks_append,
              marks_nil, Act.mark]
              using StepShape.ctlStop .I (marks ext) false true (by decide) rfl h2
        | false =>
          refine ⟨Act.recvNonData h :: ext ++ [Act.lock,
            Act.getState (c1.Lock t.others).socket.State, Act.unlock], ?_, ?_⟩
          · simp at h1
            by_cases hst : (c1.Lock t.others).socket.State = .OPEN ∨
                (c1.Lock t.others).socket.State = .PARTOPEN <;>
              simp [stepI, hn, hs, Result.val, h1, hst]
          · have := StepShape.ctlI (marks ext) (c1.Lock t.others).socket.State h2
            by_cases hst : (c1.Lock t.others).socket.State = .OPEN ∨
                (c1.Lock t.others).socket.State = .PARTOPEN <;>
              simpa [stepI, hn, hs, Result.val, Result.panicked, marks_cons, marks_append,
                marks_nil, Act.mark, hst] using this

theorem stepIII_shape (S : SenderCC σ) (R : ReceiverCC ρ) (X : Externals σ ρ υ)
    (c : Conn σ ρ υ) (t : Tick σ ρ υ) :
    ∃ ext, (stepIII S R X c t).val.2.trace = c.trace ++ ext ∧
      StepShape t.hcErr .III (stepIII S R X c t).val.1 (stepIII S R X c t).panicked
        (marks ext) := by
  cases hn : t.nonData with
  | none =>
    exact ⟨[], by simp [stepIII, hn, Result.val], by
      simpa [stepIII, hn, Result.val, Result.panicked, marks_nil] using StepShape.blocked .III⟩
  | some r =>
    cases r with
    | closed =>
      refine ⟨[Act.recvNonDataClosed, Act.emit .EventInfo "Write loop EXIT" .none], ?_, ?_⟩
      · simp [stepIII, hn, Result.val]
      · simpa [stepIII, hn, Result.val, Result.panicked, marks_cons, marks_nil, Act.mark]
          using @StepShape.ctlClosed (t.hcErr) .III (by decide)
    | item h =>
      cases hs : sendIfAny S R X (c.log [Act.recvNonData h]) h t with
      | panic msg a =>
        obtain ⟨ext, h1, h2⟩ := sendIfAny_shape S R X _ h t _ hs
        simp only [Result.val, Result.panicked, trace_log] at h1 h2
        refine ⟨Act.recvNonData h :: ext, ?_, ?_⟩
        · simp [stepIII, hn, hs, Result.val, h1]
        · simpa [stepIII, hn, hs, Result.val, Result.panicked, marks_cons, Act.mark]
            using StepShape.ctlStop .III (marks ext) true false (by decide) rfl h2
      | ok a =>
        obtain ⟨ext, h1, h2⟩ := sendIfAny_shape S R X _ h t _ hs
        simp only [Result.val, Result.panicked, trace_log] at h1 h2
        rcases a with ⟨c1, b⟩
        cases b with
        | true =>
          refine ⟨Act.recvNonData h :: ext ++ [Act.emit .EventInfo "Write loop EXIT" .none],
            ?_, ?_⟩
          · simp at h1
            simp [stepIII, hn, hs, Result.val, h1]
          · simpa [stepIII, hn, hs, Result.val, Result.panicked, marks_cons, marks_append,
              marks_nil, Act.mark]
              using StepShape.ctlStop .III (marks ext) false true (by decide) rfl h2
        | false =>
          refine ⟨Act.recvNonData h :: ext, ?_, ?_⟩
          · simp at h1
            simp [stepIII, hn, hs, Result.val, h1]
          · simpa [stepIII, hn, hs, Result.val, Result.panicked, marks_cons, Act.mark]
              using StepShape.ctlGo .III (marks ext) (Or.inr rfl) h2

theorem stepII_send_shape (S : SenderCC σ) (R : ReceiverCC ρ) (X : Externals σ ρ υ)
    (c : Conn σ ρ υ) (h : Option writeHeader) (t : Tick σ ρ υ) :
    ∃ ext pan ex, SendShape t.hcErr pan ex (marks ext) ∧
      (match sendIfAny S R X c h t with
        | .panic msg (c, _) => Result.panic msg (Phase.II, c)
        | .ok (c, true) => .ok (.Exit, exitLoop c)
        | .ok (c, false) => .ok (.II, c)).val.2.trace =
        c.trace ++ ext ++ (if ex then [Act.emit .EventInfo "Write loop EXIT" .none] else []) ∧
      (match sendIfAny S R X c h t with
        | .panic msg (c, _) => Result.panic msg (Phase.II, c)
        | .ok (c, true) => .ok (.Exit, exitLoop c)
        | .ok (c, false) => .ok (.II, c)).val.1 = (if ex then .Exit else .II) ∧
      (match sendIfAny S R X c h t with
        | .panic msg (c, _) => Result.panic msg (Phase.II, c)
        | .ok (c, true) => .ok (.Exit, exitLoop c)
        | .ok (c, false) => .ok (.II, c)).panicked = pan := by
  cases hs : sendIfAny S R X c h t with
  | panic msg a =>
    obtain ⟨ext, h1, h2⟩ := sendIfAny_shape S R X _ h t _ hs
    simp only [Result.val, Result.panicked] at h1 h2
    exact ⟨ext, true, false, h2, by simp [Result.val, h1], by simp [Result.val],
      by simp [Result.panicked]⟩
  | ok a =>
    obtain ⟨ext, h1, h2⟩ := sendIfAny_shape S R X _ h t _ hs
    simp only [Result.val, Result.panicked] at h1 h2
    rcases a with ⟨c1, b⟩
    cases b with
    | true =>
      exact ⟨ext, false, true, h2, by simp at h1; simp [Result.val, h1], by simp [Result.val],
        by simp [Result.panicked]⟩
    | false =>
      exact ⟨ext, false, false, h2, by simp at h1; simp [Result.val, h1], by simp [Result.val],
        by simp [Result.panicked]⟩

theorem marks_exit_tail (ext : List Act) (ex : Bool) :
    marks (ext ++ (if ex then [Act.emit .EventInfo "Write loop EXIT" .none] else [])) =
      marks ext := by
  cases ex <;> simp [marks_append, marks_cons, marks_nil, Act.mark]

theorem stepII_shape (S : SenderCC σ) (R : ReceiverCC ρ) (X : Externals σ ρ υ)
    (c : Conn σ ρ υ) (t : Tick σ ρ υ) :
    ∃ ext, (stepII S R X c t).val.2.trace = c.trace ++ ext ∧
      StepShape t.hcErr .II (stepII S R X c t).val.1 (stepII S R X c t).panicked
        (marks ext) := by
  cases hsel : select t with
  | blocked =>
    exact ⟨[], by simp [stepII, hsel, Result.val], by
      simpa [stepII, hsel, Result.val, Result.panicked, marks_nil] using StepShape.blocked .II⟩
  | nonData r =>
    cases r with
    | closed =>
      refine ⟨[Act.recvNonDataClosed, Act.emit .EventInfo "Write loop EXIT" .none], ?_, ?_⟩
      · simp [stepII, hsel, Result.val]
      · simpa [stepII, hsel, Result.val, Result.panicked, marks_cons, marks_nil, Act.mark]
          using @StepShape.ctlClosed (t.hcErr) .II (by decide)
    | item h =>
      obtain ⟨ext, pan, ex, hsh, htr, hph, hpan⟩ :=
        stepII_send_shape S R X (c.log [Act.recvNonData h]) h t
      refine ⟨Act.recvNonData h :: (ext ++
        (if ex then [Act.emit .EventInfo "Write loop EXIT" .none] else [])), ?_, ?_⟩
      · simp only [stepII, hsel, htr, trace_log]
        simp
      · simp only [stepII, hsel, hph, hpan, marks_cons, Act.mark, marks_exit_tail]
        generalize marks ext = sm at hsh ⊢
        cases hsh with
        | wake => exact StepShape.ctlGo .II _ (Or.inl rfl) SendShape.wake
        | sent he => exact StepShape.ctlGo .II _ (Or.inl rfl) (SendShape.sent he)
        | failed he =>
          exact StepShape.ctlStop .II _ false true (by decide) rfl (SendShape.failed he)
        | panic => exact StepShape.ctlStop .II _ true false (by decide) rfl SendShape.panic
  | data r =>
    cases r with
    | closed =>
      refine ⟨[Act.recvDataClosed], ?_, ?_⟩
      · simp [stepII, hsel, Result.val]
      · simpa [stepII, hsel, Result.val, Result.panicked, marks_cons, marks_nil, Act.mark]
          using @StepShape.dataClosed (t.hcErr)
    | item d =>
      obtain ⟨ext, pan, ex, hsh, htr, hph, hpan⟩ :=
        stepII_send_shape S R X
          ((((c.log [Act.recvData d]).Lock t.others).ret (Act.generateDataAck d)
            (X.generateDataAck ((c.log [Act.recvData d]).Lock t.others) d).1).Unlock)
          (X.generateDataAck ((c.log [Act.recvData d]).Lock t.others) d).2 t
      refine ⟨Act.recvData d :: Act.lock :: Act.generateDataAck d :: Act.unlock :: (ext ++
        (if ex then [Act.emit .EventInfo "Write loop EXIT" .none] else [])), ?_, ?_⟩
      · simp only [stepII, hsel, htr, trace_log, trace_Unlock, trace_ret, trace_Lock]
        simp
      · simp only [stepII, hsel, hph, hpan, marks_cons, Act.mark, marks_exit_tail]
        exact StepShape.data _ pan ex hsh

theorem loopStep_shape (S : SenderCC σ) (R : ReceiverCC ρ) (X : Externals σ ρ υ)
    (p : Phase) (c : Conn σ ρ υ) (t : Tick σ ρ υ) :
    ∃ ext, (loopStep S R X p c t).val.2.trace = c.trace ++ ext ∧
      StepShape t.hcErr p (loopStep S R X p c t).val.1 (loopStep S R X p c t).panicked
        (marks ext) := by
  cases p with
  | I => exact stepI_shape S R X c t
  | II => exact stepII_shape S R X c t
  | III => exact stepIII_shape S R X c t
  | Exit =>
    exact ⟨[], by simp [loopStep, Result.val], by
      simpa [loopStep, Result.val, Result.panicked, marks_nil] using StepShape.blocked .Exit⟩

end

/-! ### What the shapes of an iteration imply -/

theorem StepShape.lock_ok {hc : Bool} {p q : Phase} {pan : Bool} {ms : List Mark}
    (h : StepShape hc p q pan ms) : lockRule false ms = true ∧ heldAfter false ms = pan := by
  cases h with
  | blocked p => simp [lockRule, heldAfter]
  | ctlClosed p hp0 => simp [lockRule, heldAfter]
  | dataClosed => simp [lockRule, heldAfter]
  | ctlI sm s hs => cases hs <;> simp [lockRule, heldAfter]
  | ctlGo p sm hp hs => cases hs <;> simp [lockRule, heldAfter]
  | ctlStop p sm pan ex hp hpe hs => cases hs <;> simp [lockRule, heldAfter]
  | data sm pan ex hs => cases hs <;> simp [lockRule, heldAfter]

theorem StepShape.rank_le {hc : Bool} {p q : Phase} {pan : Bool} {ms : List Mark}
    (h : StepShape hc p q pan ms) : p.rank ≤ q.rank := by
  cases h with
  | blocked p => exact Nat.le_refl _
  | ctlClosed p hp0 => cases p <;> simp [Phase.rank]
  | dataClosed => simp [Phase.rank]
  | ctlI sm s hs => split <;> simp [Phase.rank]
  | ctlGo p sm hp hs => exact Nat.le_refl _
  | ctlStop p sm pan ex hp hpe hs => cases ex <;> cases p <;> simp [Phase.rank]
  | data sm pan ex hs => cases ex <;> simp [Phase.rank]

theorem StepShape.no_data {hc : Bool} {p q : Phase} {pan : Bool} {ms : List Mark}
    (h : StepShape hc p q pan ms) (hp : p ≠ .II) : ∀ m ∈ ms, m.isData = false := by
  cases h with
  | blocked p => simp
  | ctlClosed p hp0 => simp [Mark.isData]
  | dataClosed => exact absurd rfl hp
  | ctlI sm s hs => cases hs <;> simp [Mark.isData]
  | ctlGo p sm hp hs => cases hs <;> simp [Mark.isData]
  | ctlStop p sm pan ex hp hpe hs => cases hs <;> simp [Mark.isData]
  | data sm pan ex hs => exact absurd rfl hp

theorem StepShape.to_II_iff {hc : Bool} {q : Phase} {pan : Bool} {ms : List Mark}
    (h : StepShape hc .I q pan ms) :
    q = .II ↔ ∃ s, Mark.state s ∈ ms ∧ (s = .OPEN ∨ s = .PARTOPEN) := by
  cases h with
  | blocked p => simp
  | ctlClosed p hp0 => simp
  | ctlI sm s hs =>
    by_cases hst : s = .OPEN ∨ s = .PARTOPEN
    · cases hs <;> simp [hst]
    · cases hs <;> simp [hst]
  | ctlGo p sm hp hs => rcases hp with hp | hp <;> cases hp
  | ctlStop p sm pan ex hp hpe hs => cases hs <;> simp

theorem StepShape.to_III_iff {hc : Bool} {q : Phase} {pan : Bool} {ms : List Mark}
    (h : StepShape hc .II q pan ms) : q = .III ↔ Mark.dataClosed ∈ ms := by
  cases h with
  | blocked p => simp
  | ctlClosed p hp0 => simp
  | dataClosed => simp
  | ctlGo p sm hp hs => cases hs <;> simp
  | ctlStop p sm pan ex hp hpe hs => cases hs <;> simp
  | data sm pan ex hs => cases hs <;> simp

theorem StepShape.closed_exit {hc : Bool} {p q : Phase} {pan : Bool} {ms : List Mark}
    (h : StepShape hc p q pan ms) (hm : Mark.ctlClosed ∈ ms) : q = .Exit := by
  cases h with
  | blocked p => simp at hm
  | ctlClosed p hp0 => rfl
  | dataClosed => simp at hm
  | ctlI sm s hs => cases hs <;> simp at hm
  | ctlGo p sm hp hs => cases hs <;> simp at hm
  | ctlStop p sm pan ex hp hpe hs => cases hs <;> simp at hm ⊢
  | data sm pan ex hs => cases hs <;> simp at hm

theorem StepShape.failed_send {hc : Bool} {p q : Phase} {pan : Bool} {ms : List Mark}
    (h : StepShape hc p q pan ms) (he : hc = true) (hm : Mark.codec ∈ ms) :
    q = .Exit ∧ pan = false ∧ ∃ pre, ms = pre ++ [.codec, .abort] := by
  subst he
  cases h with
  | blocked p => simp at hm
  | ctlClosed p hp0 => simp at hm
  | dataClosed => simp at hm
  | ctlI sm s hs =>
    cases hs with
    | wake => simp at hm
    | sent he => cases he
  | ctlGo p sm hp hs =>
    cases hs with
    | wake => simp at hm
    | sent he => cases he
  | ctlStop p sm pan ex hp hpe hs =>
    cases hs with
    | wake => simp at hm
    | sent he => cases he
    | failed he => exact ⟨rfl, rfl, [.ctl, .strobe, .lock, .seqAck, .cc, .unlock], rfl⟩
    | panic => simp at hm
  | data sm pan ex hs =>
    cases hs with
    | wake => simp at hm
    | sent he => cases he
    | failed he =>
      exact ⟨rfl, rfl, [.data, .lock, .genDataAck, .unlock, .strobe, .lock, .seqAck, .cc,
        .unlock], rfl⟩
    | panic => simp at hm

section
variable {σ ρ υ : Type}

theorem runLoop_lock (S : SenderCC σ) (R : ReceiverCC ρ) (X : Externals σ ρ υ)
    (ts : List (Tick σ ρ υ)) : ∀ (p : Phase) (c : Conn σ ρ υ),
    ∃ ext, (runLoop S R X p c ts).val.2.trace = c.trace ++ ext ∧
      lockRule false (marks ext) = true ∧
      heldAfter false (marks ext) = (runLoop S R X p c ts).panicked := by
  induction ts with
  | nil =>
    intro p c
    exact ⟨[], by simp [runLoop, Result.val], by simp [marks_nil, lockRule],
      by simp [marks_nil, heldAfter, runLoop, Result.panicked]⟩
  | cons t ts ih =>
    intro p c
    obtain ⟨e1, h1, hs⟩ := loopStep_shape S R X p c t
    obtain ⟨hl, hh⟩ := hs.lock_ok
    cases hr : loopStep S R X p c t with
    | panic msg a =>
      rw [hr] at h1 hh
      refine ⟨e1, ?_, hl, ?_⟩
      · simpa [runLoop, hr, Result.val] using h1
      · simpa [runLoop, hr, Result.panicked] using hh
    | ok a =>
      rw [hr] at h1 hh
      simp only [Result.val, Result.panicked] at h1 hh
      obtain ⟨e2, h2, hl2, hh2⟩ := ih a.1 a.2
      refine ⟨e1 ++ e2, ?_, ?_, ?_⟩
      · simp [runLoop, hr, h2, h1]
      · simp [marks_append, lockRule_append, hl, hh, hl2]
      · simp [marks_append, heldAfter_append, hh, hh2, runLoop, hr]

theorem runLoop_rank (S : SenderCC σ) (R : ReceiverCC ρ) (X : Externals σ ρ υ)
    (ts : List (Tick σ ρ υ)) : ∀ (p : Phase) (c : Conn σ ρ υ),
    p.rank ≤ (runLoop S R X p c ts).val.1.rank := by
  induction ts with
  | nil => intro p c; simp [runLoop, Result.val]
  | cons t ts ih =>
    intro p c
    obtain ⟨e1, _, hs⟩ := loopStep_shape S R X p c t
    have hle := hs.rank_le
    cases hr : loopStep S R X p c t with
    | panic msg a =>
      rw [hr] at hle
      simpa [runLoop, hr, Result.val] using hle
    | ok a =>
      rw [hr] at hle
      simp only [Result.val] at hle
      have := ih a.1 a.2
      simp only [runLoop, hr]
      omega

theorem runLoop_Exit (S : SenderCC σ) (R : ReceiverCC ρ) (X : Externals σ ρ υ)
    (ts : List (Tick σ ρ υ)) (c : Conn σ ρ υ) :
    runLoop S R X .Exit c ts = .ok (.Exit, c) := by
  induction ts with
  | nil => rfl
  | cons t ts ih => simp [runLoop, loopStep, ih]

/-- C7 (amended): in Conn.write the steps of the per-packet send occur in the
order strobe, Lock, WriteSeqAck, WriteCC, Unlock, header codec: the sender
congestion control strobes first, before the lock is taken; a call in which
WriteCC panics stops after WriteCC. -/
theorem write_order (S : SenderCC σ) (R : ReceiverCC ρ) (X : Externals σ ρ υ)
    (c : Conn σ ρ υ) (h : writeHeader) (t : Tick σ ρ υ) :
    marks (added c.trace (write S R X c h t).val.1.trace) =
      (if (write S R X c h t).panicked then [.strobe, .lock, .seqAck, .cc]
        else [.strobe, .lock, .seqAck, .cc, .unlock, .codec]) := by
  obtain ⟨ext, h1, h2, _⟩ := write_marks S R X c h t
  rw [h1, added_append, h2]
  rfl

/-- C8: in Conn.write, in every iteration of the writer's loop and over every
run of Conn.writeLoop, entered with the lock released, scc.Strobe and hc.Write
are called with the lock released, WriteSeqAck and WriteCC with the lock held,
and Lock and Unlock alternate. -/
theorem writer_lock_discipline (S : SenderCC σ) (R : ReceiverCC ρ) (X : Externals σ ρ υ) :
    (∀ (c : Conn σ ρ υ) (h : writeHeader) (t : Tick σ ρ υ),
      lockRule false (marks (added c.trace (write S R X c h t).val.1.trace)) = true) ∧
    (∀ (p : Phase) (c : Conn σ ρ υ) (t : Tick σ ρ υ),
      lockRule false (marks (added c.trace (loopStep S R X p c t).val.2.trace)) = true) ∧
    (∀ (c : Conn σ ρ υ) (ts : List (Tick σ ρ υ)),
      lockRule false (marks (added c.trace (writeLoop S R X c ts).val.2.trace)) = true) := by
  refine ⟨?_, ?_, ?_⟩
  · intro c h t
    obtain ⟨ext, h1, h2, _⟩ := write_marks S R X c h t
    rw [h1, added_append, h2]
    cases (write S R X c h t).panicked <;> simp [codeSendOrder, lockRule]
  · intro p c t
    obtain ⟨ext, h1, hs⟩ := loopStep_shape S R X p c t
    rw [h1, added_append]
    exact hs.lock_ok.1
  · intro c ts
    obtain ⟨ext, h1, hl, _⟩ :=
      runLoop_lock S R X ts .I (c.log [Act.emit .EventInfo "Write Loop I" .none])
    have h2 : (writeLoop S R X c ts).val.2.trace =
        c.trace ++ (Act.emit .EventInfo "Write Loop I" .none :: ext) := by
      simp [writeLoop, h1]
    rw [h2, added_append, marks_cons]
    exact hl

theorem loopStep_phases (S : SenderCC σ) (R : ReceiverCC ρ) (X : Externals σ ρ υ) :
    (∀ (p : Phase) (c : Conn σ ρ υ) (t : Tick σ ρ υ),
      p.rank ≤ (loopStep S R X p c t).val.1.rank) ∧
    (∀ (p : Phase) (c : Conn σ ρ υ) (ts : List (Tick σ ρ υ)),
      p.rank ≤ (runLoop S R X p c ts).val.1.rank) ∧
    (∀ (p : Phase) (c : Conn σ ρ υ) (t : Tick σ ρ υ), p ≠ .II →
      ∀ m ∈ marks (added c.trace (loopStep S R X p c t).val.2.trace), m.isData = false) ∧
    (∀ (c : Conn σ ρ υ) (t : Tick σ ρ υ),
      (loopStep S R X .I c t).val.1 = .II ↔
        ∃ s, Mark.state s ∈ marks (added c.trace (loopStep S R X .I c t).val.2.trace) ∧
          (s = .OPEN ∨ s = .PARTOPEN)) ∧
    (∀ (c : Conn σ ρ υ) (t : Tick σ ρ υ),
      (loopStep S R X .II c t).val.1 = .III ↔
        Mark.dataClosed ∈ marks (added c.trace (loopStep S R X .II c t).val.2.trace)) ∧
    (∀ (c : Conn σ ρ υ) (t : Tick σ ρ υ),
      (loopStep S R X .II c t).val.1 = .III ↔ select t = .data .closed) ∧
    (∀ (p : Phase) (c : Conn σ ρ υ) (t : Tick σ ρ υ),
      Mark.ctlClosed ∈ marks (added c.trace (loopStep S R X p c t).val.2.trace) →
        (loopStep S R X p c t).val.1 = .Exit) ∧
    (∀ (c : Conn σ ρ υ) (t : Tick σ ρ υ), t.nonData = some .closed →
      (loopStep S R X .I c t).val.1 = .Exit ∧ (loopStep S R X .III c t).val.1 = .Exit) ∧
    (∀ (c : Conn σ ρ υ) (t : Tick σ ρ υ), select t = .nonData .closed →
      (loopStep S R X .II c t).val.1 = .Exit) ∧
    (∀ (p : Phase) (c : Conn σ ρ υ) (t : Tick σ ρ υ), t.hcErr = true →
      Mark.codec ∈ marks (added c.trace (loopStep S R X p c t).val.2.trace) →
        (loopStep S R X p c t).val.1 = .Exit ∧ (loopStep S R X p c t).panicked = false ∧
        ∃ pre, marks (added c.trace (loopStep S R X p c t).val.2.trace) =
          pre ++ [.codec, .abort]) ∧
    (∀ (c : Conn σ ρ υ) (ts : List (Tick σ ρ υ)),
      runLoop S R X .Exit c ts = .ok (.Exit, c)) := by
  refine ⟨?_, ?_, ?_, ?_, ?_, ?_, ?_, ?_, ?_, ?_, ?_⟩
  · intro p c t
    obtain ⟨ext, _, hs⟩ := loopStep_shape S R X p c t
    exact hs.rank_le
  · intro p c ts
    exact runLoop_rank S R X ts p c
  · intro p c t hp
    obtain ⟨ext, h1, hs⟩ := loopStep_shape S R X p c t
    rw [h1, added_append]
    exact hs.no_data hp
  · intro c t
    obtain ⟨ext, h1, hs⟩ := loopStep_shape S R X .I c t
    rw [h1, added_append]
    exact hs.to_II_iff
  · intro c t
    obtain ⟨ext, h1, hs⟩ := loopStep_shape S R X .II c t
    rw [h1, added_append]
    exact hs.to_III_iff
  · intro c t
    cases hsel : select t with
    | blocked => simp [loopStep, stepII, hsel, Result.val]
    | nonData r =>
      cases r with
      | closed => simp [loopStep, stepII, hsel, Result.val]
      | item h =>
        obtain ⟨ext, pan, ex, _, _, hph, _⟩ :=
          stepII_send_shape S R X (c.log [Act.recvNonData h]) h t
        simp only [loopStep, stepII, hsel, hph]
        cases ex <;> simp
    | data r =>
      cases r with
      | closed => simp [loopStep, stepII, hsel, Result.val]
      | item d =>
        obtain ⟨ext, pan, ex, _, _, hph, _⟩ :=
          stepII_send_shape S R X
            ((((c.log [Act.recvData d]).Lock t.others).ret (Act.generateDataAck d)
              (X.generateDataAck ((c.log [Act.recvData d]).Lock t.others) d).1).Unlock)
            (X.generateDataAck ((c.log [Act.recvData d]).Lock t.others) d).2 t
        simp only [loopStep, stepII, hsel, hph]
        cases ex <;> simp
  · intro p c t
    obtain ⟨ext, h1, hs⟩ := loopStep_shape S R X p c t
    rw [h1, added_append]
    exact hs.closed_exit
  · intro c t hn
    simp [loopStep, stepI, stepIII, hn, Result.val]
  · intro c t hsel
    simp [loopStep, stepII, hsel, Result.val]
  · intro p c t he
    obtain ⟨ext, h1, hs⟩ := loopStep_shape S R X p c t
    rw [h1, added_append]
    exact hs.failed_send he
  · intro c ts
    exact runLoop_Exit S R X ts c

theorem sendIfAny_cases (S : SenderCC σ) (R : ReceiverCC ρ) (X : Externals σ ρ υ)
    (c : Conn σ ρ υ) (t : Tick σ ρ υ) :
    sendIfAny S R X c none t = .ok (c, false) ∧
    (∀ (wh h1 : writeHeader) (c1 : Conn σ ρ υ),
      write S R X c wh t = .ok (c1, h1, false) →
        sendIfAny S R X c (some wh) t = .ok (c1, false)) ∧
    (∀ (wh h1 : writeHeader) (c1 : Conn σ ρ υ),
      write S R X c wh t = .ok (c1, h1, true) →
        sendIfAny S R X c (some wh) t =
          .ok (c1.ret Act.abortQuietly (X.abortQuietly c1), true)) ∧
    (∀ (wh h1 : writeHeader) (c1 : Conn σ ρ υ) (msg : String) (b : Bool),
      write S R X c wh t = .panic msg (c1, h1, b) →
        sendIfAny S R X c (some wh) t = .panic msg (c1, false)) := by
  refine ⟨rfl, ?_, ?_, ?_⟩
  · intro wh h1 c1 hw
    simp [sendIfAny, hw]
  · intro wh h1 c1 hw
    simp [sendIfAny, hw]
  · intro wh h1 c1 msg b hw
    simp [sendIfAny, hw]

theorem stepI_cases (S : SenderCC σ) (R : ReceiverCC ρ) (X : Externals σ ρ υ)
    (c : Conn σ ρ υ) (t : Tick σ ρ υ) :
    (t.nonData = none → loopStep S R X .I c t = .ok (.I, c)) ∧
    (t.nonData = some .closed →
      loopStep S R X .I c t = .ok (.Exit, exitLoop (c.log [Act.recvNonDataClosed]))) ∧
    (∀ (h : Option writeHeader) (c1 : Conn σ ρ υ), t.nonData = some (.item h) →
      sendIfAny S R X (c.log [Act.recvNonData h]) h t = .ok (c1, false) →
      loopStep S R X .I c t =
        .ok (if (t.others c1).socket.State = .OPEN ∨ (t.others c1).socket.State = .PARTOPEN
              then .II else .I,
            ((c1.Lock t.others).log [Act.getState (t.others c1).socket.State]).Unlock)) ∧
    (∀ (h : Option writeHeader) (c1 : Conn σ ρ υ), t.nonData = some (.item h) →
      sendIfAny S R X (c.log [Act.recvNonData h]) h t = .ok (c1, true) →
      loopStep S R X .I c t = .ok (.Exit, exitLoop c1)) ∧
    (∀ (h : Option writeHeader) (c1 : Conn σ ρ υ) (msg : String) (b : Bool),
      t.nonData = some (.item h) →
      sendIfAny S R X (c.log [Act.recvNonData h]) h t = .panic msg (c1, b) →
      loopStep S R X .I c t = .panic msg (.I, c1)) := by
  refine ⟨?_, ?_, ?_, ?_, ?_⟩
  · intro h; simp [loopStep, stepI, h]
  · intro h; simp [loopStep, stepI, h]
  · intro h c1 ht hs
    simp only [loopStep, stepI, ht, hs]
    have hst : (c1.Lock t.others).socket.State = (t.others c1).socket.State := rfl
    rw [hst]
    split <;> rfl
  · intro h c1 ht hs
    simp only [loopStep, stepI, ht, hs]
  · intro h c1 msg b ht hs
    simp only [loopStep, stepI, ht, hs]

theorem stepIII_cases (S : SenderCC σ) (R : ReceiverCC ρ) (X : Externals σ ρ υ)
    (c : Conn σ ρ υ) (t : Tick σ ρ υ) :
    (t.nonData = none → loopStep S R X .III c t = .ok (.III, c)) ∧
    (t.nonData = some .closed →
      loopStep S R X .III c t = .ok (.Exit, exitLoop (c.log [Act.recvNonDataClosed]))) ∧
    (∀ (h : Option writeHeader) (c1 : Conn σ ρ υ), t.nonData = some (.item h) →
      sendIfAny S R X (c.log [Act.recvNonData h]) h t = .ok (c1, false) →
      loopStep S R X .III c t = .ok (.III, c1)) ∧
    (∀ (h : Option writeHeader) (c1 : Conn σ ρ υ), t.nonData = some (.item h) →
      sendIfAny S R X (c.log [Act.recvNonData h]) h t = .ok (c1, true) →
      loopStep S R X .III c t = .ok (.Exit, exitLoop c1)) ∧
    (∀ (h : Option writeHeader) (c1 : Conn σ ρ υ) (msg : String) (b : Bool),
      t.nonData = some (.item h) →
      sendIfAny S R X (c.log [Act.recvNonData h]) h t = .panic msg (c1, b) →
      loopStep S R X .III c t = .panic msg (.III, c1)) := by
  refine ⟨?_, ?_, ?_, ?_, ?_⟩
  · intro h; simp [loopStep, stepIII, h]
  · intro h; simp [loopStep, stepIII, h]
  · intro h c1 ht hs
    simp only [loopStep, stepIII, ht, hs]
  · intro h c1 ht hs
    simp only [loopStep, stepIII, ht, hs]
  · intro h c1 msg b ht hs
    simp only [loopStep, stepIII, ht, hs]

theorem stepII_cases (S : SenderCC σ) (R : ReceiverCC ρ) (X : Externals σ ρ υ)
    (c : Conn σ ρ υ) (t : Tick σ ρ υ) :
    (select t = .blocked → loopStep S R X .II c t = .ok (.II, c)) ∧
    (select t = .nonData .closed →
      loopStep S R X .II c t = .ok (.Exit, exitLoop (c.log [Act.recvNonDataClosed]))) ∧
    (select t = .data .closed →
      loopStep S R X .II c t = .ok (.III, c.log [Act.recvDataClosed])) ∧
    (∀ (h : Option writeHeader), select t = .nonData (.item h) →
      (∀ c1, sendIfAny S R X (c.log [Act.recvNonData h]) h t = .ok (c1, false) →
        loopStep S R X .II c t = .ok (.II, c1)) ∧
      (∀ c1, sendIfAny S R X (c.log [Act.recvNonData h]) h t = .ok (c1, true) →
        loopStep S R X .II c t = .ok (.Exit, exitLoop c1)) ∧
      (∀ c1 msg b, sendIfAny S R X (c.log [Act.recvNonData h]) h t = .panic msg (c1, b) →
        loopStep S R X .II c t = .panic msg (.II, c1))) ∧
    (∀ (d : List Nat) (c0 : Conn σ ρ υ), select t = .data (.item d) →
      c0 = (((c.log [Act.recvData d]).Lock t.others).ret (Act.generateDataAck d)
              (X.generateDataAck ((c.log [Act.recvData d]).Lock t.others) d).1).Unlock →
      (∀ c1, sendIfAny S R X c0
            (X.generateDataAck ((c.log [Act.recvData d]).Lock t.others) d).2 t = .ok (c1, false) →
        loopStep S R X .II c t = .ok (.II, c1)) ∧
      (∀ c1, sendIfAny S R X c0
            (X.generateDataAck ((c.log [Act.recvData d]).Lock t.others) d).2 t = .ok (c1, true) →
        loopStep S R X .II c t = .ok (.Exit, exitLoop c1)) ∧
      (∀ c1 msg b, sendIfAny S R X c0
            (X.generateDataAck ((c.log [Act.recvData d]).Lock t.others) d).2 t =
              .panic msg (c1, b) →
        loopStep S R X .II c t = .panic msg (.II, c1))) := by
  refine ⟨?_, ?_, ?_, ?_, ?_⟩
  · intro h; simp [loopStep, stepII, h]
  · intro h; simp [loopStep, stepII, h]
  · intro h; simp [loopStep, stepII, h]
  · intro h hsel
    refine ⟨?_, ?_, ?_⟩
    · intro c1 hs; simp only [loopStep, stepII, hsel, hs]
    · intro c1 hs; simp only [loopStep, stepII, hsel, hs]
    · intro c1 msg b hs; simp only [loopStep, stepII, hsel, hs]
  · intro d c0 hsel hc0
    subst hc0
    refine ⟨?_, ?_, ?_⟩
    · intro c1 hs; simp only [loopStep, stepII, hsel, hs]
    · intro c1 hs; simp only [loopStep, stepII, hsel, hs]
    · intro c1 msg b hs; simp only [loopStep, stepII, hsel, hs]

theorem runLoop_append (S : SenderCC σ) (R : ReceiverCC ρ) (X : Externals σ ρ υ)
    (ts more : List (Tick σ ρ υ)) : ∀ (p : Phase) (c : Conn σ ρ υ),
    runLoop S R X p c (ts ++ more) =
      match runLoop S R X p c ts with
      | .panic msg r => .panic msg r
      | .ok (p1, c1) => runLoop S R X p1 c1 more := by
  induction ts with
  | nil => intro p c; rfl
  | cons t ts ih =>
    intro p c
    simp only [List.cons_append, runLoop]
    cases hr : loopStep S R X p c t with
    | panic msg a => rfl
    | ok a => exact ih a.1 a.2

theorem runLoop_one (S : SenderCC σ) (R : ReceiverCC ρ) (X : Externals σ ρ υ)
    (p : Phase) (c : Conn σ ρ υ) (t : Tick σ ρ υ) :
    runLoop S R X p c [t] = loopStep S R X p c t := by
  simp only [runLoop]
  cases loopStep S R X p c t with
  | panic msg a => rfl
  | ok a => rfl

theorem stepI_not_III (S : SenderCC σ) (R : ReceiverCC ρ) (X : Externals σ ρ υ)
    (c : Conn σ ρ υ) (t : Tick σ ρ υ) : (loopStep S R X .I c t).val.1 ≠ .III := by
  cases hn : t.nonData with
  | none => simp [loopStep, stepI, hn, Result.val]
  | some r =>
    cases r with
    | closed => simp [loopStep, stepI, hn, Result.val]
    | item h =>
      cases hs : sendIfAny S R X (c.log [Act.recvNonData h]) h t with
      | panic msg a =>
        obtain ⟨c1, b⟩ := a
        rw [(stepI_cases S R X c t).2.2.2.2 h c1 msg b hn hs]
        simp [Result.val]
      | ok a =>
        obtain ⟨c1, b⟩ := a
        cases b with
        | true =>
          rw [(stepI_cases S R X c t).2.2.2.1 h c1 hn hs]
          simp [Result.val]
        | false =>
          rw [(stepI_cases S R X c t).2.2.1 h c1 hn hs]
          simp only [Result.val]
          split <;> simp

theorem writeLoop_snoc (S : SenderCC σ) (R : ReceiverCC ρ) (X : Externals σ ρ υ)
    (c : Conn σ ρ υ) (ts : List (Tick σ ρ υ)) (t : Tick σ ρ υ) :
    writeLoop S R X c (ts ++ [t]) =
      match writeLoop S R X c ts with
      | .panic msg r => .panic msg r
      | .ok (p, c1) => loopStep S R X p c1 t := by
  simp only [writeLoop, runLoop_append]
  cases runLoop S R X .I (c.log [Act.emit .EventInfo "Write Loop I" .none]) ts with
  | panic msg r => rfl
  | ok a => exact runLoop_one S R X a.1 a.2 t

theorem writeLoop_runs (S : SenderCC σ) (R : ReceiverCC ρ) (X : Externals σ ρ υ)
    (c : Conn σ ρ υ) :
    writeLoop S R X c [] = .ok (.I, c.log [Act.emit .EventInfo "Write Loop I" .none]) ∧
    (∀ (ts : List (Tick σ ρ υ)) (t : Tick σ ρ υ),
      writeLoop S R X c (ts ++ [t]) =
        match writeLoop S R X c ts with
        | .panic msg r => .panic msg r
        | .ok (p, c1) => loopStep S R X p c1 t) ∧
    (∀ ts more : List (Tick σ ρ υ),
      (writeLoop S R X c ts).val.1.rank ≤ (writeLoop S R X c (ts ++ more)).val.1.rank) ∧
    (∀ ts more : List (Tick σ ρ υ),
      (writeLoop S R X c ts).val.1 = .Exit ∨ (writeLoop S R X c ts).panicked = true →
        writeLoop S R X c (ts ++ more) = writeLoop S R X c ts) ∧
    (∀ (ts : List (Tick σ ρ υ)) (t : Tick σ ρ υ), (writeLoop S R X c ts).val.1 ≠ .II →
      ∀ m ∈ marks (added (writeLoop S R X c ts).val.2.trace
          (writeLoop S R X c (ts ++ [t])).val.2.trace), m.isData = false) := by
  refine ⟨rfl, writeLoop_snoc S R X c, ?_, ?_, ?_⟩
  · intro ts more
    simp only [writeLoop, runLoop_append]
    cases hr : runLoop S R X .I (c.log [Act.emit .EventInfo "Write Loop I" .none]) ts with
    | panic msg r => exact le_refl _
    | ok a => exact runLoop_rank S R X more a.1 a.2
  · intro ts more h
    simp only [writeLoop, runLoop_append] at h ⊢
    cases hr : runLoop S R X .I (c.log [Act.emit .EventInfo "Write Loop I" .none]) ts with
    | panic msg r => rfl
    | ok a =>
      rw [hr] at h
      simp only [Result.val, Result.panicked] at h
      obtain ⟨p, c1⟩ := a
      rcases h with h | h
      · simp only at h
        subst h
        exact runLoop_Exit S R X more c1
      · cases h
  · intro ts t hne
    rw [writeLoop_snoc]
    cases hr : writeLoop S R X c ts with
    | panic msg r => simp [added, marks_nil]
    | ok a =>
      obtain ⟨p, c1⟩ := a
      rw [hr] at hne
      have hne1 : p ≠ .II := hne
      obtain ⟨ext, h1, hs⟩ := loopStep_shape S R X p c1 t
      show ∀ m ∈ marks (added c1.trace (loopStep S R X p c1 t).val.2.trace), m.isData = false
      rw [h1, added_append]
      exact hs.no_data hne1

/-- C9: Conn.writeLoop starts in phase I and, tick by tick, runs one iteration
of the loop of its current phase; its phase never moves backwards and phase III
is not entered from phase I; the iterations of phases I and III take no data
payload and make none into a packet.  An iteration of phase I that received an
item of the control conduit, nil or not, and whose send neither failed nor
panicked, takes the lock, reads the socket state as the other tasks left it and
unlocks, and the next phase is II exactly when that state is OPEN or PARTOPEN;
without an item no state is read and the phase stays.  An iteration of phase II
goes to phase III exactly when the `select` receives the data conduit closed.  In
every phase a control conduit received closed ends the writer, and a send whose
link write fails is followed by abortQuietly and ends the writer; once the writer
has ended, further ticks change nothing. -/
theorem writeLoop_phases (S : SenderCC σ) (R : ReceiverCC ρ) (X : Externals σ ρ υ) :
    (∀ (p : Phase) (c : Conn σ ρ υ) (t : Tick σ ρ υ),
      p.rank ≤ (loopStep S R X p c t).val.1.rank) ∧
    (∀ (p : Phase) (c : Conn σ ρ υ) (ts : List (Tick σ ρ υ)),
      p.rank ≤ (runLoop S R X p c ts).val.1.rank) ∧
    (∀ (p : Phase) (c : Conn σ ρ υ) (t : Tick σ ρ υ), p ≠ .II →
      ∀ m ∈ marks (added c.trace (loopStep S R X p c t).val.2.trace), m.isData = false) ∧
    (∀ (c : Conn σ ρ υ) (t : Tick σ ρ υ),
      (loopStep S R X .I c t).val.1 = .II ↔
        ∃ s, Mark.state s ∈ marks (added c.trace (loopStep S R X .I c t).val.2.trace) ∧
          (s = .OPEN ∨ s = .PARTOPEN)) ∧
    (∀ (c : Conn σ ρ υ) (t : Tick σ ρ υ),
      (loopStep S R X .II c t).val.1 = .III ↔
        Mark.dataClosed ∈ marks (added c.trace (loopStep S R X .II c t).val.2.trace)) ∧
    (∀ (c : Conn σ ρ υ) (t : Tick σ ρ υ),
      (loopStep S R X .II c t).val.1 = .III ↔ select t = .data .closed) ∧
    (∀ (p : Phase) (c : Conn σ ρ υ) (t : Tick σ ρ υ),
      Mark.ctlClosed ∈ marks (added c.trace (loopStep S R X p c t).val.2.trace) →
        (loopStep S R X p c t).val.1 = .Exit) ∧
    (∀ (c : Conn σ ρ υ) (t : Tick σ ρ υ), t.nonData = some .closed →
      (loopStep S R X .I c t).val.1 = .Exit ∧ (loopStep S R X .III c t).val.1 = .Exit) ∧
    (∀ (c : Conn σ ρ υ) (t : Tick σ ρ υ), select t = .nonData .closed →
      (loopStep S R X .II c t).val.1 = .Exit) ∧
    (∀ (p : Phase) (c : Conn σ ρ υ) (t : Tick σ ρ υ), t.hcErr = true →
      Mark.codec ∈ marks (added c.trace (loopStep S R X p c t).val.2.trace) →
        (loopStep S R X p c t).val.1 = .Exit ∧ (loopStep S R X p c t).panicked = false ∧
        ∃ pre, marks (added c.trace (loopStep S R X p c t).val.2.trace) =
          pre ++ [.codec, .abort]) ∧
    (∀ (c : Conn σ ρ υ) (ts : List (Tick σ ρ υ)),
      runLoop S R X .Exit c ts = .ok (.Exit, c)) ∧
    -- the statement `if h != nil { err := c.write(h); if err != nil { ... } }`
    (∀ (c : Conn σ ρ υ) (t : Tick σ ρ υ),
      sendIfAny S R X c none t = .ok (c, false) ∧
      (∀ (wh h1 : writeHeader) (c1 : Conn σ ρ υ),
        write S R X c wh t = .ok (c1, h1, false) →
          sendIfAny S R X c (some wh) t = .ok (c1, false)) ∧
      (∀ (wh h1 : writeHeader) (c1 : Conn σ ρ υ),
        write S R X c wh t = .ok (c1, h1, true) →
          sendIfAny S R X c (some wh) t =
            .ok (c1.ret Act.abortQuietly (X.abortQuietly c1), true)) ∧
      (∀ (wh h1 : writeHeader) (c1 : Conn σ ρ υ) (msg : String) (b : Bool),
        write S R X c wh t = .panic msg (c1, h1, b) →
          sendIfAny S R X c (some wh) t = .panic msg (c1, false))) ∧
    -- phase I, case by case
    (∀ (c : Conn σ ρ υ) (t : Tick σ ρ υ),
      (t.nonData = none → loopStep S R X .I c t = .ok (.I, c)) ∧
      (t.nonData = some .closed →
        loopStep S R X .I c t = .ok (.Exit, exitLoop (c.log [Act.recvNonDataClosed]))) ∧
      (∀ (h : Option writeHeader) (c1 : Conn σ ρ υ), t.nonData = some (.item h) →
        sendIfAny S R X (c.log [Act.recvNonData h]) h t = .ok (c1, false) →
        loopStep S R X .I c t =
          .ok (if (t.others c1).socket.State = .OPEN ∨ (t.others c1).socket.State = .PARTOPEN
                then .II else .I,
              ((c1.Lock t.others).log [Act.getState (t.others c1).socket.State]).Unlock)) ∧
      (∀ (h : Option writeHeader) (c1 : Conn σ ρ υ), t.nonData = some (.item h) →
        sendIfAny S R X (c.log [Act.recvNonData h]) h t = .ok (c1, true) →
        loopStep S R X .I c t = .ok (.Exit, exitLoop c1)) ∧
      (∀ (h : Option writeHeader) (c1 : Conn σ ρ υ) (msg : String) (b : Bool),
        t.nonData = some (.item h) →
        sendIfAny S R X (c.log [Act.recvNonData h]) h t = .panic msg (c1, b) →
        loopStep S R X .I c t = .panic msg (.I, c1))) ∧
    -- phase I on a nil item: the state is read all the same
    (∀ (c : Conn σ ρ υ) (t : Tick σ ρ υ), t.nonData = some (.item none) →
      loopStep S R X .I c t =
        .ok (if (t.others (c.log [Act.recvNonData none])).socket.State = .OPEN ∨
                (t.others (c.log [Act.recvNonData none])).socket.State = .PARTOPEN
              then .II else .I,
            (((c.log [Act.recvNonData none]).Lock t.others).log
              [Act.getState (t.others (c.log [Act.recvNonData none])).socket.State]).Unlock)) ∧
    -- phase I goes to phase II exactly when the state read is OPEN or PARTOPEN
    (∀ (c : Conn σ ρ υ) (t : Tick σ ρ υ) (h : Option writeHeader) (c1 : Conn σ ρ υ),
      t.nonData = some (.item h) →
      sendIfAny S R X (c.log [Act.recvNonData h]) h t = .ok (c1, false) →
      ((loopStep S R X .I c t).val.1 = .II ↔
        ((t.others c1).socket.State = .OPEN ∨ (t.others c1).socket.State = .PARTOPEN)) ∧
      ((loopStep S R X .I c t).val.1 = .I ↔
        ¬ ((t.others c1).socket.State = .OPEN ∨ (t.others c1).socket.State = .PARTOPEN)) ∧
      added c1.trace (loopStep S R X .I c t).val.2.trace =
        [Act.lock, Act.getState (t.others c1).socket.State, Act.unlock]) ∧
    (∀ (c : Conn σ ρ υ) (t : Tick σ ρ υ), (loopStep S R X .I c t).val.1 ≠ .III) ∧
    -- phase III, case by case
    (∀ (c : Conn σ ρ υ) (t : Tick σ ρ υ),
      (t.nonData = none → loopStep S R X .III c t = .ok (.III, c)) ∧
      (t.nonData = some .closed →
        loopStep S R X .III c t = .ok (.Exit, exitLoop (c.log [Act.recvNonDataClosed]))) ∧
      (∀ (h : Option writeHeader) (c1 : Conn σ ρ υ), t.nonData = some (.item h) →
        sendIfAny S R X (c.log [Act.recvNonData h]) h t = .ok (c1, false) →
        loopStep S R X .III c t = .ok (.III, c1)) ∧
      (∀ (h : Option writeHeader) (c1 : Conn σ ρ υ), t.nonData = some (.item h) →
        sendIfAny S R X (c.log [Act.recvNonData h]) h t = .ok (c1, true) →
        loopStep S R X .III c t = .ok (.Exit, exitLoop c1)) ∧
      (∀ (h : Option writeHeader) (c1 : Conn σ ρ υ) (msg : String) (b : Bool),
        t.nonData = some (.item h) →
        sendIfAny S R X (c.log [Act.recvNonData h]) h t = .panic msg (c1, b) →
        loopStep S R X .III c t = .panic msg (.III, c1))) ∧
    -- phase II, case by case
    (∀ (c : Conn σ ρ υ) (t : Tick σ ρ υ),
      (select t = .blocked → loopStep S R X .II c t = .ok (.II, c)) ∧
      (select t = .nonData .closed →
        loopStep S R X .II c t = .ok (.Exit, exitLoop (c.log [Act.recvNonDataClosed]))) ∧
      (select t = .data .closed →
        loopStep S R X .II c t = .ok (.III, c.log [Act.recvDataClosed])) ∧
      (∀ (h : Option writeHeader), select t = .nonData (.item h) →
        (∀ c1, sendIfAny S R X (c.log [Act.recvNonData h]) h t = .ok (c1, false) →
          loopStep S R X .II c t = .ok (.II, c1)) ∧
        (∀ c1, sendIfAny S R X (c.log [Act.recvNonData h]) h t = .ok (c1, true) →
          loopStep S R X .II c t = .ok (.Exit, exitLoop c1)) ∧
        (∀ c1 msg b, sendIfAny S R X (c.log [Act.recvNonData h]) h t = .panic msg (c1, b) →
          loopStep S R X .II c t = .panic msg (.II, c1))) ∧
      (∀ (d : List Nat) (c0 : Conn σ ρ υ), select t = .data (.item d) →
        c0 = (((c.log [Act.recvData d]).Lock t.others).ret (Act.generateDataAck d)
                (X.generateDataAck ((c.log [Act.recvData d]).Lock t.others) d).1).Unlock →
        (∀ c1, sendIfAny S R X c0
              (X.generateDataAck ((c.log [Act.recvData d]).Lock t.others) d).2 t =
                .ok (c1, false) →
          loopStep S R X .II c t = .ok (.II, c1)) ∧
        (∀ c1, sendIfAny S R X c0
              (X.generateDataAck ((c.log [Act.recvData d]).Lock t.others) d).2 t =
                .ok (c1, true) →
          loopStep S R X .II c t = .ok (.Exit, exitLoop c1)) ∧
        (∀ c1 msg b, sendIfAny S R X c0
              (X.generateDataAck ((c.log [Act.recvData d]).Lock t.others) d).2 t =
                .panic msg (c1, b) →
          loopStep S R X .II c t = .panic msg (.II, c1)))) ∧
    -- runs of the writer
    (∀ c : Conn σ ρ υ,
      writeLoop S R X c [] = .ok (.I, c.log [Act.emit .EventInfo "Write Loop I" .none]) ∧
      (∀ (ts : List (Tick σ ρ υ)) (t : Tick σ ρ υ),
        writeLoop S R X c (ts ++ [t]) =
          match writeLoop S R X c ts with
          | .panic msg r => .panic msg r
          | .ok (p, c1) => loopStep S R X p c1 t) ∧
      (∀ ts more : List (Tick σ ρ υ),
        (writeLoop S R X c ts).val.1.rank ≤ (writeLoop S R X c (ts ++ more)).val.1.rank) ∧
      (∀ ts more : List (Tick σ ρ υ),
        (writeLoop S R X c ts).val.1 = .Exit ∨ (writeLoop S R X c ts).panicked = true →
          writeLoop S R X c (ts ++ more) = writeLoop S R X c ts) ∧
      (∀ (ts : List (Tick σ ρ υ)) (t : Tick σ ρ υ), (writeLoop S R X c ts).val.1 ≠ .II →
        ∀ m ∈ marks (added (writeLoop S R X c ts).val.2.trace
            (writeLoop S R X c (ts ++ [t])).val.2.trace), m.isData = false)) := by
  obtain ⟨a1, a2, a3, a4, a5, a6, a7, a8, a9, a10, a11⟩ := loopStep_phases S R X
  refine ⟨a1, a2, a3, a4, a5, a6, a7, a8, a9, a10, a11, sendIfAny_cases S R X,
    stepI_cases S R X, ?_, ?_, stepI_not_III S R X, stepIII_cases S R X, stepII_cases S R X,
    writeLoop_runs S R X⟩
  · intro c t ht
    exact (stepI_cases S R X c t).2.2.1 none _ ht rfl
  · intro c t h c1 ht hs
    rw [(stepI_cases S R X c t).2.2.1 h c1 ht hs]
    simp only [Result.val]
    refine ⟨?_, ?_, ?_⟩
    · split <;> simp_all
    · split <;> simp_all
    · simp [added, Conn.Unlock, Conn.log, Conn.Lock]

end

/-- C7 (counterexample): on a control envelope of type Ack, with congestion
controls that place no option, Conn.write strobes first and takes the lock
afterwards, so its steps are not in the order lock, seq/ack, WriteCC, unlock,
strobe, codec, and the strobe does not come after WriteCC. -/
theorem write_order_not_spec :
    marks (write (sccWith []) (rccWith []) plainExternals (blankConn .OPEN none)
        ackEnvelope tickControl).val.1.trace =
      [.strobe, .lock, .seqAck, .cc, .unlock, .codec] ∧
    ¬ (marks (write (sccWith []) (rccWith []) plainExternals (blankConn .OPEN none)
        ackEnvelope tickControl).val.1.trace = specSendOrder) := by
  have h : marks (write (sccWith []) (rccWith []) plainExternals (blankConn .OPEN none)
      ackEnvelope tickControl).val.1.trace =
      [.strobe, .lock, .seqAck, .cc, .unlock, .codec] := by decide
  refine ⟨h, ?_⟩
  rw [h]
  decide

/-- C6: in `_Loop_II`, with a control envelope and a data payload both ready,
the `select` can take the data payload: the iteration then receives from the
data conduit, builds the DataAck and writes it to the link, and the control
envelope is not received. -/
theorem select_takes_data_with_control_pending :
    tickBothReady.nonData = some (.item (some ackEnvelope)) ∧
    tickBothReady.data = some (.item [7]) ∧
    select tickBothReady = .data (.item [7]) ∧
    marks (stepII (sccWith []) (rccWith []) plainExternals (blankConn .OPEN none)
        tickBothReady).val.2.trace =
      [.data, .lock, .genDataAck, .unlock, .strobe, .lock, .seqAck, .cc, .unlock, .codec] ∧
    Act.hcWrite { blankHeader 4 with Data := [7] } ∈
      (stepII (sccWith []) (rccWith []) plainExternals (blankConn .OPEN none)
        tickBothReady).val.2.trace := by
  refine ⟨rfl, rfl, rfl, by decide, by decide⟩

section
variable {σ ρ υ : Type}

theorem gotoCLOSED_eq (S : SenderCC σ) (R : ReceiverCC ρ) (H : Helpers υ)
    (c : Conn σ ρ υ) (hl : c.locked = true) :
    gotoCLOSED S R H c = .ok
      { socket := { c.socket with State := .CLOSED },
        scc := if c.ccidOpen then S.Close c.scc else c.scc,
        rcc := if c.ccidOpen then R.Close c.rcc else c.rcc,
        ccidOpen := false,
        err := H.setError .ErrAbort c.err,
        user := H.teardownUser c.user,
        writeNonData := H.teardownWriteLoop c.writeNonData,
        locked := true,
        trace := c.trace ++ [Act.emitSetState c.socket.State, Act.setState .CLOSED,
          Act.setError .ErrAbort, Act.teardownUser, Act.teardownWriteLoop] ++
          (if c.ccidOpen then [Act.sccClose, Act.rccClose,
            Act.emit .EventMatch "CCID close" .none] else []) } := by
  cases ho : c.ccidOpen <;>
    simp [gotoCLOSED, AssertLocked, closeCCID, hl, ho, Conn.log]

/-- Two calls of gotoCLOSED in a row, with the lock held and whatever the methods
setError, teardownUser and teardownWriteLoop do to the fields they are given:
both calls return, each leaves the socket state CLOSED and the CCID closed, and
the second call finds the CCID closed and calls Close on neither
congestion-control module; it calls the three methods again, on what the first
call left, so that the second call changes nothing but the log exactly when the
three methods change nothing on their second call. -/
theorem gotoCLOSED_twice (S : SenderCC σ) (R : ReceiverCC ρ) (H : Helpers υ)
    (c : Conn σ ρ υ) (hl : c.locked = true) :
    ∃ c1 c2, gotoCLOSED S R H c = .ok c1 ∧ gotoCLOSED S R H c1 = .ok c2 ∧
      c1.socket.State = .CLOSED ∧ c2.socket.State = .CLOSED ∧
      c1.ccidOpen = false ∧ c2.ccidOpen = false ∧ c1.locked = true ∧ c2.locked = true ∧
      c2.socket = c1.socket ∧ c2.scc = c1.scc ∧ c2.rcc = c1.rcc ∧
      c1.err = H.setError .ErrAbort c.err ∧ c2.err = H.setError .ErrAbort c1.err ∧
      c1.user = H.teardownUser c.user ∧ c2.user = H.teardownUser c1.user ∧
      c1.writeNonData = H.teardownWriteLoop c.writeNonData ∧
      c2.writeNonData = H.teardownWriteLoop c1.writeNonData ∧
      added c1.trace c2.trace = [Act.emitSetState .CLOSED, Act.setState .CLOSED,
        Act.setError .ErrAbort, Act.teardownUser, Act.teardownWriteLoop] ∧
      (c2 = { c1 with trace := c2.trace } ↔
        H.setError .ErrAbort c1.err = c1.err ∧ H.teardownUser c1.user = c1.user ∧
          H.teardownWriteLoop c1.writeNonData = c1.writeNonData) := by
  refine ⟨_, _, gotoCLOSED_eq S R H c hl, gotoCLOSED_eq S R H _ rfl, ?_⟩
  refine ⟨rfl, rfl, rfl, rfl, rfl, rfl, rfl, rfl, rfl, rfl, rfl, rfl, rfl, rfl, rfl, ?_, ?_⟩
  · simp [added]
  · constructor
    · intro h
      have h1 := congrArg Conn.err h
      have h2 := congrArg Conn.user h
      have h3 := congrArg Conn.writeNonData h
      exact ⟨h1, h2, h3⟩
    · rintro ⟨h1, h2, h3⟩
      simp only [h1, h2, h3]
      simp

end

/-! ### Runs of the embedding on concrete inputs -/

/-- A run of Conn.writeLoop through its three phases: a wake (nil) on the
control conduit with the socket OPEN, a data payload, the closing of the data
conduit, a control envelope, the closing of the control conduit. -/
theorem writeLoop_run_through_phases :
    (writeLoop (sccWith []) (rccWith []) plainExternals (blankConn .OPEN none)
        [tickOf (some (.item none)) none, tickOf none (some (.item [7])),
         tickOf none (some .closed), tickOf (some (.item (some ackEnvelope))) none,
         tickOf (some .closed) none]).val.1 = .Exit ∧
    marks (writeLoop (sccWith []) (rccWith []) plainExternals (blankConn .OPEN none)
        [tickOf (some (.item none)) none, tickOf none (some (.item [7])),
         tickOf none (some .closed), tickOf (some (.item (some ackEnvelope))) none,
         tickOf (some .closed) none]).val.2.trace =
      [.ctl, .lock, .state .OPEN, .unlock,
       .data, .lock, .genDataAck, .unlock, .strobe, .lock, .seqAck, .cc, .unlock, .codec,
       .dataClosed,
       .ctl, .strobe, .lock, .seqAck, .cc, .unlock, .codec,
       .ctlClosed] := by
  refine ⟨by decide, by decide⟩

/-- A sender congestion control that places an option of type 200 makes
Conn.write panic inside WriteCC, with the lock held and nothing written to the
link. -/
theorem write_panics_on_option_200 :
    (write (sccWith [optOfType 200]) (rccWith []) plainExternals (blankConn .OPEN none)
        ackEnvelope tickControl).panicked = true ∧
    (write (sccWith [optOfType 200]) (rccWith []) plainExternals (blankConn .OPEN none)
        ackEnvelope tickControl).val.1.locked = true ∧
    marks (write (sccWith [optOfType 200]) (rccWith []) plainExternals (blankConn .OPEN none)
        ackEnvelope tickControl).val.1.trace = [.strobe, .lock, .seqAck, .cc] := by
  refine ⟨by decide, by decide, by decide⟩

/-- Conn.inject on a full control conduit of capacity 1: the conduit keeps its
one item and the two events are logged. -/
theorem inject_full_example :
    inject (blankConn .OPEN (some { buf := [none], cap := 1 })) (some ackEnvelope) =
      some { blankConn .OPEN (some { buf := [none], cap := 1 }) with
        trace := [Act.emit .EventWrite "Write before drop" (.wh (some ackEnvelope)),
                  Act.emit .EventDrop "Slow strobe" (.wh (some ackEnvelope))] } := by
  rfl

/-! ### backoff.go and mono.go -/


theorem wrap64_of_inInt64 {x : Int} (h : inInt64 x) : wrap64 x = x := by
  unfold inInt64 at h
  unfold wrap64
  omega

theorem max64_eq (x y : Int) : max64 x y = max x y := by
  unfold max64
  split <;> omega

/-- C13: with lifetime >= timeout, backOff.Sleep returns the end-of-sequence
error and time 0, makes no call into the runtime and leaves the record and the
runtime as they are; and it returns the error only when lifetime >= timeout. -/
theorem backOff_Sleep_eof {τ : Type} (E : Env τ) (b : backOff) (rt : τ) :
    (b.lifetime ≥ b.timeout →
      (b.Sleep E rt).eof = true ∧ (b.Sleep E rt).time = 0 ∧ (b.Sleep E rt).calls = [] ∧
      (b.Sleep E rt).b = b ∧ (b.Sleep E rt).rt = rt) ∧
    ((b.Sleep E rt).eof = true → b.lifetime ≥ b.timeout) := by
  constructor
  · intro h
    simp [backOff.Sleep, h]
  · intro h
    by_contra hlt
    simp [backOff.Sleep, hlt] at h

/-- C14 (counterexample): with sleep = -1 the back-off step leaves sleep at -1,
not at floor(-4/3) = -2; with sleep = 2^62 the product 4*sleep wraps to 0; with
lifetime = 2^63 - 2 the sum lifetime + e wraps to a negative lifetime; with
lastBackoff = -2^63 the difference wraps, so the back-off step is skipped
although lifetime - lastBackoff >= backoffFreq. -/
theorem backOff_Sleep_not_floor :
    ((negativeSleep.Sleep clockEnv 0).b.sleep = -1 ∧
      (negativeSleep.Sleep clockEnv 0).b.sleep ≠ 4 * negativeSleep.sleep / 3) ∧
    ((hugeSleep.Sleep clockEnv 0).b.sleep = 0 ∧
      (hugeSleep.Sleep clockEnv 0).b.sleep ≠ 4 * hugeSleep.sleep / 3) ∧
    ((lateLifetime.Sleep clockEnv 0).b.lifetime = -2 ^ 63 + 99999998 ∧
      (lateLifetime.Sleep clockEnv 0).b.lifetime ≠
        lateLifetime.lifetime + max BackoffMin lateLifetime.sleep) ∧
    (earlyBackoff.lifetime + max BackoffMin earlyBackoff.sleep - earlyBackoff.lastBackoff ≥
        earlyBackoff.backoffFreq ∧
      (earlyBackoff.Sleep clockEnv 0).b.sleep = 5 ∧
      (earlyBackoff.Sleep clockEnv 0).b.sleep ≠ 4 * earlyBackoff.sleep / 3) := by
  refine ⟨⟨by decide, by decide⟩, ⟨by decide, by decide⟩, ⟨by decide, by decide⟩,
    by decide, by decide, by decide⟩

/-- C14 (amended): with lifetime < timeout and no overflow of the `int64`
operations lifetime + e, new lifetime - lastBackoff and 4*sleep, backOff.Sleep
sleeps exactly once, for e = max(BackoffMin, sleep), sets lifetime to
lifetime + e, then, if the new lifetime minus lastBackoff is >= backoffFreq, sets
sleep to 4*sleep/3 rounded toward zero, which is floor(4*sleep/3) when
sleep >= 0, and lastBackoff to the new lifetime, and otherwise leaves both;
timeout and backoffFreq stay, and it returns no error with the time the runtime
reports after the sleep. -/
theorem backOff_Sleep_step {τ : Type} (E : Env τ) (b : backOff) (rt : τ)
    (hlt : b.lifetime < b.timeout)
    (h1 : inInt64 (b.lifetime + max BackoffMin b.sleep))
    (h2 : inInt64 (b.lifetime + max BackoffMin b.sleep - b.lastBackoff))
    (h3 : inInt64 (4 * b.sleep)) :
    BackoffMin = 100000000 ∧
    (b.Sleep E rt).calls = [.Sleep (max BackoffMin b.sleep), .Now] ∧
    (b.Sleep E rt).b.lifetime = b.lifetime + max BackoffMin b.sleep ∧
    (b.lifetime + max BackoffMin b.sleep - b.lastBackoff ≥ b.backoffFreq →
      (b.Sleep E rt).b.sleep = Int.tdiv (4 * b.sleep) 3 ∧
      (0 ≤ b.sleep → (b.Sleep E rt).b.sleep = 4 * b.sleep / 3) ∧
      (b.Sleep E rt).b.lastBackoff = b.lifetime + max BackoffMin b.sleep) ∧
    (¬ b.lifetime + max BackoffMin b.sleep - b.lastBackoff ≥ b.backoffFreq →
      (b.Sleep E rt).b.sleep = b.sleep ∧ (b.Sleep E rt).b.lastBackoff = b.lastBackoff) ∧
    (b.Sleep E rt).b.timeout = b.timeout ∧
    (b.Sleep E rt).b.backoffFreq = b.backoffFreq ∧
    (b.Sleep E rt).eof = false ∧
    (b.Sleep E rt).time = (E.Now (E.Sleep rt (max BackoffMin b.sleep))).2 ∧
    (b.Sleep E rt).rt = (E.Now (E.Sleep rt (max BackoffMin b.sleep))).1 := by
  have hnl : ¬ b.lifetime ≥ b.timeout := by omega
  have hdiv : 0 ≤ b.sleep → Int.tdiv (4 * b.sleep) 3 = 4 * b.sleep / 3 := by
    intro hs
    rw [Int.tdiv_eq_ediv] <;> omega
  by_cases hb : b.lifetime + max BackoffMin b.sleep - b.lastBackoff ≥ b.backoffFreq
  · simp [backOff.Sleep, hnl, max64_eq, wrap64_of_inInt64 h1, wrap64_of_inInt64 h2,
      wrap64_of_inInt64 h3, hb]
    exact ⟨rfl, hdiv⟩
  · simp [backOff.Sleep, hnl, max64_eq, wrap64_of_inInt64 h1, wrap64_of_inInt64 h2,
      wrap64_of_inInt64 h3, hb]
    rfl

/-- C14 (witness): the first Sleep of the REQUEST back-off timer. -/
theorem backOff_Sleep_step_witness :
    BackoffMin = 100000000 ∧
    ((newBackOff 1000000000 30000000000 10000000000).Sleep clockEnv 0).calls =
      [.Sleep (max BackoffMin (newBackOff 1000000000 30000000000 10000000000).sleep), .Now] ∧
    ((newBackOff 1000000000 30000000000 10000000000).Sleep clockEnv 0).b.lifetime =
      (newBackOff 1000000000 30000000000 10000000000).lifetime +
        max BackoffMin (newBackOff 1000000000 30000000000 10000000000).sleep := by
  have h := backOff_Sleep_step clockEnv (newBackOff 1000000000 30000000000 10000000000) 0
    (by decide) (by decide) (by decide) (by decide)
  exact ⟨h.1, h.2.1, h.2.2.1⟩

/-- C15: for the REQUEST parameters (first sleep 1 s, back-off every 10 s,
timeout 30 s) the timer sleeps 24 times before Sleep returns the end-of-sequence
error, 31333333326 ns in all, which is the final lifetime and is more than
timeout + BackoffMin = 30100000000 ns. -/
theorem backOff_request_overshoots :
    (sleepUntilEOF clockEnv 100
        (newBackOff REQUEST_BACKOFF_FIRST REQUEST_BACKOFF_TIMEOUT REQUEST_BACKOFF_FREQ) 0).map
      (fun r => (r.1.length, r.1.sum, r.2.lifetime)) = some (24, 31333333326, 31333333326) ∧
    ¬ ((31333333326 : Int) ≤ REQUEST_BACKOFF_TIMEOUT + BackoffMin) := by
  refine ⟨by decide, by decide⟩

theorem monotoneTime_Now_ok (x : monotoneTime) (now : Int) (h : ¬ now < x.last) :
    x.Now now = .ok ({ last := now }, now) := by
  have : max64 now x.last = now := by rw [max64_eq]; omega
  simp [monotoneTime.Now, h, this]

theorem monotoneTime_NowAll_chain (raws : List Int) : ∀ x : monotoneTime,
    (x.NowAll raws).panicked = false →
      (x.NowAll raws).val.2 = raws ∧ List.Chain (· ≤ ·) x.last raws ∧
      (x.NowAll raws).val.1.last = (x.last :: raws).getLast (by simp) := by
  induction raws with
  | nil => intro x _; simp [monotoneTime.NowAll, Result.val]
  | cons now rest ih =>
    intro x hp
    by_cases hlt : now < x.last
    · simp [monotoneTime.NowAll, monotoneTime.Now, hlt, Result.panicked] at hp
    · have hn := monotoneTime_Now_ok x now hlt
      cases hr : monotoneTime.NowAll { last := now } rest with
      | panic msg a =>
        simp [monotoneTime.NowAll, hn, hr, Result.panicked] at hp
      | ok a =>
        have h := ih { last := now } (by simp [hr, Result.panicked])
        rw [hr] at h
        simp only [Result.val] at h
        obtain ⟨h1, h2, h3⟩ := h
        refine ⟨?_, ?_, ?_⟩
        · simp [monotoneTime.NowAll, hn, hr, Result.val, h1]
        · exact List.Chain.cons (by omega) h2
        · simp only [monotoneTime.NowAll, hn, hr, Result.val, h3]
          simp [List.getLast_cons]

/-- C16: a call of monotoneTime.Now that returns gives max(raw reading, last)
and stores it as last; over every sequence of raw readings on which all calls
return, the values returned are non-decreasing, starting from last, and the last
one of them is what the record holds. -/
theorem monotoneTime_Now_max :
    (∀ (x : monotoneTime) (now : Int), (x.Now now).panicked = false →
      x.Now now = .ok ({ last := max now x.last }, max now x.last)) ∧
    (∀ (x : monotoneTime) (raws : List Int), (x.NowAll raws).panicked = false →
      List.Chain (· ≤ ·) x.last (x.NowAll raws).val.2 ∧
      (x.NowAll raws).val.2.length = raws.length ∧
      (x.NowAll raws).val.1.last = (x.last :: (x.NowAll raws).val.2).getLast (by simp)) := by
  constructor
  · intro x now hp
    by_cases hlt : now < x.last
    · simp [monotoneTime.Now, hlt, Result.panicked] at hp
    · rw [monotoneTime_Now_ok x now hlt]
      have : max now x.last = now := by omega
      rw [this]
  · intro x raws hp
    obtain ⟨h1, h2, h3⟩ := monotoneTime_NowAll_chain raws x hp
    refine ⟨by rw [h1]; exact h2, by rw [h1], ?_⟩
    simp only [h1, h3]

/-- C17: monotoneTime.Now panics exactly when the raw reading is strictly
smaller than last, which is 0 after Init; a runtime that reports 10 and then 5
makes the second call panic after the first returned 10; a call that panics
leaves last as it was. -/
theorem monotoneTime_Now_panics_iff :
    (∀ (x : monotoneTime) (now : Int), (x.Now now).panicked = true ↔ now < x.last) ∧
    (∀ x : monotoneTime, x.Init.last = 0) ∧
    (∀ x : monotoneTime, (x.Init.NowAll [10, 5]).panicked = true ∧
      (x.Init.NowAll [10, 5]).val = ({ last := 10 }, [10])) ∧
    (∀ (x : monotoneTime) (now : Int), (x.Now now).panicked = true →
      (x.Now now).val.1 = x) := by
  refine ⟨?_, fun _ => rfl, fun _ => ⟨rfl, rfl⟩, ?_⟩
  · intro x now
    by_cases hlt : now < x.last <;> simp [monotoneTime.Now, hlt, Result.panicked]
  · intro x now hp
    by_cases hlt : now < x.last
    · simp [monotoneTime.Now, hlt, Result.val]
    · simp [monotoneTime.Now, hlt, Result.panicked] at hp

/-- C18: two consecutive calls of monotoneTime.Now on a runtime that reports 10
both times both return 10: the second value is not greater than the first. -/
theorem monotoneTime_Now_repeats :
    ((monotoneTime.Init { last := 0 }).NowAll [10, 10]).panicked = false ∧
    ((monotoneTime.Init { last := 0 }).NowAll [10, 10]).val.2 = [10, 10] ∧
    ¬ ((10 : Int) < 10) := by
  refine ⟨by decide, by decide, by decide⟩

/-! ### synthetic.go -/


theorem DeleteMin_sorted (q : sleeperQueue) (hq : q.Sorted wakeLE) :
    q.DeleteMin.2.Sorted wakeLE := by
  cases q with
  | nil => simp [sleeperQueue.DeleteMin]
  | cons x rest => exact (List.sorted_cons.1 hq).2

theorem loopPass_sorted (sort : sleeperQueue → sleeperQueue) (hsort : SortsByWake sort)
    (v : LoopVars) (req : Option Request) (hq : v.sleepers.Sorted wakeLE) :
    (SyntheticRuntime.loopPass sort v req).val.2.1.sleepers.Sorted wakeLE := by
  unfold SyntheticRuntime.loopPass
  split
  · split
    · exact hq
    · exact hsort.sorted _
  · exact hq
  · exact hq
  · have hd := DeleteMin_sorted v.sleepers hq
    simp only []
    split
    · exact hq
    · split
      · exact hd
      · split
        · exact hd
        · exact hd

theorem loopPass_clock (sort : sleeperQueue → sleeperQueue) (v : LoopVars)
    (req : Option Request) :
    (wakeTimes (SyntheticRuntime.loopPass sort v req).val.2.2 = [] ∧
      (SyntheticRuntime.loopPass sort v req).val.2.1.now = v.now) ∨
    (wakeTimes (SyntheticRuntime.loopPass sort v req).val.2.2 =
        [(SyntheticRuntime.loopPass sort v req).val.2.1.now] ∧
      v.now ≤ (SyntheticRuntime.loopPass sort v req).val.2.1.now) := by
  unfold SyntheticRuntime.loopPass
  split
  · split <;> simp [Result.val, wakeTimes]
  · simp [Result.val, wakeTimes]
  · simp [Result.val, wakeTimes]
  · simp only []
    split
    · simp [Result.val, wakeTimes]
    · split
      · simp [Result.val, wakeTimes]
      · split
        · simp [Result.val, wakeTimes]
        · right
          simp only [Result.val, wakeTimes, true_and]
          omega

theorem wakeTimes_append (a b : List LoopEffect) :
    wakeTimes (a ++ b) = wakeTimes a ++ wakeTimes b := by
  induction a with
  | nil => rfl
  | cons e a ih => cases e <;> simp [wakeTimes, ih]

theorem loopFrom_chain (sort : sleeperQueue → sleeperQueue) (reqs : List (Option Request)) :
    ∀ v : LoopVars,
      List.Chain (· ≤ ·) v.now (wakeTimes (SyntheticRuntime.loopFrom sort v reqs).val.2.2) ∧
      v.now ≤ (SyntheticRuntime.loopFrom sort v reqs).val.2.1.now := by
  induction reqs with
  | nil => intro v; simp [SyntheticRuntime.loopFrom, Result.val, wakeTimes]
  | cons req reqs ih =>
    intro v
    have hc := loopPass_clock sort v req
    cases hp : SyntheticRuntime.loopPass sort v req with
    | panic msg a =>
      rw [hp] at hc
      simp only [Result.val] at hc
      simp only [SyntheticRuntime.loopFrom, hp, Result.val]
      rcases hc with ⟨h1, h2⟩ | ⟨h1, h2⟩
      · rw [h1, h2]; exact ⟨List.Chain.nil, le_refl _⟩
      · rw [h1]; exact ⟨List.Chain.cons h2 List.Chain.nil, h2⟩
    | ok a =>
      rw [hp] at hc
      simp only [Result.val] at hc
      obtain ⟨b, v1, es⟩ := a
      have hle : v.now ≤ v1.now := by
        rcases hc with ⟨_, h2⟩ | ⟨_, h2⟩
        · exact le_of_eq h2.symm
        · exact h2
      have hes : List.Chain (· ≤ ·) v.now (wakeTimes es) := by
        rcases hc with ⟨h1, _⟩ | ⟨h1, h2⟩
        · rw [h1]; exact List.Chain.nil
        · rw [h1]; exact List.Chain.cons h2 List.Chain.nil
      cases b with
      | false =>
        simp only [SyntheticRuntime.loopFrom, hp, Result.val]
        exact ⟨hes, hle⟩
      | true =>
        obtain ⟨h3, h4⟩ := ih v1
        have key : List.Chain (· ≤ ·) v.now
            (wakeTimes es ++ wakeTimes (SyntheticRuntime.loopFrom sort v1 reqs).val.2.2) := by
          rcases hc with ⟨h1, h2⟩ | ⟨h1, h2⟩
          · rw [h1, List.nil_append]
            simp only [] at h2
            rw [← h2]
            exact h3
          · rw [h1]
            exact List.Chain.cons h2 h3
        cases hr : SyntheticRuntime.loopFrom sort v1 reqs with
        | panic msg a2 =>
          rw [hr] at key h4
          simp only [Result.val] at key h4
          simp only [SyntheticRuntime.loopFrom, hp, hr, Result.val, wakeTimes_append]
          exact ⟨key, le_trans hle h4⟩
        | ok a2 =>
          rw [hr] at key h4
          simp only [Result.val] at key h4
          simp only [SyntheticRuntime.loopFrom, hp, hr, Result.val, wakeTimes_append]
          exact ⟨key, le_trans hle h4⟩

theorem loopFrom_sorted (sort : sleeperQueue → sleeperQueue) (hsort : SortsByWake sort)
    (reqs : List (Option Request)) : ∀ v : LoopVars, v.sleepers.Sorted wakeLE →
      (SyntheticRuntime.loopFrom sort v reqs).val.2.1.sleepers.Sorted wakeLE := by
  induction reqs with
  | nil => intro v hq; simpa [SyntheticRuntime.loopFrom, Result.val] using hq
  | cons req reqs ih =>
    intro v hq
    have hs := loopPass_sorted sort hsort v req hq
    cases hp : SyntheticRuntime.loopPass sort v req with
    | panic msg a =>
      rw [hp] at hs
      simpa [SyntheticRuntime.loopFrom, hp, Result.val] using hs
    | ok a =>
      rw [hp] at hs
      simp only [Result.val] at hs
      obtain ⟨b, v1, es⟩ := a
      cases b with
      | false => simpa [SyntheticRuntime.loopFrom, hp, Result.val] using hs
      | true =>
        have h3 := ih v1 hs
        cases hr : SyntheticRuntime.loopFrom sort v1 reqs with
        | panic msg a2 =>
          rw [hr] at h3
          simpa [SyntheticRuntime.loopFrom, hp, hr, Result.val] using h3
        | ok a2 =>
          rw [hr] at h3
          simpa [SyntheticRuntime.loopFrom, hp, hr, Result.val] using h3

theorem sortByWake_sorts : SortsByWake sortByWake := by
  haveI : IsTotal scheduledToSleep wakeLE := ⟨fun a b => le_total a.wake b.wake⟩
  haveI : IsTrans scheduledToSleep wakeLE := ⟨fun a b c h1 h2 => le_trans h1 h2⟩
  exact ⟨fun q => List.perm_insertionSort wakeLE q, fun q => List.sorted_insertionSort wakeLE q⟩

set_option maxRecDepth 100000 in
/-- C19 (counterexample): a task sleeps 1 ns and is woken at clock 1; a second
task then requests Sleep(2^63 - 1): its wake time wraps to -2^63 instead of
1 + (2^63 - 1), and the pass that takes it from the queue panics with "waking in
the past", so it is never woken. -/
theorem synthetic_sleep_wraps :
    (SyntheticRuntime.loop sortByWake overflowRun.dropLast).val =
      (true, { now := 1, sleepers := [{ wake := -2 ^ 63, resp := 1 }], nidle := 100 },
        [.woke 0 1]) ∧
    ¬ ((-2 ^ 63 : Int) = 1 + (2 ^ 63 - 1)) ∧
    SyntheticRuntime.loop sortByWake overflowRun =
      .panic "waking in the past" (true, { now := 1, sleepers := [], nidle := 101 },
        [.woke 0 1]) := by
  refine ⟨by rfl, by decide, by rfl⟩

/-- C19 (amended): in the synthetic runtime, a request Sleep(d) with d >= 0
received when the clock reads t, with t + d an `int64` value, queues the sleeper
with wake time exactly t + d; a wake-up sets the clock to exactly the wake time
of the sleeper it wakes, which is the head of the queue; the clock values at
which sleepers are woken are non-decreasing; sleeperQueue.Add leaves the queue
sorted ascending by wake time, with the new sleeper added to those it held; and
DeleteMin returns nil on the empty queue, leaving it empty, and on a sorted
queue removes and returns a sleeper of minimal wake time; the queue of the loop
stays sorted. -/
theorem synthetic_sleep_wake (sort : sleeperQueue → sleeperQueue) (hsort : SortsByWake sort) :
    (∀ (v : LoopVars) (d : Int) (resp : Nat), 0 ≤ d → inInt64 (v.now + d) →
      SyntheticRuntime.loopPass sort v (some (.requestSleep d resp)) =
        .ok (true, { v with sleepers := v.sleepers.Add sort { wake := v.now + d, resp := resp } },
          []) ∧
      ({ wake := v.now + d, resp := resp } : scheduledToSleep) ∈
        v.sleepers.Add sort { wake := v.now + d, resp := resp }) ∧
    (∀ (v : LoopVars) (x : scheduledToSleep) (rest : sleeperQueue),
      SpinThreshold ≤ v.nidle + 1 → v.sleepers = x :: rest → v.now ≤ x.wake →
      SyntheticRuntime.loopPass sort v none =
        .ok (true, { now := x.wake, sleepers := rest, nidle := v.nidle + 1 },
          [.woke x.resp x.wake])) ∧
    (∀ (v : LoopVars) (reqs : List (Option Request)),
      List.Chain (· ≤ ·) v.now (wakeTimes (SyntheticRuntime.loopFrom sort v reqs).val.2.2)) ∧
    (∀ (q : sleeperQueue) (a : scheduledToSleep),
      (q.Add sort a).Sorted wakeLE ∧ (q.Add sort a).Perm (q ++ [a])) ∧
    sleeperQueue.DeleteMin [] = (none, []) ∧
    (∀ (q : sleeperQueue) (x : scheduledToSleep) (rest : sleeperQueue), q.Sorted wakeLE →
      q.DeleteMin = (some x, rest) →
        q = x :: rest ∧ (∀ y ∈ q, x.wake ≤ y.wake) ∧ rest.Sorted wakeLE) ∧
    (∀ reqs : List (Option Request),
      (SyntheticRuntime.loop sort reqs).val.2.1.sleepers.Sorted wakeLE) := by
  refine ⟨?_, ?_, ?_, ?_, rfl, ?_, ?_⟩
  · intro v d resp hd hin
    have hnd : ¬ d < 0 := by omega
    refine ⟨?_, ?_⟩
    · simp [SyntheticRuntime.loopPass, hnd, wrap64_of_inInt64 hin]
    · exact (hsort.perm _).mem_iff.2 (by simp)
  · intro v x rest hn hq hle
    have h1 : ¬ v.nidle + 1 < SpinThreshold := by omega
    have h2 : ¬ x.wake < v.now := by omega
    simp [SyntheticRuntime.loopPass, h1, hq, sleeperQueue.DeleteMin, h2]
  · intro v reqs
    exact (loopFrom_chain sort reqs v).1
  · intro q a
    exact ⟨hsort.sorted _, hsort.perm _⟩
  · intro q x rest hq hd
    cases q with
    | nil => simp [sleeperQueue.DeleteMin] at hd
    | cons y ys =>
      simp only [sleeperQueue.DeleteMin, Prod.mk.injEq, Option.some.injEq] at hd
      obtain ⟨rfl, rfl⟩ := hd
      have h := List.sorted_cons.1 hq
      refine ⟨rfl, ?_, h.2⟩
      intro z hz
      rcases List.mem_cons.1 hz with rfl | hz
      · exact le_refl _
      · exact h.1 z hz
  · intro reqs
    exact loopFrom_sorted sort hsort reqs _ List.sorted_nil

/-- C19 (witness): the amended statement with insertion sort for `sort.Sort`. -/
theorem synthetic_sleep_wake_witness :
    SortsByWake sortByWake ∧
    (∀ (v : LoopVars) (reqs : List (Option Request)),
      List.Chain (· ≤ ·) v.now
        (wakeTimes (SyntheticRuntime.loopFrom sortByWake v reqs).val.2.2)) ∧
    (∀ (q : sleeperQueue) (a : scheduledToSleep),
      (q.Add sortByWake a).Sorted wakeLE ∧ (q.Add sortByWake a).Perm (q ++ [a])) :=
  ⟨sortByWake_sorts, (synthetic_sleep_wake sortByWake sortByWake_sorts).2.2.1,
    (synthetic_sleep_wake sortByWake sortByWake_sorts).2.2.2.1⟩

/-! ### muxmsg.go -/


theorem pairCodec_roundTrips : pairCodec.RoundTrips := by
  constructor
  · intro l p hp
    have h : ¬ p.length < 2 := by simpa [pairCodec] using hp
    have h2 : 2 ≤ p.length := by omega
    simp [pairCodec, h]
    omega
  · intro l p rest hp
    have h : ¬ p.length < 2 := by simpa [pairCodec] using hp
    simp [pairCodec, h]

/-- C20: with a label codec that round-trips, for every muxMsg m and every
buffer p of at least muxMsgFootprint bytes, m.Write(p) returns 2 * labelFootprint
and no error, writing in place, and readMuxMsg of the buffer returns a message
with the Source and Sink of m, the same count and no error; and with any codec,
when reading either label fails, readMuxMsg returns (nil, 0, err). -/
theorem muxMsg_roundtrip {Label : Type} (C : LabelCodec Label) (hC : C.RoundTrips)
    (m : muxMsg Label) (p : List Nat) (hp : muxMsgFootprint C ≤ p.length) :
    (∃ buf, m.Write C p = .ok (buf, 2 * C.labelFootprint, none) ∧ buf.length = p.length ∧
      readMuxMsg C buf = .ok (some m, 2 * C.labelFootprint, none)) ∧
    (∀ (q : List Nat) (err : String), C.ReadLabel q = .error err →
      readMuxMsg C q = .ok (none, 0, some err)) ∧
    (∀ (q : List Nat) (source : Label) (n0 : Nat) (err : String),
      C.ReadLabel q = .ok (source, n0) → n0 ≤ q.length →
      C.ReadLabel (q.drop n0) = .error err → readMuxMsg C q = .ok (none, 0, some err)) := by
  have hfp : C.labelFootprint ≤ p.length := by unfold muxMsgFootprint at hp; omega
  obtain ⟨e0, n0, l0⟩ := hC.write_ok m.Source p hfp
  have hfp1 : C.labelFootprint ≤ ((C.Write m.Source p).buf.drop C.labelFootprint).length := by
    rw [List.length_drop, l0]; unfold muxMsgFootprint at hp; omega
  obtain ⟨e1, n1, l1⟩ := hC.write_ok m.Sink _ hfp1
  refine ⟨⟨(C.Write m.Source p).buf.take C.labelFootprint ++
      (C.Write m.Sink ((C.Write m.Source p).buf.drop C.labelFootprint)).buf, ?_, ?_, ?_⟩, ?_, ?_⟩
  · have hn : ¬ C.labelFootprint > p.length := by omega
    simp only [muxMsg.Write, e0, n0, hn, if_false, e1, n1]
    rw [two_mul]
  · rw [List.length_append, List.length_take, l1, List.length_drop, l0]
    omega
  · have hlen : ((C.Write m.Source p).buf.take C.labelFootprint).length = C.labelFootprint := by
      rw [List.length_take, l0]; omega
    have r0 := hC.read_written m.Source p
      (C.Write m.Sink ((C.Write m.Source p).buf.drop C.labelFootprint)).buf hfp
    have hsplit : (C.Write m.Sink ((C.Write m.Source p).buf.drop C.labelFootprint)).buf =
        (C.Write m.Sink ((C.Write m.Source p).buf.drop C.labelFootprint)).buf.take
          C.labelFootprint ++
        (C.Write m.Sink ((C.Write m.Source p).buf.drop C.labelFootprint)).buf.drop
          C.labelFootprint := (List.take_append_drop _ _).symm
    have r1 := hC.read_written m.Sink ((C.Write m.Source p).buf.drop C.labelFootprint)
      ((C.Write m.Sink ((C.Write m.Source p).buf.drop C.labelFootprint)).buf.drop
        C.labelFootprint) hfp1
    rw [← hsplit] at r1
    have hdrop : ((C.Write m.Source p).buf.take C.labelFootprint ++
        (C.Write m.Sink ((C.Write m.Source p).buf.drop C.labelFootprint)).buf).drop
          C.labelFootprint =
        (C.Write m.Sink ((C.Write m.Source p).buf.drop C.labelFootprint)).buf := by
      rw [List.drop_append_of_le_length (by omega), List.drop_of_length_le (by omega)]
      rfl
    have hn : ¬ C.labelFootprint > ((C.Write m.Source p).buf.take C.labelFootprint ++
        (C.Write m.Sink ((C.Write m.Source p).buf.drop C.labelFootprint)).buf).length := by
      rw [List.length_append, hlen]; omega
    simp only [readMuxMsg, r0, hn, if_false, hdrop, r1]
    rw [two_mul]
  · intro q err h
    simp [readMuxMsg, h]
  · intro q source n0 err h hle h2
    have hn : ¬ n0 > q.length := by omega
    simp [readMuxMsg, h, hn, h2]

/-- C20 (witness): a message written into a buffer of six bytes with the
two-byte codec and read back. -/
theorem muxMsg_roundtrip_witness :
    pairCodec.RoundTrips ∧ muxMsgFootprint pairCodec ≤ [0, 0, 0, 0, 9, 9].length ∧
    ∃ buf, ({ Source := (1, 2), Sink := (3, 4) } : muxMsg (Nat × Nat)).Write pairCodec
        [0, 0, 0, 0, 9, 9] = .ok (buf, 2 * pairCodec.labelFootprint, none) ∧
      buf.length = [0, 0, 0, 0, 9, 9].length ∧
      readMuxMsg pairCodec buf =
        .ok (some { Source := (1, 2), Sink := (3, 4) }, 2 * pairCodec.labelFootprint, none) :=
  ⟨pairCodec_roundTrips, by decide,
    (muxMsg_roundtrip pairCodec pairCodec_roundTrips { Source := (1, 2), Sink := (3, 4) }
      [0, 0, 0, 0, 9, 9] (by decide)).1⟩

/-! ### goto.go: transitions -/

section
variable {σ ρ υ τ : Type}

theorem doInject_eq (c : Conn σ ρ υ) (h : Option writeHeader) :
    ∃ w, c.doInject h =
      { c with writeNonData := w, trace := c.trace ++ Act.inject h :: injectEvents c h } := by
  cases hc : c.writeNonData with
  | none => exact ⟨none, by simp [Conn.doInject, inject, Conn.log, injectEvents, hc]⟩
  | some ch =>
    by_cases hlt : ch.buf.length < ch.cap
    · exact ⟨some { ch with buf := ch.buf ++ [h] }, by
        simp [Conn.doInject, inject, Conn.log, injectEvents, hc, hlt, Chan.send]⟩
    · exact ⟨some ch, by simp [Conn.doInject, inject, Conn.log, injectEvents, hc, hlt]⟩

@[simp] theorem doInject_trace (c : Conn σ ρ υ) (h : Option writeHeader) :
    (c.doInject h).trace = c.trace ++ Act.inject h :: injectEvents c h := by
  obtain ⟨w, hw⟩ := doInject_eq c h
  rw [hw]

@[simp] theorem doInject_locked (c : Conn σ ρ υ) (h : Option writeHeader) :
    (c.doInject h).locked = c.locked := by
  obtain ⟨w, hw⟩ := doInject_eq c h
  rw [hw]

@[simp] theorem doInject_ccidOpen (c : Conn σ ρ υ) (h : Option writeHeader) :
    (c.doInject h).ccidOpen = c.ccidOpen := by
  obtain ⟨w, hw⟩ := doInject_eq c h
  rw [hw]

@[simp] theorem doInject_socket (c : Conn σ ρ υ) (h : Option writeHeader) :
    (c.doInject h).socket = c.socket := by
  obtain ⟨w, hw⟩ := doInject_eq c h
  rw [hw]

theorem ccCalls_append (a b : List Act) : ccCalls (a ++ b) = ccCalls a ++ ccCalls b := by
  simp [ccCalls, List.filterMap_append]

theorem ccCalls_nil : ccCalls [] = [] := rfl

theorem ccCalls_cons (a : Act) (l : List Act) :
    ccCalls (a :: l) = (match a.ccCall with
      | some k => k :: ccCalls l
      | none => ccCalls l) := by
  simp only [ccCalls, List.filterMap_cons]
  cases a.ccCall <;> rfl

@[simp] theorem ccCalls_injectEvents (c : Conn σ ρ υ) (h : Option writeHeader) :
    ccCalls (injectEvents c h) = [] := by
  unfold injectEvents
  split
  · rfl
  · split <;> rfl

/-- The lifecycle calls that a transition adds when the flag `ccidOpen` is `o`. -/
theorem Goto_apply_summary (S : SenderCC σ) (R : ReceiverCC ρ) (H : Helpers υ)
    (D : GotoDeps σ ρ υ) (g : Goto) (c : Conn σ ρ υ) (hl : c.locked = true) :
    (g.apply S R H D c).panicked = false ∧ (g.apply S R H D c).val.locked = true ∧
    (g.apply S R H D c).val.ccidOpen = (g.opens).getD c.ccidOpen ∧
    ccCalls (added c.trace (g.apply S R H D c).val.trace) =
      (match g.opens with
        | some true => if c.ccidOpen then [] else [.sccOpen, .rccOpen]
        | some false => if c.ccidOpen then [.sccClose, .rccClose] else []
        | none => []) := by
  cases g <;> cases ho : c.ccidOpen <;>
    simp [Goto.apply, Goto.opens, gotoLISTEN, gotoRESPOND, gotoREQUEST, gotoPARTOPEN, gotoOPEN,
      gotoTIMEWAIT, gotoCLOSING, gotoCLOSED, AssertLocked, openCCID, closeCCID, hl, ho,
      Conn.SetStateEmit, Conn.setSocket, Conn.log, Conn.errorAndTeardownUser, Result.panicked,
      Result.val, added, ccCalls_append, ccCalls_cons, ccCalls_nil, Act.ccCall]

theorem Goto_apply_trace (S : SenderCC σ) (R : ReceiverCC ρ) (H : Helpers υ)
    (D : GotoDeps σ ρ υ) (g : Goto) (c : Conn σ ρ υ) (hl : c.locked = true) :
    ∃ ext, (g.apply S R H D c).val.trace = c.trace ++ ext := by
  cases g <;> cases ho : c.ccidOpen <;>
    simp [Goto.apply, gotoLISTEN, gotoRESPOND, gotoREQUEST, gotoPARTOPEN, gotoOPEN,
      gotoTIMEWAIT, gotoCLOSING, gotoCLOSED, AssertLocked, openCCID, closeCCID, hl, ho,
      Conn.SetStateEmit, Conn.setSocket, Conn.log, Conn.errorAndTeardownUser, Result.val]

theorem alternates_append (op cl : CCCall) (a b : List CCCall) : ∀ o : Bool,
    alternates op cl o (a ++ b) = (alternates op cl o a).bind (fun o1 => alternates op cl o1 b) := by
  induction a with
  | nil => intro o; simp [alternates]
  | cons k ks ih =>
    intro o
    by_cases h1 : k = op
    · cases o <;> simp [alternates, h1, ih]
    · by_cases h2 : k = cl
      · have h3 : ¬ cl = op := fun h => h1 (h2.trans h)
        cases o <;> simp [alternates, h2, h3, ih]
      · simp [alternates, h1, h2, ih]

theorem alternates_step (g : Goto) (o : Bool) :
    alternates .sccOpen .sccClose o
        (match g.opens with
          | some true => if o then [] else [.sccOpen, .rccOpen]
          | some false => if o then [.sccClose, .rccClose] else []
          | none => []) = some ((g.opens).getD o) ∧
    alternates .rccOpen .rccClose o
        (match g.opens with
          | some true => if o then [] else [.sccOpen, .rccOpen]
          | some false => if o then [.sccClose, .rccClose] else []
          | none => []) = some ((g.opens).getD o) := by
  cases g <;> cases o <;> simp [Goto.opens, alternates]

theorem gotoAll_summary (S : SenderCC σ) (R : ReceiverCC ρ) (H : Helpers υ)
    (D : GotoDeps σ ρ υ) (gs : List Goto) : ∀ c : Conn σ ρ υ, c.locked = true →
    (gotoAll S R H D gs c).panicked = false ∧ (gotoAll S R H D gs c).val.locked = true ∧
    (∃ ext, (gotoAll S R H D gs c).val.trace = c.trace ++ ext ∧
      alternates .sccOpen .sccClose c.ccidOpen (ccCalls ext) =
        some (gotoAll S R H D gs c).val.ccidOpen ∧
      alternates .rccOpen .rccClose c.ccidOpen (ccCalls ext) =
        some (gotoAll S R H D gs c).val.ccidOpen) ∧
    (∀ g o, gs.getLast? = some g → g.opens = some o →
      (gotoAll S R H D gs c).val.ccidOpen = o) := by
  induction gs with
  | nil =>
    intro c hl
    exact ⟨rfl, hl, ⟨[], by simp [gotoAll, Result.val], by simp [gotoAll, Result.val, ccCalls_nil,
      alternates], by simp [gotoAll, Result.val, ccCalls_nil, alternates]⟩, by simp⟩
  | cons g gs ih =>
    intro c hl
    obtain ⟨hp, hlk, hco, hcc⟩ := Goto_apply_summary S R H D g c hl
    obtain ⟨e1, he1⟩ := Goto_apply_trace S R H D g c hl
    rw [he1, added_append] at hcc
    have hst := alternates_step g c.ccidOpen
    cases hr : g.apply S R H D c with
    | panic msg a => rw [hr] at hp; simp [Result.panicked] at hp
    | ok c1 =>
      rw [hr] at hlk hco he1
      simp only [Result.val] at hlk hco he1
      obtain ⟨ip, il, ⟨e2, he2, is, ir⟩, ilast⟩ := ih c1 hlk
      refine ⟨?_, ?_, ⟨e1 ++ e2, ?_, ?_, ?_⟩, ?_⟩
      · simpa [gotoAll, hr] using ip
      · simpa [gotoAll, hr] using il
      · simp [gotoAll, hr, he2, he1]
      · simp only [gotoAll, hr, ccCalls_append, alternates_append, hcc, hst.1, Option.some_bind]
        rw [← hco]; exact is
      · simp only [gotoAll, hr, ccCalls_append, alternates_append, hcc, hst.2, Option.some_bind]
        rw [← hco]; exact ir
      · intro g1 o hg ho
        cases gs with
        | nil =>
          simp only [List.getLast?_singleton, Option.some.injEq] at hg
          subst hg
          simp [gotoAll, hr, Result.val, hco, ho]
        | cons g2 gs2 =>
          rw [List.getLast?_cons_cons] at hg
          simpa [gotoAll, hr] using ilast g1 o hg ho

/-- C12: for every sequence of transitions applied, with the lock held, to a
connection whose congestion control is not open, no transition panics, the Open
and Close calls on the sender module alternate starting with Open, so do those
on the receiver module, the flag ccidOpen tells at the end whether each module
is open, and right after gotoPARTOPEN or gotoOPEN the modules are open, right
after gotoCLOSING, gotoTIMEWAIT or gotoCLOSED they are closed. -/
theorem ccid_lifecycle (S : SenderCC σ) (R : ReceiverCC ρ) (H : Helpers υ)
    (D : GotoDeps σ ρ υ) (c : Conn σ ρ υ) (hl : c.locked = true) (hf : c.ccidOpen = false)
    (gs : List Goto) :
    (gotoAll S R H D gs c).panicked = false ∧
    alternates .sccOpen .sccClose false
        (ccCalls (added c.trace (gotoAll S R H D gs c).val.trace)) =
      some (gotoAll S R H D gs c).val.ccidOpen ∧
    alternates .rccOpen .rccClose false
        (ccCalls (added c.trace (gotoAll S R H D gs c).val.trace)) =
      some (gotoAll S R H D gs c).val.ccidOpen ∧
    (∀ g, gs.getLast? = some g → (g = .PARTOPEN ∨ ∃ n, g = .OPEN n) →
      (gotoAll S R H D gs c).val.ccidOpen = true) ∧
    (∀ g, gs.getLast? = some g → (g = .CLOSING ∨ g = .TIMEWAIT ∨ g = .CLOSED) →
      (gotoAll S R H D gs c).val.ccidOpen = false) := by
  obtain ⟨hp, _, ⟨ext, he, hs, hr⟩, hlast⟩ := gotoAll_summary S R H D gs c hl
  rw [hf] at hs hr
  refine ⟨hp, ?_, ?_, ?_, ?_⟩
  · rw [he, added_append]; exact hs
  · rw [he, added_append]; exact hr
  · intro g hg ho
    apply hlast g true hg
    rcases ho with rfl | ⟨n, rfl⟩ <;> rfl
  · intro g hg ho
    apply hlast g false hg
    rcases ho with rfl | rfl | rfl <;> rfl

/-- C12 (witness): the life of a client connection, then OPEN, PARTOPEN and
CLOSED again: Open and Close alternate on both modules and the modules end
closed. -/
theorem ccid_lifecycle_witness :
    freshLockedConn.locked = true ∧ freshLockedConn.ccidOpen = false ∧
    (gotoAll (sccWith []) (rccWith []) plainHelpers plainDeps clientLife
      freshLockedConn).panicked = false ∧
    alternates .sccOpen .sccClose false
        (ccCalls (added freshLockedConn.trace (gotoAll (sccWith []) (rccWith []) plainHelpers
          plainDeps clientLife freshLockedConn).val.trace)) =
      some (gotoAll (sccWith []) (rccWith []) plainHelpers plainDeps clientLife
        freshLockedConn).val.ccidOpen ∧
    ccCalls (gotoAll (sccWith []) (rccWith []) plainHelpers plainDeps clientLife
        freshLockedConn).val.trace =
      [.sccOpen, .rccOpen, .sccClose, .rccClose, .sccOpen, .rccOpen, .sccClose, .rccClose] :=
  ⟨rfl, rfl,
    (ccid_lifecycle (sccWith []) (rccWith []) plainHelpers plainDeps freshLockedConn rfl rfl
      clientLife).1,
    (ccid_lifecycle (sccWith []) (rccWith []) plainHelpers plainDeps freshLockedConn rfl rfl
      clientLife).2.1, by decide⟩

/-! ### goto.go: back-off tasks -/

@[simp] theorem ret_locked (c c1 : Conn σ ρ υ) (a : Act) :
    (c.ret a c1).locked = c.locked := rfl

theorem gotoTIMEWAIT_ok (S : SenderCC σ) (R : ReceiverCC ρ) (H : Helpers υ)
    (c : Conn σ ρ υ) (hl : c.locked = true) :
    ∃ c2, gotoTIMEWAIT S R H c = .ok c2 ∧ c2.socket.State = .TIMEWAIT ∧
      c2.ccidOpen = false ∧
      (∀ a ∈ added c.trace c2.trace, a ≠ Act.abort ∧ ∀ h, a ≠ Act.inject h) := by
  cases ho : c.ccidOpen <;>
    simp [gotoTIMEWAIT, AssertLocked, closeCCID, hl, ho, Conn.SetStateEmit, Conn.setSocket,
      Conn.log, Conn.errorAndTeardownUser, added]

/-- C11: in each pass of the back-off tasks of gotoREQUEST, gotoPARTOPEN and
gotoCLOSING, when the state read under the lock is not the state S of the task,
the task leaves its loop having only taken the lock, read the state and
released the lock (the PARTOPEN task also logs its exit): no abort, no
gotoTIMEWAIT, no inject, whether or not the back-off has expired; when the state
is S and the back-off has expired, the REQUEST and PARTOPEN tasks call abort and
the CLOSING task calls gotoTIMEWAIT under the lock, and the task ends; when the
state is S and the back-off has not expired, the task injects a Request, an Ack
or a Close under the lock and goes on. -/
theorem backoff_task_pass (E : Env τ) (S : SenderCC σ) (R : ReceiverCC ρ) (H : Helpers υ)
    (D : GotoDeps σ ρ υ) (serviceCode : Nat) (others : Conn σ ρ υ → Conn σ ρ υ) (b : backOff)
    (rt : τ) (c : Conn σ ρ υ) :
    -- the task of gotoREQUEST
    (((others c).socket.State ≠ .REQUEST →
        (requestTaskPass E D serviceCode others b rt c).again = false ∧
        (requestTaskPass E D serviceCode others b rt c).c.trace =
          c.trace ++ [Act.lock, Act.getState (others c).socket.State, Act.unlock]) ∧
      ((others c).socket.State = .REQUEST → (b.Sleep E rt).eof = true →
        (requestTaskPass E D serviceCode others b rt c).again = false ∧
        (requestTaskPass E D serviceCode others b rt c).c.trace =
          c.trace ++ [Act.lock, Act.getState .REQUEST, Act.unlock, Act.abort]) ∧
      ((others c).socket.State = .REQUEST → (b.Sleep E rt).eof = false →
        (requestTaskPass E D serviceCode others b rt c).again = true ∧
        ∃ c1, (requestTaskPass E D serviceCode others b rt c).c.trace =
          c.trace ++ [Act.lock, Act.getState .REQUEST, Act.unlock, Act.lock,
            Act.emit .EventTurn "Request resend" .none,
            Act.inject (D.generateRequest c1 serviceCode)] ++
            injectEvents c1 (D.generateRequest c1 serviceCode) ++ [Act.unlock])) ∧
    -- the task of gotoPARTOPEN
    (((others c).socket.State ≠ .PARTOPEN →
        (partopenTaskPass E D others b rt c).again = false ∧
        (partopenTaskPass E D others b rt c).c.trace =
          c.trace ++ [Act.lock, Act.getState (others c).socket.State, Act.unlock,
            Act.emit .EventInfo "PARTOPEN backoff EXIT via state change" .none]) ∧
      ((others c).socket.State = .PARTOPEN → (b.Sleep E rt).eof = true →
        (partopenTaskPass E D others b rt c).again = false ∧
        (partopenTaskPass E D others b rt c).c.trace =
          c.trace ++ [Act.lock, Act.getState .PARTOPEN, Act.unlock, Act.abort]) ∧
      ((others c).socket.State = .PARTOPEN → (b.Sleep E rt).eof = false →
        (partopenTaskPass E D others b rt c).again = true ∧
        ∃ c1, (partopenTaskPass E D others b rt c).c.trace =
          c.trace ++ [Act.lock, Act.getState .PARTOPEN, Act.unlock,
            Act.emit .EventInfo ("PARTOPEN backoff " ++ toString (b.Sleep E rt).time) .none,
            Act.lock, Act.inject (D.generateAck c1)] ++
            injectEvents c1 (D.generateAck c1) ++ [Act.unlock])) ∧
    -- the task of gotoCLOSING
    (((others c).socket.State ≠ .CLOSING →
        (closingTaskPass E S R H D others b rt c).panicked = false ∧
        (closingTaskPass E S R H D others b rt c).val.again = false ∧
        (closingTaskPass E S R H D others b rt c).val.c.trace =
          c.trace ++ [Act.lock, Act.getState (others c).socket.State, Act.unlock]) ∧
      ((others c).socket.State = .CLOSING → (b.Sleep E rt).eof = true →
        (closingTaskPass E S R H D others b rt c).panicked = false ∧
        (closingTaskPass E S R H D others b rt c).val.again = false ∧
        ∃ c1 c2, c1.trace = c.trace ++ [Act.lock, Act.getState .CLOSING, Act.unlock, Act.lock] ∧
          c1.locked = true ∧ gotoTIMEWAIT S R H c1 = .ok c2 ∧
          (closingTaskPass E S R H D others b rt c).val.c = c2.Unlock ∧
          (∀ a ∈ added c1.trace c2.trace, a ≠ Act.abort ∧ ∀ h, a ≠ Act.inject h)) ∧
      ((others c).socket.State = .CLOSING → (b.Sleep E rt).eof = false →
        (closingTaskPass E S R H D others b rt c).panicked = false ∧
        (closingTaskPass E S R H D others b rt c).val.again = true ∧
        ∃ c1, (closingTaskPass E S R H D others b rt c).val.c.trace =
          c.trace ++ [Act.lock, Act.getState .CLOSING, Act.unlock,
            Act.emit .EventInfo "Resend Close" .none,
            Act.lock, Act.inject (D.generateClose c1)] ++
            injectEvents c1 (D.generateClose c1) ++ [Act.unlock])) := by
  have hst : ∀ x : Conn σ ρ υ, (x.Lock others).socket.State = (others x).socket.State :=
    fun _ => rfl
  refine ⟨⟨?_, ?_, ?_⟩, ⟨?_, ?_, ?_⟩, ⟨?_, ?_, ?_⟩⟩
  · intro h
    simp [requestTaskPass, hst, h]
  · intro h he
    simp [requestTaskPass, hst, h, he]
  · intro h he
    refine ⟨by simp [requestTaskPass, hst, h, he], ?_⟩
    exact ⟨_, by simp [requestTaskPass, hst, h, he]; exact ⟨rfl, rfl⟩⟩
  · intro h
    simp [partopenTaskPass, hst, h]
  · intro h he
    simp [partopenTaskPass, hst, h, he]
  · intro h he
    refine ⟨by simp [partopenTaskPass, hst, h, he], ?_⟩
    exact ⟨_, by simp [partopenTaskPass, hst, h, he]; exact ⟨rfl, rfl⟩⟩
  · intro h
    simp [closingTaskPass, hst, h, Result.panicked, Result.val]
  · intro h he
    obtain ⟨c2, h2, _, _, h5⟩ := gotoTIMEWAIT_ok S R H
      (((((c.Lock others).log [Act.getState .CLOSING]).Unlock).Lock others)) rfl
    refine ⟨by simp [closingTaskPass, hst, h, he, h2, Result.panicked],
      by simp [closingTaskPass, hst, h, he, h2, Result.val], _, c2, ?_, rfl, h2, ?_, h5⟩
    · simp
    · simp [closingTaskPass, hst, h, he, h2, Result.val]
  · intro h he
    refine ⟨by simp [closingTaskPass, hst, h, he, Result.panicked],
      by simp [closingTaskPass, hst, h, he, Result.val], ?_⟩
    exact ⟨_, by simp [closingTaskPass, hst, h, he, Result.val]; exact ⟨rfl, rfl⟩⟩

end

/-- A pass of the REQUEST back-off task on a connection that has moved on to
PARTOPEN, with the back-off expired: the task ends and only the lock and the
state read are logged. -/
theorem requestTask_superseded_example :
    (expiredRequestBackOff.Sleep clockEnv 0).eof = true ∧
    (requestTaskPass clockEnv plainDeps 7 id expiredRequestBackOff 0
      (blankConn .PARTOPEN none)).again = false ∧
    (requestTaskPass clockEnv plainDeps 7 id expiredRequestBackOff 0
      (blankConn .PARTOPEN none)).c.trace =
      [Act.lock, Act.getState .PARTOPEN, Act.unlock] := by
  refine ⟨by decide, by decide, by decide⟩

/-! ### options.go: option types -/

/-- C23: isOptionValidForType returns true for every option type when the
packet type is not Data, and for the packet type Data it returns true exactly
for the option types 0 (Padding), 2 (SlowReceiver), 37 (NDPCount), 41
(Timestamp), 42 (TimestampEcho) and 44 (DataChecksum). -/
theorem isOptionValidForType_iff :
    (∀ optionType Type_ : Nat, Type_ ≠ Data → isOptionValidForType optionType Type_ = true) ∧
    (∀ optionType : Nat, isOptionValidForType optionType Data = true ↔
      optionType = 0 ∨ optionType = 2 ∨ optionType = 37 ∨ optionType = 41 ∨
        optionType = 42 ∨ optionType = 44) ∧
    OptionPadding = 0 ∧ OptionSlowReceiver = 2 ∧ OptionNDPCount = 37 ∧
    OptionTimestamp = 41 ∧ OptionTimestampEcho = 42 ∧ OptionDataChecksum = 44 := by
  refine ⟨?_, ?_, rfl, rfl, rfl, rfl, rfl, rfl⟩
  · intro optionType Type_ h
    simp [isOptionValidForType, h]
  · intro optionType
    simp [isOptionValidForType, OptionPadding, OptionSlowReceiver, OptionNDPCount,
      OptionTimestamp, OptionTimestampEcho, OptionDataChecksum]

theorem isOptionReserved_iff (t : Nat) :
    isOptionReserved t = true ↔ (3 ≤ t ∧ t ≤ 31) ∨ (45 ≤ t ∧ t ≤ 127) := by
  simp [isOptionReserved]

theorem not_reserved_of_s2r (t : Nat) (h : isOptionCCIDSenderToReceiver t = true) :
    isOptionReserved t = false := by
  have h1 := (isOptionCCIDSenderToReceiver_iff t).1 h
  cases hr : isOptionReserved t with
  | false => rfl
  | true => have h2 := (isOptionReserved_iff t).1 hr; omega

theorem not_reserved_of_r2s (t : Nat) (h : isOptionCCIDReceiverToSender t = true) :
    isOptionReserved t = false := by
  have h1 := (isOptionCCIDReceiverToSender_iff t).1 h
  cases hr : isOptionReserved t with
  | false => rfl
  | true => have h2 := (isOptionReserved_iff t).1 hr; omega

section
variable {σ ρ υ : Type}

theorem WriteCC_ok_options (S : SenderCC σ) (R : ReceiverCC ρ) (c : Conn σ ρ υ) (h : Header)
    (tw : Int) (hp : (WriteCC S R c h tw).panicked = false) :
    validateCCIDSenderToReceiver (S.OnWrite c.scc (mkPreHeader h tw)).2.2 = true ∧
    validateCCIDReceiverToSender (R.OnWrite c.rcc (mkPreHeader h tw)).2 = true ∧
    (WriteCC S R c h tw).val.2.Options =
      h.Options ++ ((S.OnWrite c.scc (mkPreHeader h tw)).2.2 ++
        (R.OnWrite c.rcc (mkPreHeader h tw)).2) := by
  have hph : ∀ v : Int, mkPreHeader { h with CCVal := v } tw = mkPreHeader h tw :=
    fun _ => rfl
  cases hs : validateCCIDSenderToReceiver (S.OnWrite c.scc (mkPreHeader h tw)).2.2 with
  | false => simp [WriteCC, Conn.log, hs, Result.panicked] at hp
  | true =>
    cases hr : validateCCIDReceiverToSender (R.OnWrite c.rcc (mkPreHeader h tw)).2 with
    | false => simp [WriteCC, Conn.log, hs, hr, hph, Result.panicked] at hp
    | true => simp [WriteCC, Conn.log, hs, hr, hph, Result.val]

/-- C24: isOptionReserved holds exactly for the types 3..31 and 45..127; no
reserved type is sender-to-receiver or receiver-to-sender valid; when
Conn.WriteCC returns normally the options it appended to the header are those of
the two congestion controls and none of them has a reserved type; and a type is
valid in both directions exactly when it is in 38..43. -/
theorem reserved_options_not_sent (S : SenderCC σ) (R : ReceiverCC ρ) :
    (∀ t : Nat, isOptionReserved t = true ↔ (3 ≤ t ∧ t ≤ 31) ∨ (45 ≤ t ∧ t ≤ 127)) ∧
    (∀ t : Nat, isOptionReserved t = true →
      isOptionCCIDSenderToReceiver t = false ∧ isOptionCCIDReceiverToSender t = false) ∧
    (∀ (c : Conn σ ρ υ) (h : Header) (tw : Int), (WriteCC S R c h tw).panicked = false →
      ∃ appended, (WriteCC S R c h tw).val.2.Options = h.Options ++ appended ∧
        appended = (S.OnWrite c.scc (mkPreHeader h tw)).2.2 ++
          (R.OnWrite c.rcc (mkPreHeader h tw)).2 ∧
        ∀ o ∈ appended, isOptionReserved o.Type_ = false) ∧
    (∀ t : Nat, (isOptionCCIDSenderToReceiver t = true ∧ isOptionCCIDReceiverToSender t = true) ↔
      (38 ≤ t ∧ t ≤ 43)) := by
  refine ⟨isOptionReserved_iff, ?_, ?_, ?_⟩
  · intro t ht
    constructor
    · cases hs : isOptionCCIDSenderToReceiver t with
      | false => rfl
      | true => rw [not_reserved_of_s2r t hs] at ht; cases ht
    · cases hs : isOptionCCIDReceiverToSender t with
      | false => rfl
      | true => rw [not_reserved_of_r2s t hs] at ht; cases ht
  · intro c h tw hp
    obtain ⟨hs, hr, ho⟩ := WriteCC_ok_options S R c h tw hp
    refine ⟨_, ho, rfl, ?_⟩
    intro o hmem
    rcases List.mem_append.1 hmem with hm | hm
    · rw [validateCCIDSenderToReceiver_eq_all, List.all_eq_true] at hs
      exact not_reserved_of_s2r _ (hs o hm)
    · rw [validateCCIDReceiverToSender_eq_all, List.all_eq_true] at hr
      exact not_reserved_of_r2s _ (hr o hm)
  · intro t
    rw [isOptionCCIDSenderToReceiver_iff, isOptionCCIDReceiverToSender_iff]
    omega

end

/-! ### backoff.go: termination -/

theorem backOff_Sleep_any_env {τ : Type} (E : Env τ) (b : backOff) (rt : τ) :
    (b.Sleep E rt).eof = (b.Sleep clockEnv 0).eof ∧
    (b.Sleep E rt).b = (b.Sleep clockEnv 0).b := by
  unfold backOff.Sleep
  by_cases h : b.lifetime ≥ b.timeout
  · simp only [if_pos h, and_self]
  · simp only [if_neg h, and_self]

theorem wrappingTimer_step : ∀ k : Fin 16,
    ((wrappingTimer k).Sleep clockEnv 0).eof = false ∧
    ((wrappingTimer k).Sleep clockEnv 0).b = wrappingTimer ((k + 1 : Fin 16) : Nat) := by
  decide

theorem wrappingTimer_never_eof {τ : Type} (E : Env τ) (fuel : Nat) : ∀ (k : Fin 16) (rt : τ),
    sleepUntilEOF E fuel (wrappingTimer k) rt = none := by
  induction fuel with
  | zero => intro k rt; rfl
  | succ n ih =>
    intro k rt
    obtain ⟨h1, h2⟩ := wrappingTimer_step k
    obtain ⟨e1, e2⟩ := backOff_Sleep_any_env E (wrappingTimer k) rt
    rw [← e1] at h1
    rw [← e2] at h2
    simp only [sleepUntilEOF, h1, h2, ih]
    simp

theorem Sleep_eof_iff {τ : Type} (E : Env τ) (b : backOff) (rt : τ) :
    (b.Sleep E rt).eof = true ↔ b.timeout ≤ b.lifetime := by
  unfold backOff.Sleep
  by_cases h : b.lifetime ≥ b.timeout
  · simp [if_pos h]; exact h
  · simp only [if_neg h]; simp; omega

theorem tdiv_wrap64_lt (x : Int) : Int.tdiv (wrap64 x) 3 < 2 ^ 62 := by
  have h : wrap64 x < 2 ^ 63 := by
    unfold wrap64
    have := Int.emod_lt_of_pos (x + 2 ^ 63) (show (0 : Int) < 2 ^ 64 by norm_num)
    omega
  by_cases hn : 0 ≤ wrap64 x
  · rw [Int.tdiv_eq_ediv hn (by norm_num)]
    norm_num at h ⊢
    omega
  · have h1 : Int.tdiv (wrap64 x) 3 = -(Int.tdiv (-(wrap64 x)) 3) := by
      rw [Int.neg_tdiv, neg_neg]
    have h2 : (0 : Int) ≤ -(wrap64 x) := by omega
    rw [h1, Int.tdiv_eq_ediv h2 (by norm_num)]
    norm_num
    omega

theorem Sleep_step {τ : Type} (E : Env τ) (b : backOff) (rt : τ) (hb : b.Bounded)
    (hlt : b.lifetime < b.timeout) :
    (b.Sleep E rt).eof = false ∧
    (b.Sleep E rt).b.lifetime = b.lifetime + max BackoffMin b.sleep ∧
    (b.Sleep E rt).b.timeout = b.timeout ∧
    (b.Sleep E rt).b.Bounded ∧
    (b.Sleep E rt).calls = [.Sleep (max BackoffMin b.sleep), .Now] := by
  obtain ⟨h0, hT, hs⟩ := hb
  have hmax := hs hlt
  have hmin : BackoffMin ≤ max BackoffMin b.sleep := le_max_left _ _
  have hsl : b.sleep ≤ max BackoffMin b.sleep := le_max_right _ _
  have hB : BackoffMin = 100000000 := rfl
  have hw : wrap64 (b.lifetime + max BackoffMin b.sleep) = b.lifetime + max BackoffMin b.sleep := by
    apply wrap64_of_inInt64
    unfold inInt64
    norm_num at hT hmax ⊢
    constructor <;> omega
  have hnot : ¬ b.lifetime ≥ b.timeout := by omega
  have hnext : ∀ s : Int, s < 2 ^ 62 →
      b.lifetime + max BackoffMin b.sleep < b.timeout →
      b.lifetime + max BackoffMin b.sleep + max BackoffMin s < 2 ^ 63 := by
    intro s hs2 hl
    have : max BackoffMin s < 2 ^ 62 := by
      rcases max_cases BackoffMin s with ⟨h, _⟩ | ⟨h, _⟩
      · rw [h, hB]; norm_num
      · rw [h]; exact hs2
    norm_num at hT this ⊢
    omega
  have hsl2 : b.lifetime + max BackoffMin b.sleep < b.timeout → b.sleep < 2 ^ 62 := by
    intro hl
    norm_num at hT ⊢
    omega
  unfold backOff.Sleep
  simp only [if_neg hnot, max64_eq, hw]
  refine ⟨trivial, ?_, ?_, ?_, trivial⟩
  · split <;> rfl
  · split <;> rfl
  · unfold backOff.Bounded
    split
    · exact ⟨by simp only; omega, hT, fun hl => hnext _ (tdiv_wrap64_lt _) hl⟩
    · exact ⟨by simp only; omega, hT, fun hl => hnext _ (hsl2 hl) hl⟩

theorem sleepUntilEOF_reaches_eof {τ : Type} (E : Env τ) : ∀ (n : Nat) (b : backOff) (rt : τ),
    b.Bounded → b.timeout - b.lifetime ≤ n * BackoffMin →
    ∃ ds b1, sleepUntilEOF E (n + 1) b rt = some (ds, b1) ∧ ds.length ≤ n ∧
      (∀ d ∈ ds, BackoffMin ≤ d) ∧ b1.lifetime = b.lifetime + ds.sum ∧
      b1.timeout = b.timeout ∧ b1.timeout ≤ b1.lifetime := by
  intro n
  induction n with
  | zero =>
    intro b rt _ h
    have hge : b.timeout ≤ b.lifetime := by simp at h; omega
    have he := (Sleep_eof_iff E b rt).2 hge
    have hb : (b.Sleep E rt).b = b := by
      unfold backOff.Sleep
      rw [if_pos hge]
    refine ⟨[], b, ?_, by simp, by simp, by simp, rfl, hge⟩
    simp [sleepUntilEOF, he, hb]
  | succ n ih =>
    intro b rt hbd h
    by_cases hge : b.timeout ≤ b.lifetime
    · have he := (Sleep_eof_iff E b rt).2 hge
      have hb : (b.Sleep E rt).b = b := by
        unfold backOff.Sleep
        rw [if_pos hge]
      refine ⟨[], b, ?_, by simp, by simp, by simp, rfl, hge⟩
      simp [sleepUntilEOF, he, hb]
    · have hlt : b.lifetime < b.timeout := by omega
      obtain ⟨he, hl, ht, hbd1, _⟩ := Sleep_step E b rt hbd hlt
      have hmin : BackoffMin ≤ max BackoffMin b.sleep := le_max_left _ _
      have hrem : (b.Sleep E rt).b.timeout - (b.Sleep E rt).b.lifetime ≤ n * BackoffMin := by
        rw [hl, ht]
        push_cast at h
        linarith
      obtain ⟨ds, b1, hrun, hlen, hds, hsum, hto, hfin⟩ :=
        ih (b.Sleep E rt).b (b.Sleep E rt).rt hbd1 hrem
      refine ⟨max BackoffMin b.sleep :: ds, b1, ?_, by simp; omega, ?_, ?_, ?_, hfin⟩
      · rw [sleepUntilEOF]
        simp only [he, hrun, max64_eq]
        simp
      · intro d hd
        rcases List.mem_cons.1 hd with hd | hd
        · rw [hd]; exact hmin
        · exact hds d hd
      · rw [hsum, hl, List.sum_cons]; ring
      · rw [hto, ht]

/-- C26 (counterexample): a timer with first sleep 2^60 ns and timeout 2^63 - 1
never returns the end-of-sequence error: its eighth sleep takes the lifetime from
7 * 2^60 to -2^63, and after sixteen sleeps the record is the initial one again,
while 4 * sleep never overflows. A record with lifetime 1, timeout 2 and sleep
2^63 - 1 has its lifetime taken to -2^63 by the first sleep and sleeps three
times; a record whose lifetime starts at -10^9 with timeout 1 sleeps eleven
times; both more than ceil(T / BackoffMin) = 1. -/
theorem backOff_lifetime_wraps :
    ((wrappingTimer 0 = newBackOff (2 ^ 60) (2 ^ 63 - 1) (2 ^ 63 - 1) ∧
      inInt64 (4 * (wrappingTimer 0).sleep)) ∧
    ((wrappingTimer 7).lifetime = 7 * 2 ^ 60 ∧
      ((wrappingTimer 7).Sleep clockEnv 0).eof = false ∧
      ((wrappingTimer 7).Sleep clockEnv 0).b.lifetime = -2 ^ 63 ∧
      ((wrappingTimer 7).Sleep clockEnv 0).b.lifetime < (wrappingTimer 7).lifetime ∧
      ((wrappingTimer 7).Sleep clockEnv 0).b.sleep = (wrappingTimer 0).sleep) ∧
    (¬ ∃ fuel, (sleepUntilEOF clockEnv fuel (wrappingTimer 0) 0).isSome = true)) ∧
    ((overflowingSleep.Sleep clockEnv 0).eof = false ∧
      (overflowingSleep.Sleep clockEnv 0).b.lifetime = -2 ^ 63 ∧
      (overflowingSleep.Sleep clockEnv 0).b.lifetime < overflowingSleep.lifetime ∧
      (sleepUntilEOF clockEnv 100 overflowingSleep 0).map (fun r => r.1.length) = some 3 ∧
      0 < overflowingSleep.timeout ∧ overflowingSleep.timeout ≤ 1 * BackoffMin) ∧
    ((sleepUntilEOF clockEnv 100 negativeLifetime 0).map (fun r => r.1.length) = some 11 ∧
      0 < negativeLifetime.timeout ∧ negativeLifetime.timeout ≤ 1 * BackoffMin) := by
  refine ⟨⟨⟨by decide, by decide⟩, ⟨by decide, by decide, by decide, by decide, by decide⟩, ?_⟩,
    ⟨by decide, by decide, by decide, by decide, by decide, by decide⟩,
    by decide, by decide, by decide⟩
  rintro ⟨fuel, h⟩
  have hn := wrappingTimer_never_eof clockEnv fuel 0 0
  have h0 : wrappingTimer ((0 : Fin 16) : Nat) = wrappingTimer 0 := rfl
  rw [h0] at hn
  rw [hn] at h
  cases h

/-- C26 (amended): for a back-off record with 0 <= lifetime, timeout T <= 2^62
and whose next sleep does not overflow the lifetime (lifetime +
max(BackoffMin, sleep) < 2^63 when lifetime < T), a Sleep call made while
lifetime < T does not return the end-of-sequence error and adds
max(BackoffMin, sleep) >= BackoffMin to the lifetime, whatever 4*sleep does, and
the record it leaves is again such a record; hence for every n with T <= n * BackoffMin, in
particular n = ceil(T / BackoffMin) when T > 0, successive Sleep calls reach the
end-of-sequence error after at most n sleeps, each of at least BackoffMin, with
the final lifetime the initial one plus the time slept and >= T; and when T <= 0
the first call returns the error at once. -/
theorem backOff_terminates {τ : Type} (E : Env τ) (b : backOff) (rt : τ)
    (h0 : 0 ≤ b.lifetime) (hT : b.timeout ≤ 2 ^ 62)
    (hs : b.lifetime < b.timeout → b.lifetime + max BackoffMin b.sleep < 2 ^ 63) :
    (b.lifetime < b.timeout →
      (b.Sleep E rt).eof = false ∧
      (b.Sleep E rt).b.lifetime = b.lifetime + max BackoffMin b.sleep ∧
      b.lifetime + BackoffMin ≤ (b.Sleep E rt).b.lifetime ∧
      (b.Sleep E rt).b.timeout = b.timeout ∧
      0 ≤ (b.Sleep E rt).b.lifetime ∧
      ((b.Sleep E rt).b.lifetime < (b.Sleep E rt).b.timeout →
        (b.Sleep E rt).b.lifetime + max BackoffMin (b.Sleep E rt).b.sleep < 2 ^ 63)) ∧
    (∀ n : Nat, b.timeout ≤ n * BackoffMin →
      ∃ ds b1, sleepUntilEOF E (n + 1) b rt = some (ds, b1) ∧ ds.length ≤ n ∧
        (∀ d ∈ ds, BackoffMin ≤ d) ∧ b1.lifetime = b.lifetime + ds.sum ∧
        b1.timeout ≤ b1.lifetime) ∧
    (0 < b.timeout →
      ∃ ds b1, sleepUntilEOF E (Int.toNat ((b.timeout + BackoffMin - 1) / BackoffMin) + 1) b rt =
          some (ds, b1) ∧
        (ds.length : Int) ≤ (b.timeout + BackoffMin - 1) / BackoffMin) ∧
    (b.timeout ≤ 0 →
      (b.Sleep E rt).eof = true ∧ (b.Sleep E rt).calls = [] ∧
      sleepUntilEOF E 1 b rt = some ([], b)) := by
  have hbd : b.Bounded := ⟨h0, hT, hs⟩
  refine ⟨?_, ?_, ?_, ?_⟩
  · intro hlt
    obtain ⟨he, hl, ht, hbd1, _⟩ := Sleep_step E b rt hbd hlt
    have hmin : BackoffMin ≤ max BackoffMin b.sleep := le_max_left _ _
    exact ⟨he, hl, by omega, ht, hbd1.1, hbd1.2.2⟩
  · intro n hn
    obtain ⟨ds, b1, hrun, hlen, hds, hsum, _, hfin⟩ :=
      sleepUntilEOF_reaches_eof E n b rt hbd (by omega)
    exact ⟨ds, b1, hrun, hlen, hds, hsum, hfin⟩
  · intro hpos
    have hq : 0 ≤ (b.timeout + BackoffMin - 1) / BackoffMin := by
      unfold BackoffMin; omega
    have hc : ((Int.toNat ((b.timeout + BackoffMin - 1) / BackoffMin) : Nat) : Int) =
        (b.timeout + BackoffMin - 1) / BackoffMin := Int.toNat_of_nonneg hq
    have hle : b.timeout - b.lifetime ≤
        (Int.toNat ((b.timeout + BackoffMin - 1) / BackoffMin) : Nat) * BackoffMin := by
      rw [hc]
      unfold BackoffMin; omega
    obtain ⟨ds, b1, hrun, hlen, _⟩ := sleepUntilEOF_reaches_eof E _ b rt hbd hle
    refine ⟨ds, b1, hrun, ?_⟩
    rw [← hc]
    exact_mod_cast hlen
  · intro hle
    have hge : b.timeout ≤ b.lifetime := by omega
    have he := (Sleep_eof_iff E b rt).2 hge
    have hb : (b.Sleep E rt).b = b := by
      unfold backOff.Sleep
      rw [if_pos hge]
    refine ⟨he, ?_, ?_⟩
    · unfold backOff.Sleep
      rw [if_pos hge]
    · simp [sleepUntilEOF, he, hb]

/-- C26 (witness): the REQUEST back-off timer reaches the end of its sequence
within 300 sleeps. -/
theorem backOff_terminates_witness :
    (0 : Int) ≤ (newBackOff 1000000000 30000000000 10000000000).lifetime ∧
    (newBackOff 1000000000 30000000000 10000000000).timeout ≤ 300 * BackoffMin ∧
    ∃ ds b1, sleepUntilEOF clockEnv 301 (newBackOff 1000000000 30000000000 10000000000) 0 =
        some (ds, b1) ∧ ds.length ≤ 300 ∧ (∀ d ∈ ds, BackoffMin ≤ d) ∧
      b1.lifetime = (newBackOff 1000000000 30000000000 10000000000).lifetime + ds.sum ∧
      b1.timeout ≤ b1.lifetime :=
  ⟨by decide, by decide,
    (backOff_terminates clockEnv (newBackOff 1000000000 30000000000 10000000000) 0
      (by decide) (by decide) (by decide)).2.1 300 (by decide)⟩

/-! ### synthetic.go: the spin budget and waking in the past -/

theorem loopPass_ahead (sort : sleeperQueue → sleeperQueue) (hsort : SortsByWake sort)
    (v : LoopVars) (B : Int) (req : Option Request) (hv : v.Ahead B)
    (hd : 0 ≤ sleepDuration req) (hB : B + sleepDuration req < 2 ^ 63) :
    (∀ a, SyntheticRuntime.loopPass sort v req ≠ .panic "waking in the past" a) ∧
    (SyntheticRuntime.loopPass sort v req).val.2.1.Ahead (B + sleepDuration req) := by
  obtain ⟨h1, h2, h3, h4⟩ := hv
  have hs := loopPass_sorted sort hsort v req h3
  cases req with
  | some r =>
    cases r with
    | requestSleep d resp =>
      simp only [sleepDuration] at hd hB ⊢
      have hnd : ¬ d < 0 := by omega
      have hin : inInt64 (v.now + d) := by
        unfold inInt64
        constructor <;> omega
      have hp : SyntheticRuntime.loopPass sort v (some (.requestSleep d resp)) =
          .ok (true, { v with sleepers := v.sleepers.Add sort { wake := v.now + d, resp := resp } },
            []) := by
        simp [SyntheticRuntime.loopPass, hnd, wrap64_of_inInt64 hin]
      rw [hp] at hs ⊢
      refine ⟨(fun a h => by cases h), ⟨h1, by simp only [Result.val]; omega, hs, ?_⟩⟩
      intro s hmem
      simp only [Result.val, sleeperQueue.Add] at hmem
      rcases List.mem_append.1 ((hsort.perm _).mem_iff.1 hmem) with hm | hm
      · have := h4 s hm
        simp only [Result.val]
        omega
      · rw [List.mem_singleton.1 hm]
        simp only [Result.val]
        omega
    | requestNow resp =>
      have hp : SyntheticRuntime.loopPass sort v (some (.requestNow resp)) =
          .ok (true, v, [.answered resp v.now]) := rfl
      rw [hp]
      refine ⟨(fun a h => by cases h), ⟨h1, ?_, h3, ?_⟩⟩
      · simp only [Result.val, sleepDuration]; omega
      · intro s hm
        have := h4 s hm
        simp only [Result.val, sleepDuration]
        omega
    | unknown =>
      have hp : SyntheticRuntime.loopPass sort v (some .unknown) =
          .panic "unknown request" (true, v, []) := rfl
      rw [hp]
      refine ⟨?_, ⟨h1, ?_, h3, ?_⟩⟩
      · intro a h
        injection h with hmsg _
        exact absurd hmsg (by decide)
      · simp only [Result.val, sleepDuration]; omega
      · intro s hm
        have := h4 s hm
        simp only [Result.val, sleepDuration]
        omega
  | none =>
    simp only [sleepDuration, add_zero] at hs ⊢
    by_cases hn : v.nidle + 1 < SpinThreshold
    · have hp : SyntheticRuntime.loopPass sort v none =
          .ok (true, { v with nidle := v.nidle + 1 }, []) := by
        simp [SyntheticRuntime.loopPass, hn]
      rw [hp]
      exact ⟨(fun a h => by cases h), ⟨h1, h2, h3, h4⟩⟩
    · cases hq : v.sleepers with
      | nil =>
        have hp : SyntheticRuntime.loopPass sort v none =
            .ok (false, { v with nidle := v.nidle + 1, sleepers := [] }, []) := by
          simp [SyntheticRuntime.loopPass, hn, hq, sleeperQueue.DeleteMin]
        rw [hp]
        refine ⟨(fun a h => by cases h), ⟨h1, h2, List.sorted_nil, ?_⟩⟩
        intro s hm
        simp [Result.val] at hm
      | cons x rest =>
        have hx := h4 x (by rw [hq]; simp)
        have hnp : ¬ x.wake < v.now := by omega
        have hp : SyntheticRuntime.loopPass sort v none =
            .ok (true, { now := x.wake, sleepers := rest, nidle := v.nidle + 1 },
              [.woke x.resp x.wake]) := by
          simp [SyntheticRuntime.loopPass, hn, hq, sleeperQueue.DeleteMin, hnp]
        rw [hp]
        rw [hq] at h3 h4
        have hsc := List.sorted_cons.1 h3
        refine ⟨(fun a h => by cases h), ⟨?_, ?_, hsc.2, ?_⟩⟩
        · simp only [Result.val]; omega
        · simp only [Result.val]; omega
        · intro s hm
          simp only [Result.val] at hm ⊢
          have ha := hsc.1 s hm
          have hb := h4 s (List.mem_cons_of_mem _ hm)
          unfold wakeLE at ha
          omega

theorem loopFrom_ahead (sort : sleeperQueue → sleeperQueue) (hsort : SortsByWake sort)
    (reqs : List (Option Request)) : ∀ (v : LoopVars) (B : Int), v.Ahead B →
      (∀ d ∈ sleepDurations reqs, 0 ≤ d) → B + (sleepDurations reqs).sum < 2 ^ 63 →
      (∀ a, SyntheticRuntime.loopFrom sort v reqs ≠ .panic "waking in the past" a) ∧
      ∃ B1, (SyntheticRuntime.loopFrom sort v reqs).val.2.1.Ahead B1 := by
  induction reqs with
  | nil =>
    intro v B hv _ _
    exact ⟨(fun a h => by cases h), ⟨B, hv⟩⟩
  | cons req reqs ih =>
    intro v B hv hd hB
    have hd0 : 0 ≤ sleepDuration req := hd _ (by simp [sleepDurations])
    have hdr : ∀ d ∈ sleepDurations reqs, 0 ≤ d := by
      intro d hm
      exact hd d (by simp only [sleepDurations, List.map_cons] at hm ⊢; exact List.mem_cons_of_mem _ hm)
    have hsum : 0 ≤ (sleepDurations reqs).sum := List.sum_nonneg hdr
    have hB2 : B + sleepDuration req + (sleepDurations reqs).sum < 2 ^ 63 := by
      simp only [sleepDurations, List.map_cons, List.sum_cons] at hB ⊢
      omega
    obtain ⟨hp1, hp2⟩ := loopPass_ahead sort hsort v B req hv hd0 (by omega)
    cases hp : SyntheticRuntime.loopPass sort v req with
    | panic msg a =>
      rw [hp] at hp1 hp2
      simp only [SyntheticRuntime.loopFrom, hp]
      exact ⟨hp1, ⟨_, hp2⟩⟩
    | ok a =>
      rw [hp] at hp2
      simp only [Result.val] at hp2
      obtain ⟨b, v1, es⟩ := a
      cases b with
      | false =>
        simp only [SyntheticRuntime.loopFrom, hp]
        exact ⟨(fun a h => by cases h), ⟨_, hp2⟩⟩
      | true =>
        obtain ⟨h3, B1, h4⟩ := ih v1 _ hp2 hdr hB2
        cases hr : SyntheticRuntime.loopFrom sort v1 reqs with
        | panic msg a2 =>
          rw [hr] at h3 h4
          simp only [SyntheticRuntime.loopFrom, hp, hr]
          refine ⟨?_, ⟨B1, h4⟩⟩
          intro a h
          injection h with hmsg _
          exact h3 a2 (by rw [hmsg])
        | ok a2 =>
          rw [hr] at h4
          simp only [SyntheticRuntime.loopFrom, hp, hr]
          exact ⟨(fun a h => by cases h), ⟨B1, h4⟩⟩

theorem sum_take_le (l : List Int) (h : ∀ d ∈ l, 0 ≤ d) (k : Nat) : (l.take k).sum ≤ l.sum := by
  induction l generalizing k with
  | nil => simp
  | cons x xs ih =>
    cases k with
    | zero =>
      simp only [List.take_zero, List.sum_nil]
      exact List.sum_nonneg h
    | succ k =>
      have := ih (fun d hd => h d (List.mem_cons_of_mem _ hd)) k
      simp only [List.take_succ_cons, List.sum_cons]
      omega

theorem loopPass_nidle (sort : sleeperQueue → sleeperQueue) (v : LoopVars)
    (req : Option Request) : v.nidle ≤ (SyntheticRuntime.loopPass sort v req).val.2.1.nidle := by
  unfold SyntheticRuntime.loopPass
  split
  · split <;> simp [Result.val]
  · simp [Result.val]
  · simp [Result.val]
  · simp only []
    split
    · simp [Result.val]
    · split
      · simp [Result.val]
      · split <;> simp [Result.val]

set_option maxRecDepth 100000 in
/-- C25: the idle counter of SyntheticRuntime.loop is never reset, no pass
lowers it. Two tasks ask to sleep 1 ns and 2 ns; the hundredth idle pass wakes
the first at clock 1 and the very next idle pass wakes the second at clock 2;
a request processed after the hundredth idle pass is followed by a wake-up on the
next idle pass; and the loop ends on the idle pass that follows the last
wake-up, with the counter at 102. -/
theorem synthetic_spin_budget_spent_once :
    SpinThreshold = 100 ∧
    (∀ (sort : sleeperQueue → sleeperQueue) (v : LoopVars) (req : Option Request),
      v.nidle ≤ (SyntheticRuntime.loopPass sort v req).val.2.1.nidle) ∧
    SyntheticRuntime.loop sortByWake spinRun =
      .ok (true, { now := 1, sleepers := [{ wake := 2, resp := 1 }], nidle := 100 },
        [.woke 0 1]) ∧
    SyntheticRuntime.loop sortByWake (spinRun ++ [none]) =
      .ok (true, { now := 2, sleepers := [], nidle := 101 }, [.woke 0 1, .woke 1 2]) ∧
    SyntheticRuntime.loop sortByWake (spinRun ++ [some (.requestSleep 5 2), none]) =
      .ok (true, { now := 2, sleepers := [{ wake := 6, resp := 2 }], nidle := 101 },
        [.woke 0 1, .woke 1 2]) ∧
    SyntheticRuntime.loop sortByWake (spinRun ++ [none, none]) =
      .ok (false, { now := 2, sleepers := [], nidle := 102 }, [.woke 0 1, .woke 1 2]) := by
  refine ⟨rfl, loopPass_nidle, by rfl, by rfl, by rfl, by rfl⟩

set_option maxRecDepth 100000 in
/-- C27 (counterexample): every duration requested is non-negative, a task sleeps
2^63 - 1 ns and is woken at clock 2^63 - 1, and a second task then requests
Sleep(1): it is queued with wake time -2^63, below the clock, and the pass that
takes it from the queue panics with "waking in the past". -/
theorem synthetic_wakes_in_the_past :
    (∀ d ∈ sleepDurations lateSleepRun, 0 ≤ d) ∧
    (SyntheticRuntime.loop sortByWake lateSleepRun.dropLast).val =
      (true, { now := 2 ^ 63 - 1, sleepers := [{ wake := -2 ^ 63, resp := 1 }], nidle := 100 },
        [.woke 0 (2 ^ 63 - 1)]) ∧
    SyntheticRuntime.loop sortByWake lateSleepRun =
      .panic "waking in the past" (true, { now := 2 ^ 63 - 1, sleepers := [], nidle := 101 },
        [.woke 0 (2 ^ 63 - 1)]) := by
  refine ⟨by decide, by rfl, by rfl⟩

/-- C27 (amended): when every sleep duration requested is non-negative and the
durations sum to less than 2^63, so that no wake time now + duration overflows,
then after any number of passes of the loop, with a `sort.Sort` that sorts, the
loop has not panicked with "waking in the past", every queued sleeper has a wake
time >= the virtual time, and so has the sleeper that DeleteMin would remove; the
virtual clock never decreases, from any state and for any requests; and a request
with a negative duration panics with "sleeping for negative time" and leaves the
queue as it was. -/
theorem synthetic_clock_safe (sort : sleeperQueue → sleeperQueue) (hsort : SortsByWake sort)
    (reqs : List (Option Request)) (hnn : ∀ d ∈ sleepDurations reqs, 0 ≤ d)
    (hsum : (sleepDurations reqs).sum < 2 ^ 63) :
    (∀ (k : Nat) (a : Bool × LoopVars × List LoopEffect),
      SyntheticRuntime.loop sort (reqs.take k) ≠ .panic "waking in the past" a) ∧
    (∀ k : Nat, ∀ s ∈ (SyntheticRuntime.loop sort (reqs.take k)).val.2.1.sleepers,
      (SyntheticRuntime.loop sort (reqs.take k)).val.2.1.now ≤ s.wake) ∧
    (∀ (k : Nat) (x : scheduledToSleep) (rest : sleeperQueue),
      (SyntheticRuntime.loop sort (reqs.take k)).val.2.1.sleepers.DeleteMin = (some x, rest) →
      (SyntheticRuntime.loop sort (reqs.take k)).val.2.1.now ≤ x.wake) ∧
    (∀ (v : LoopVars) (more : List (Option Request)),
      v.now ≤ (SyntheticRuntime.loopFrom sort v more).val.2.1.now) ∧
    (∀ (v : LoopVars) (d : Int) (resp : Nat), d < 0 →
      SyntheticRuntime.loopPass sort v (some (.requestSleep d resp)) =
        .panic "sleeping for negative time" (true, v, [])) := by
  have key : ∀ k : Nat,
      (∀ a, SyntheticRuntime.loop sort (reqs.take k) ≠ .panic "waking in the past" a) ∧
      ∃ B1, (SyntheticRuntime.loop sort (reqs.take k)).val.2.1.Ahead B1 := by
    intro k
    have h0 : LoopVars.Ahead { now := 0, sleepers := [], nidle := 0 } 0 :=
      ⟨by norm_num, le_refl _, List.sorted_nil, fun s hs => by cases hs⟩
    have hd : sleepDurations (reqs.take k) = (sleepDurations reqs).take k := by
      simp [sleepDurations, List.map_take]
    have h1 : ∀ d ∈ sleepDurations (reqs.take k), 0 ≤ d := by
      intro d hm
      rw [hd] at hm
      exact hnn d (List.mem_of_mem_take hm)
    have h2 : (0 : Int) + (sleepDurations (reqs.take k)).sum < 2 ^ 63 := by
      rw [hd]
      have := sum_take_le (sleepDurations reqs) hnn k
      omega
    exact loopFrom_ahead sort hsort (reqs.take k) _ 0 h0 h1 h2
  refine ⟨fun k => (key k).1, ?_, ?_, ?_, ?_⟩
  · intro k s hs
    obtain ⟨B1, hA⟩ := (key k).2
    exact (hA.2.2.2 s hs).1
  · intro k x rest hd
    obtain ⟨B1, hA⟩ := (key k).2
    cases hq : (SyntheticRuntime.loop sort (reqs.take k)).val.2.1.sleepers with
    | nil => rw [hq] at hd; simp [sleeperQueue.DeleteMin] at hd
    | cons y ys =>
      rw [hq] at hd
      simp only [sleeperQueue.DeleteMin, Prod.mk.injEq, Option.some.injEq] at hd
      have := (hA.2.2.2 y (by rw [hq]; simp)).1
      rw [← hd.1]
      exact this
  · intro v more
    exact (loopFrom_chain sort more v).2
  · intro v d resp hd
    simp [SyntheticRuntime.loopPass, hd]

set_option maxRecDepth 100000 in
/-- C27 (witness): two tasks that sleep 1 ns and 2 ns, with insertion sort for
`sort.Sort`. -/
theorem synthetic_clock_safe_witness :
    SortsByWake sortByWake ∧ (∀ d ∈ sleepDurations spinRun, 0 ≤ d) ∧
    (sleepDurations spinRun).sum < 2 ^ 63 ∧
    (∀ (k : Nat) (a : Bool × LoopVars × List LoopEffect),
      SyntheticRuntime.loop sortByWake (spinRun.take k) ≠ .panic "waking in the past" a) ∧
    (∀ k : Nat, ∀ s ∈ (SyntheticRuntime.loop sortByWake (spinRun.take k)).val.2.1.sleepers,
      (SyntheticRuntime.loop sortByWake (spinRun.take k)).val.2.1.now ≤ s.wake) :=
  ⟨sortByWake_sorts, by decide, by decide,
    (synthetic_clock_safe sortByWake sortByWake_sorts spinRun (by decide) (by decide)).1,
    (synthetic_clock_safe sortByWake sortByWake_sorts spinRun (by decide) (by decide)).2.1⟩

/-! ### chanlink.go -/

theorem copy_fresh (buf : List Nat) : (copy (List.replicate buf.length 0) buf).2 = buf := by
  simp [copy]

theorem copy_fits (rb b : List Nat) (h : b.length ≤ rb.length) :
    copy rb b = (b.length, b ++ rb.drop b.length) := by
  simp [copy, Nat.min_eq_right h]

@[simp] theorem chan_setChan (w : ChanPipe) (ch : ChanId) (c : ByteChan) :
    (w.setChan ch c).chan ch = c := by
  cases ch <;> rfl

@[simp] theorem link_setChan (w : ChanPipe) (ch : ChanId) (c : ByteChan) (l : PipeEnd) :
    (w.setChan ch c).link l = w.link l := by
  cases ch <;> cases l <;> rfl

@[simp] theorem setChan_setChan (w : ChanPipe) (ch : ChanId) (c d : ByteChan) :
    (w.setChan ch c).setChan ch d = w.setChan ch d := by
  cases ch <;> rfl

theorem setChan_chan (w : ChanPipe) (ch : ChanId) : w.setChan ch (w.chan ch) = w := by
  cases ch <;> rfl

theorem callsFrom_append (a b : List LinkCall) : ∀ (w : ChanPipe) (log : LinkLog),
    w.callsFrom log (a ++ b) = (w.callsFrom log a).1.callsFrom (w.callsFrom log a).2 b := by
  induction a with
  | nil => intro w log; rfl
  | cons c cs ih =>
    intro w log
    show ChanPipe.callsFrom w log (c :: (cs ++ b)) = _
    simp only [ChanPipe.callsFrom]
    exact ih _ _

theorem settleSend_skip (l : PipeEnd) (t : Bool) (e : LinkCall × LinkResult) (B : LinkLog)
    (he : sendWaits l e = true) : ∀ A : LinkLog, (∀ x ∈ A, sendWaits l x = false) →
    settleSend l t (A ++ e :: B) = A ++ endSend t e :: B := by
  intro A
  induction A with
  | nil => intro _; simp [settleSend, he]
  | cons a A ih =>
    intro h
    have ha : sendWaits l a = false := h a (List.mem_cons_self _ _)
    have hi := ih (fun x hx => h x (List.mem_cons_of_mem _ hx))
    show settleSend l t (a :: (A ++ e :: B)) = a :: (A ++ endSend t e :: B)
    simp only [settleSend, ha, hi]
    simp

theorem callsFrom_writes (l : PipeEnd) (ch : ChanId) : ∀ (bufs : List (List Nat))
    (w : ChanPipe) (log : LinkLog),
    (w.link l).out = some ch → (w.chan ch).closed = false →
    w.callsFrom log (bufs.map (.WriteTo l)) =
      (w.setChan ch { waiting := (w.chan ch).waiting ++ bufs, closed := false },
        log ++ bufs.map (fun b => (.WriteTo l b, .blocks))) := by
  intro bufs
  induction bufs with
  | nil =>
    intro w log _ h2
    have : ({ waiting := (w.chan ch).waiting ++ [], closed := false } : ByteChan) = w.chan ch := by
      rw [List.append_nil, ← h2]
    rw [this, setChan_chan]
    simp [ChanPipe.callsFrom]
  | cons b bufs ih =>
    intro w log h1 h2
    have hc : w.call (.WriteTo l b) =
        (w.setChan ch { waiting := (w.chan ch).waiting ++ [b], closed := false }, .blocks) := by
      simp [ChanPipe.call, ChanLink.WriteTo, h1, h2, copy_fresh]
    simp only [List.map_cons, ChanPipe.callsFrom, hc, ChanPipe.settle]
    rw [ih _ _ (by simpa using h1) (by simp)]
    simp

theorem callsFrom_reads (l : PipeEnd) (ch : ChanId) : ∀ (bufs rbufs : List (List Nat)),
    List.Forall₂ (fun b r => b.length ≤ r.length) bufs rbufs →
    ∀ (w : ChanPipe) (A R : LinkLog) (post : List (List Nat)), (w.link l).in_ = some ch →
    (w.chan ch).waiting = bufs ++ post → (∀ x ∈ A, sendWaits l.peer x = false) →
    w.callsFrom (A ++ bufs.map (fun b => (.WriteTo l.peer b, .blocks)) ++ R)
        (rbufs.map (.ReadFrom l)) =
      (w.setChan ch { waiting := post, closed := (w.chan ch).closed },
        A ++ bufs.map (fun b => (.WriteTo l.peer b, .returns b.length none b)) ++ R ++
        List.zipWith (fun b r => (.ReadFrom l r, .returns b.length none (b ++ r.drop b.length)))
          bufs rbufs) := by
  intro bufs rbufs h
  induction h with
  | nil =>
    intro w A R post _ h2 _
    have : ({ waiting := post, closed := (w.chan ch).closed } : ByteChan) = w.chan ch := by
      rw [List.nil_append] at h2
      rw [← h2]
    rw [this, setChan_chan]
    simp [ChanPipe.callsFrom]
  | @cons b r bufs rbufs hbr _ ih =>
    intro w A R post h1 h2 hA
    have hc : w.call (.ReadFrom l r) =
        (w.setChan ch { waiting := bufs ++ post, closed := (w.chan ch).closed },
          .returns b.length none (b ++ r.drop b.length)) := by
      simp [ChanPipe.call, ChanLink.ReadFrom, h1, h2, copy_fits r b hbr]
    have htk : w.takes l = true := by
      simp [ChanPipe.takes, h1, h2]
    have hset : settleSend l.peer true
        (A ++ (b :: bufs).map (fun b => (LinkCall.WriteTo l.peer b, LinkResult.blocks)) ++ R) =
        (A ++ [(.WriteTo l.peer b, .returns b.length none b)]) ++
          bufs.map (fun b => (LinkCall.WriteTo l.peer b, LinkResult.blocks)) ++ R := by
      have := settleSend_skip l.peer true (.WriteTo l.peer b, .blocks)
        (bufs.map (fun b => (LinkCall.WriteTo l.peer b, LinkResult.blocks)) ++ R)
        (by simp [sendWaits]) A hA
      simp only [List.map_cons, List.append_assoc, List.cons_append] at this ⊢
      rw [this]
      simp [endSend, ChanLink.sendEnds]
    have hset2 : settleSend l.peer true
        (A ++ (LinkCall.WriteTo l.peer b, LinkResult.blocks) ::
              bufs.map (fun b => (LinkCall.WriteTo l.peer b, LinkResult.blocks)) ++ R) =
        (A ++ [(.WriteTo l.peer b, .returns b.length none b)]) ++
          bufs.map (fun b => (LinkCall.WriteTo l.peer b, LinkResult.blocks)) ++ R := hset
    simp only [List.map_cons, ChanPipe.callsFrom, hc, ChanPipe.settle, htk, if_true]
    rw [hset2]
    have hA2 : ∀ x ∈ A ++ [(LinkCall.WriteTo l.peer b, LinkResult.returns b.length none b)],
        sendWaits l.peer x = false := by
      intro x hx
      rcases List.mem_append.1 hx with hx | hx
      · exact hA x hx
      · rw [List.mem_singleton.1 hx]; rfl
    have := ih (w.setChan ch { waiting := bufs ++ post, closed := (w.chan ch).closed })
      (A ++ [(.WriteTo l.peer b, .returns b.length none b)])
      (R ++ [(.ReadFrom l r, .returns b.length none (b ++ r.drop b.length))]) post
      (by simpa using h1) (by simp) hA2
    simp only [List.append_assoc] at this ⊢
    rw [this]
    simp

theorem entry_cases (l : PipeEnd) (x : LinkCall × LinkResult) :
    (sendWaits l x = true ∧ ∃ buf, x = (.WriteTo l buf, .blocks) ∧ sentDatagram l x = some buf ∧
      waitingDatagram l x = some buf ∧ returnedDatagram l x = none) ∨
    (sendWaits l x = false ∧ waitingDatagram l x = none ∧
      sentDatagram l x = returnedDatagram l x) := by
  obtain ⟨c, r⟩ := x
  cases c with
  | ReadFrom l1 buf => right; simp [sendWaits, waitingDatagram, sentDatagram, returnedDatagram]
  | Close l1 => right; simp [sendWaits, waitingDatagram, sentDatagram, returnedDatagram]
  | WriteTo l1 buf =>
    cases r with
    | blocks =>
      by_cases h : l1 = l
      · left
        subst h
        simp [sendWaits, waitingDatagram, sentDatagram, returnedDatagram]
      · right
        simp [sendWaits, waitingDatagram, sentDatagram, returnedDatagram, h]
    | returns n err b =>
      right
      cases err <;> simp [sendWaits, waitingDatagram, sentDatagram, returnedDatagram]
    | returnsNil => right; simp [sendWaits, waitingDatagram, sentDatagram, returnedDatagram]
    | panics msg => right; simp [sendWaits, waitingDatagram, sentDatagram, returnedDatagram]

theorem written_eq (l : PipeEnd) : ∀ log : LinkLog, settledFirst l log →
    written l log = returnedSends l log ++ waitingSends l log := by
  intro log
  induction log with
  | nil => intro _; rfl
  | cons x rest ih =>
    intro h
    obtain ⟨h1, h2⟩ := h
    have hr := ih h2
    rcases entry_cases l x with ⟨hw, buf, _, hs, hwd, hrd⟩ | ⟨hw, hwd, hs⟩
    · have hnil := h1 hw
      simp only [written, returnedSends, waitingSends, List.filterMap_cons, hs, hwd, hrd] at hr hnil ⊢
      rw [hr, hnil]
      simp
    · simp only [written, returnedSends, waitingSends, List.filterMap_cons, hs, hwd] at hr ⊢
      rw [hr]
      cases returnedDatagram l x <;> simp

theorem settledFirst_append (l : PipeEnd) (e : LinkCall × LinkResult)
    (he : returnedDatagram l e = none) : ∀ log : LinkLog, settledFirst l log →
    settledFirst l (log ++ [e]) := by
  intro log
  induction log with
  | nil => intro _; simp [settledFirst, returnedSends]
  | cons x rest ih =>
    intro h
    obtain ⟨h1, h2⟩ := h
    refine ⟨fun hw => ?_, ih h2⟩
    have := h1 hw
    show returnedSends l (rest ++ [e]) = []
    simp only [returnedSends, List.filterMap_append, List.filterMap_cons, he,
      List.filterMap_nil, List.append_nil] at this ⊢
    exact this

theorem endSend_received (l2 : PipeEnd) (t : Bool) (x : LinkCall × LinkResult) (l : PipeEnd)
    (hw : sendWaits l x = true) : receivedDatagram l2 (endSend t x) = receivedDatagram l2 x := by
  rcases entry_cases l x with ⟨_, buf, hx, _⟩ | ⟨hf, _⟩
  · rw [hx]; rfl
  · rw [hf] at hw; cases hw

theorem settleSend_received (l l2 : PipeEnd) (t : Bool) : ∀ log : LinkLog,
    received l2 (settleSend l t log) = received l2 log := by
  intro log
  induction log with
  | nil => rfl
  | cons x rest ih =>
    cases hw : sendWaits l x with
    | true =>
      simp only [settleSend, hw, if_true, received, List.filterMap_cons,
        endSend_received l2 t x l hw]
    | false =>
      simp only [received] at ih
      simp [settleSend, hw, received, List.filterMap_cons, ih]

theorem endSend_other (l l2 : PipeEnd) (t : Bool) (x : LinkCall × LinkResult) (hne : l2 ≠ l)
    (hw : sendWaits l x = true) :
    waitingDatagram l2 (endSend t x) = none ∧ waitingDatagram l2 x = none ∧
    returnedDatagram l2 (endSend t x) = none ∧ returnedDatagram l2 x = none ∧
    sendWaits l2 (endSend t x) = false := by
  rcases entry_cases l x with ⟨_, buf, hx, _⟩ | ⟨hf, _⟩
  · rw [hx]
    have hne2 : ¬ l = l2 := fun h => hne h.symm
    cases t <;>
      simp [endSend, ChanLink.sendEnds, waitingDatagram, returnedDatagram, sendWaits, hne2]
  · rw [hf] at hw; cases hw

theorem settleSend_other (l l2 : PipeEnd) (t : Bool) (hne : l2 ≠ l) : ∀ log : LinkLog,
    waitingSends l2 (settleSend l t log) = waitingSends l2 log ∧
    returnedSends l2 (settleSend l t log) = returnedSends l2 log ∧
    (settledFirst l2 log → settledFirst l2 (settleSend l t log)) := by
  intro log
  induction log with
  | nil => exact ⟨rfl, rfl, fun h => h⟩
  | cons x rest ih =>
    obtain ⟨i1, i2, i3⟩ := ih
    cases hw : sendWaits l x with
    | true =>
      obtain ⟨e1, e2, e3, e4, e5⟩ := endSend_other l l2 t x hne hw
      refine ⟨?_, ?_, ?_⟩
      · simp [settleSend, hw, waitingSends, List.filterMap_cons, e1, e2]
      · simp [settleSend, hw, returnedSends, List.filterMap_cons, e3, e4]
      · intro h
        simp only [settleSend, hw, if_true]
        exact ⟨fun h5 => absurd h5 (by rw [e5]; decide), h.2⟩
    | false =>
      refine ⟨?_, ?_, ?_⟩
      · simp only [waitingSends] at i1
        simp [settleSend, hw, waitingSends, List.filterMap_cons, i1]
      · simp only [returnedSends] at i2
        simp [settleSend, hw, returnedSends, List.filterMap_cons, i2]
      · intro h
        simp only [settleSend, hw]
        refine ⟨fun h5 => ?_, i3 h.2⟩
        rw [i2]
        exact h.1 h5

theorem settleSend_spec (l : PipeEnd) : ∀ (log : LinkLog) (d : List Nat) (P : List (List Nat)),
    settledFirst l log → waitingSends l log = d :: P →
    waitingSends l (settleSend l true log) = P ∧
    returnedSends l (settleSend l true log) = returnedSends l log ++ [d] ∧
    settledFirst l (settleSend l true log) := by
  intro log
  induction log with
  | nil => intro d P _ h; simp [waitingSends] at h
  | cons x rest ih =>
    intro d P hs hwt
    obtain ⟨h1, h2⟩ := hs
    rcases entry_cases l x with ⟨hw, buf, hx, _, hwd, hrd⟩ | ⟨hw, hwd, _⟩
    · have hnil := h1 hw
      simp only [waitingSends, List.filterMap_cons, hwd, List.cons.injEq] at hwt
      obtain ⟨hb, hP⟩ := hwt
      subst hb
      have hend : endSend true x = (.WriteTo l buf, .returns buf.length none buf) := by
        rw [hx]; rfl
      simp only [settleSend, hw, if_true, hend]
      refine ⟨?_, ?_, ?_⟩
      · simp only [waitingSends, List.filterMap_cons, waitingDatagram]
        exact hP
      · have hr2 : returnedDatagram l (.WriteTo l buf, .returns buf.length none buf) =
            some buf := by simp [returnedDatagram]
        simp only [returnedSends] at hnil
        simp [returnedSends, List.filterMap_cons, hr2, hrd, hnil]
      · exact ⟨fun h => absurd h (by simp [sendWaits]), h2⟩
    · simp only [waitingSends, List.filterMap_cons, hwd] at hwt
      obtain ⟨i1, i2, i3⟩ := ih d P h2 hwt
      simp only [settleSend, hw]
      refine ⟨?_, ?_, ?_⟩
      · simp only [waitingSends] at i1
        simp [waitingSends, List.filterMap_cons, hwd, i1]
      · simp only [returnedSends] at i2
        cases hrx : returnedDatagram l x <;>
          simp [returnedSends, List.filterMap_cons, hrx, i2]
      · exact ⟨fun h => absurd h (by rw [hw]; decide), i3⟩

theorem settleSend_mem (l : PipeEnd) (t : Bool) : ∀ (log : LinkLog) (e : LinkCall × LinkResult),
    e ∈ settleSend l t log →
    e ∈ log ∨ ∃ buf, e = (.WriteTo l buf, ChanLink.sendEnds buf t) := by
  intro log
  induction log with
  | nil => intro e h; simp [settleSend] at h
  | cons x rest ih =>
    intro e h
    cases hw : sendWaits l x with
    | true =>
      simp only [settleSend, hw, if_true] at h
      rcases List.mem_cons.1 h with h | h
      · right
        rcases entry_cases l x with ⟨_, buf, hx, _⟩ | ⟨hf, _⟩
        · exact ⟨buf, by rw [h, hx]; rfl⟩
        · rw [hf] at hw; cases hw
      · left; exact List.mem_cons_of_mem _ h
    | false =>
      simp only [settleSend, hw] at h
      rcases List.mem_cons.1 h with h | h
      · left; rw [h]; exact List.mem_cons_self _ _
      · rcases ih e h with h | h
        · left; exact List.mem_cons_of_mem _ h
        · right; exact h

theorem call_agrees (m : Nat) (w : ChanPipe) (c : LinkCall) (log : LinkLog) (hw : w.Open)
    (hc : c.fits m) (h0 : ∀ d ∈ w.c0.waiting, d.length ≤ m)
    (h1 : ∀ d ∈ w.c1.waiting, d.length ≤ m) (ha : w.Agrees log)
    (hok : ∀ e ∈ log, wellEnded e ∨ ∃ l buf, e = (.WriteTo l buf, .blocks)) :
    (w.call c).1.Open ∧
    (∀ d ∈ (w.call c).1.c0.waiting, d.length ≤ m) ∧
    (∀ d ∈ (w.call c).1.c1.waiting, d.length ≤ m) ∧
    (w.call c).1.Agrees (w.settle c log ++ [(c, (w.call c).2)]) ∧
    (∀ e ∈ w.settle c log ++ [(c, (w.call c).2)],
      wellEnded e ∨ ∃ l buf, e = (.WriteTo l buf, .blocks)) := by
  obtain ⟨hp, hq, hc0, hc1⟩ := hw
  obtain ⟨a1, a2, a3, a4, a5, a6⟩ := ha
  cases c with
  | Close l => exact absurd hc (by simp [LinkCall.fits])
  | WriteTo l buf =>
    simp only [LinkCall.fits] at hc
    have hlog : w.settle (.WriteTo l buf) log = log := rfl
    rw [hlog]
    have hmem : ∀ e ∈ log ++ [(LinkCall.WriteTo l buf, LinkResult.blocks)],
        wellEnded e ∨ ∃ l buf, e = (.WriteTo l buf, .blocks) := by
      intro e he
      rcases List.mem_append.1 he with he | he
      · exact hok e he
      · exact Or.inr ⟨l, buf, List.mem_singleton.1 he⟩
    cases l with
    | p =>
      have hcall : w.call (.WriteTo .p buf) =
          ({ w with c1 := { waiting := w.c1.waiting ++ [buf], closed := false } }, .blocks) := by
        simp [ChanPipe.call, ChanLink.WriteTo, ChanPipe.link, ChanPipe.chan, ChanPipe.setChan,
          hp, hc1, copy_fresh]
      rw [hcall]
      refine ⟨⟨hp, hq, hc0, rfl⟩, h0, ?_, ⟨?_, ?_, ?_, ?_, ?_, ?_⟩, hmem⟩
      · intro d hd
        rcases List.mem_append.1 hd with hd | hd
        · exact h1 d hd
        · rw [List.mem_singleton.1 hd]; exact hc
      · simp [waitingSends, List.filterMap_append, waitingDatagram] at a1 ⊢
        exact a1
      · simp [waitingSends, List.filterMap_append, waitingDatagram] at a2 ⊢
        exact a2
      · simp [returnedSends, received, List.filterMap_append, returnedDatagram,
          receivedDatagram] at a3 ⊢
        exact a3
      · simp [returnedSends, received, List.filterMap_append, returnedDatagram,
          receivedDatagram] at a4 ⊢
        exact a4
      · exact settledFirst_append .p _ (by simp [returnedDatagram]) log a5
      · exact settledFirst_append .q _ (by simp [returnedDatagram]) log a6
    | q =>
      have hcall : w.call (.WriteTo .q buf) =
          ({ w with c0 := { waiting := w.c0.waiting ++ [buf], closed := false } }, .blocks) := by
        simp [ChanPipe.call, ChanLink.WriteTo, ChanPipe.link, ChanPipe.chan, ChanPipe.setChan,
          hq, hc0, copy_fresh]
      rw [hcall]
      refine ⟨⟨hp, hq, rfl, hc1⟩, ?_, h1, ⟨?_, ?_, ?_, ?_, ?_, ?_⟩, hmem⟩
      · intro d hd
        rcases List.mem_append.1 hd with hd | hd
        · exact h0 d hd
        · rw [List.mem_singleton.1 hd]; exact hc
      · simp [waitingSends, List.filterMap_append, waitingDatagram] at a1 ⊢
        exact a1
      · simp [waitingSends, List.filterMap_append, waitingDatagram] at a2 ⊢
        exact a2
      · simp [returnedSends, received, List.filterMap_append, returnedDatagram,
          receivedDatagram] at a3 ⊢
        exact a3
      · simp [returnedSends, received, List.filterMap_append, returnedDatagram,
          receivedDatagram] at a4 ⊢
        exact a4
      · exact settledFirst_append .p _ (by simp [returnedDatagram]) log a5
      · exact settledFirst_append .q _ (by simp [returnedDatagram]) log a6
  | ReadFrom l buf =>
    simp only [LinkCall.fits] at hc
    cases l with
    | p =>
      cases hwt : w.c0.waiting with
      | nil =>
        have hcall : w.call (.ReadFrom .p buf) = (w, .blocks) := by
          simp [ChanPipe.call, ChanLink.ReadFrom, ChanPipe.link, ChanPipe.chan, hp, hwt, hc0]
        have hlog : w.settle (.ReadFrom .p buf) log = log := by
          simp [ChanPipe.settle, ChanPipe.takes, ChanPipe.link, ChanPipe.chan, hp, hwt]
        rw [hcall, hlog]
        refine ⟨⟨hp, hq, hc0, hc1⟩, h0, h1, ⟨?_, ?_, ?_, ?_, ?_, ?_⟩, ?_⟩
        · simp [waitingSends, List.filterMap_append, waitingDatagram] at a1 ⊢
          exact a1
        · simp [waitingSends, List.filterMap_append, waitingDatagram] at a2 ⊢
          exact a2
        · simp [returnedSends, received, List.filterMap_append, returnedDatagram,
            receivedDatagram] at a3 ⊢
          exact a3
        · simp [returnedSends, received, List.filterMap_append, returnedDatagram,
            receivedDatagram] at a4 ⊢
          exact a4
        · exact settledFirst_append .p _ (by simp [returnedDatagram]) log a5
        · exact settledFirst_append .q _ (by simp [returnedDatagram]) log a6
        · intro e he
          rcases List.mem_append.1 he with he | he
          · exact hok e he
          · rw [List.mem_singleton.1 he]
            exact Or.inl (Or.inl rfl)
      | cons d rest =>
        have hd : d.length ≤ buf.length := le_trans (h0 d (by rw [hwt]; simp)) hc
        have hcall : w.call (.ReadFrom .p buf) =
            ({ w with c0 := { waiting := rest, closed := false } },
              .returns d.length none (d ++ buf.drop d.length)) := by
          simp [ChanPipe.call, ChanLink.ReadFrom, ChanPipe.link, ChanPipe.chan, ChanPipe.setChan,
            hp, hwt, hc0, copy_fits buf d hd]
        have hlog : w.settle (.ReadFrom .p buf) log = settleSend .q true log := by
          simp [ChanPipe.settle, ChanPipe.takes, ChanPipe.link, ChanPipe.chan, hp, hwt,
            PipeEnd.peer]
        rw [hwt] at a2
        obtain ⟨s1, s2, s3⟩ := settleSend_spec .q log d rest a6 a2
        obtain ⟨o1, o2, o3⟩ := settleSend_other .q .p true (by decide) log
        have r1 := settleSend_received .q .p true log
        have r2 := settleSend_received .q .q true log
        rw [hcall, hlog]
        refine ⟨⟨hp, hq, rfl, hc1⟩, ?_, h1, ⟨?_, ?_, ?_, ?_, ?_, ?_⟩, ?_⟩
        · intro x hx
          exact h0 x (by rw [hwt]; exact List.mem_cons_of_mem _ hx)
        · simp only [waitingSends] at o1 a1
          simp [waitingSends, List.filterMap_append, waitingDatagram, o1, a1]
        · simp only [waitingSends] at s1
          simp [waitingSends, List.filterMap_append, waitingDatagram, s1]
        · simp only [returnedSends, received] at o2 a3 r2
          simp [returnedSends, received, List.filterMap_append, returnedDatagram,
            receivedDatagram, o2, a3, r2]
        · simp only [returnedSends, received] at s2 a4 r1
          simp [returnedSends, received, List.filterMap_append, returnedDatagram,
            receivedDatagram, s2, a4, r1]
        · exact settledFirst_append .p _ (by simp [returnedDatagram]) _ (o3 a5)
        · exact settledFirst_append .q _ (by simp [returnedDatagram]) _ s3
        · intro e he
          rcases List.mem_append.1 he with he | he
          · rcases settleSend_mem .q true log e he with he | ⟨b, he⟩
            · exact hok e he
            · rw [he]; exact Or.inl rfl
          · rw [List.mem_singleton.1 he]
            exact Or.inl (Or.inr ⟨d, rfl⟩)
    | q =>
      cases hwt : w.c1.waiting with
      | nil =>
        have hcall : w.call (.ReadFrom .q buf) = (w, .blocks) := by
          simp [ChanPipe.call, ChanLink.ReadFrom, ChanPipe.link, ChanPipe.chan, hq, hwt, hc1]
        have hlog : w.settle (.ReadFrom .q buf) log = log := by
          simp [ChanPipe.settle, ChanPipe.takes, ChanPipe.link, ChanPipe.chan, hq, hwt]
        rw [hcall, hlog]
        refine ⟨⟨hp, hq, hc0, hc1⟩, h0, h1, ⟨?_, ?_, ?_, ?_, ?_, ?_⟩, ?_⟩
        · simp [waitingSends, List.filterMap_append, waitingDatagram] at a1 ⊢
          exact a1
        · simp [waitingSends, List.filterMap_append, waitingDatagram] at a2 ⊢
          exact a2
        · simp [returnedSends, received, List.filterMap_append, returnedDatagram,
            receivedDatagram] at a3 ⊢
          exact a3
        · simp [returnedSends, received, List.filterMap_append, returnedDatagram,
            receivedDatagram] at a4 ⊢
          exact a4
        · exact settledFirst_append .p _ (by simp [returnedDatagram]) log a5
        · exact settledFirst_append .q _ (by simp [returnedDatagram]) log a6
        · intro e he
          rcases List.mem_append.1 he with he | he
          · exact hok e he
          · rw [List.mem_singleton.1 he]
            exact Or.inl (Or.inl rfl)
      | cons d rest =>
        have hd : d.length ≤ buf.length := le_trans (h1 d (by rw [hwt]; simp)) hc
        have hcall : w.call (.ReadFrom .q buf) =
            ({ w with c1 := { waiting := rest, closed := false } },
              .returns d.length none (d ++ buf.drop d.length)) := by
          simp [ChanPipe.call, ChanLink.ReadFrom, ChanPipe.link, ChanPipe.chan, ChanPipe.setChan,
            hq, hwt, hc1, copy_fits buf d hd]
        have hlog : w.settle (.ReadFrom .q buf) log = settleSend .p true log := by
          simp [ChanPipe.settle, ChanPipe.takes, ChanPipe.link, ChanPipe.chan, hq, hwt,
            PipeEnd.peer]
        rw [hwt] at a1
        obtain ⟨s1, s2, s3⟩ := settleSend_spec .p log d rest a5 a1
        obtain ⟨o1, o2, o3⟩ := settleSend_other .p .q true (by decide) log
        have r1 := settleSend_received .p .p true log
        have r2 := settleSend_received .p .q true log
        rw [hcall, hlog]
        refine ⟨⟨hp, hq, hc0, rfl⟩, h0, ?_, ⟨?_, ?_, ?_, ?_, ?_, ?_⟩, ?_⟩
        · intro x hx
          exact h1 x (by rw [hwt]; exact List.mem_cons_of_mem _ hx)
        · simp only [waitingSends] at s1
          simp [waitingSends, List.filterMap_append, waitingDatagram, s1]
        · simp only [waitingSends] at o1 a2
          simp [waitingSends, List.filterMap_append, waitingDatagram, o1, a2]
        · simp only [returnedSends, received] at s2 a3 r2
          simp [returnedSends, received, List.filterMap_append, returnedDatagram,
            receivedDatagram, s2, a3, r2]
        · simp only [returnedSends, received] at o2 a4 r1
          simp [returnedSends, received, List.filterMap_append, returnedDatagram,
            receivedDatagram, o2, a4, r1]
        · exact settledFirst_append .p _ (by simp [returnedDatagram]) _ s3
        · exact settledFirst_append .q _ (by simp [returnedDatagram]) _ (o3 a6)
        · intro e he
          rcases List.mem_append.1 he with he | he
          · rcases settleSend_mem .p true log e he with he | ⟨b, he⟩
            · exact hok e he
            · rw [he]; exact Or.inl rfl
          · rw [List.mem_singleton.1 he]
            exact Or.inl (Or.inr ⟨d, rfl⟩)

theorem callsFrom_agrees (m : Nat) : ∀ (cs : List LinkCall) (w : ChanPipe) (log : LinkLog),
    w.Open → (∀ c ∈ cs, c.fits m) → (∀ d ∈ w.c0.waiting, d.length ≤ m) →
    (∀ d ∈ w.c1.waiting, d.length ≤ m) → w.Agrees log →
    (∀ e ∈ log, wellEnded e ∨ ∃ l buf, e = (.WriteTo l buf, .blocks)) →
    (w.callsFrom log cs).1.Agrees (w.callsFrom log cs).2 ∧
    (∀ e ∈ (w.callsFrom log cs).2, wellEnded e ∨ ∃ l buf, e = (.WriteTo l buf, .blocks)) := by
  intro cs
  induction cs with
  | nil =>
    intro w log _ _ _ _ ha hok
    exact ⟨ha, hok⟩
  | cons c cs ih =>
    intro w log hw hc h0 h1 ha hok
    obtain ⟨ho, g0, g1, ga, gok⟩ :=
      call_agrees m w c log hw (hc c (List.mem_cons_self _ _)) h0 h1 ha hok
    simp only [ChanPipe.callsFrom]
    exact ih _ _ ho (fun x hx => hc x (List.mem_cons_of_mem _ hx)) g0 g1 ga gok

/-- C21: on the two ends (p, q) of NewChanPipe, when the buffers `bufs` are
written with p.WriteTo and successive q.ReadFrom calls with read buffers at least
as long follow, every WriteTo has returned the length of its buffer and no error,
and the reads return those datagrams in the order written, one per read, each
with n the written length and the written bytes at the front of the read buffer,
after which no datagram waits; the same from q to p.  In every interleaving of
WriteTo and ReadFrom calls on the two ends, with read buffers large enough, the
datagrams that ReadFrom returned on one end followed by those still waiting are
the datagrams written on the other end, in order; the calls of WriteTo that have
returned are those whose datagram was received, the others wait with their
datagram on the channel; no call returns an error or panics; and when no
datagram waits every WriteTo has returned the length of its buffer and no
error. -/
theorem chanPipe_delivers_in_order (bufs rbufs : List (List Nat))
    (hfit : List.Forall₂ (fun b r => b.length ≤ r.length) bufs rbufs)
    (m : Nat) (cs : List LinkCall) (hcs : ∀ c ∈ cs, c.fits m) :
    NewChanPipe.calls (bufs.map (.WriteTo .p) ++ rbufs.map (.ReadFrom .q)) =
      (NewChanPipe,
        bufs.map (fun b => (.WriteTo .p b, .returns b.length none b)) ++
        List.zipWith
          (fun b r => (.ReadFrom .q r, .returns b.length none (b ++ r.drop b.length)))
          bufs rbufs) ∧
    NewChanPipe.calls (bufs.map (.WriteTo .q) ++ rbufs.map (.ReadFrom .p)) =
      (NewChanPipe,
        bufs.map (fun b => (.WriteTo .q b, .returns b.length none b)) ++
        List.zipWith
          (fun b r => (.ReadFrom .p r, .returns b.length none (b ++ r.drop b.length)))
          bufs rbufs) ∧
    received .q (NewChanPipe.calls cs).2 ++ (NewChanPipe.calls cs).1.c1.waiting =
      written .p (NewChanPipe.calls cs).2 ∧
    received .p (NewChanPipe.calls cs).2 ++ (NewChanPipe.calls cs).1.c0.waiting =
      written .q (NewChanPipe.calls cs).2 ∧
    (∀ e ∈ (NewChanPipe.calls cs).2, wellEnded e ∨ ∃ l buf, e = (.WriteTo l buf, .blocks)) ∧
    returnedSends .p (NewChanPipe.calls cs).2 = received .q (NewChanPipe.calls cs).2 ∧
    returnedSends .q (NewChanPipe.calls cs).2 = received .p (NewChanPipe.calls cs).2 ∧
    waitingSends .p (NewChanPipe.calls cs).2 = (NewChanPipe.calls cs).1.c1.waiting ∧
    waitingSends .q (NewChanPipe.calls cs).2 = (NewChanPipe.calls cs).1.c0.waiting ∧
    ((NewChanPipe.calls cs).1.c0.waiting = [] → (NewChanPipe.calls cs).1.c1.waiting = [] →
      ∀ e ∈ (NewChanPipe.calls cs).2, wellEnded e) := by
  have hopen : NewChanPipe.Open := ⟨rfl, rfl, rfl, rfl⟩
  have hag : NewChanPipe.Agrees [] := ⟨rfl, rfl, rfl, rfl, trivial, trivial⟩
  refine ⟨?_, ?_, ?_⟩
  · simp only [ChanPipe.calls]
    rw [callsFrom_append, callsFrom_writes .p .c1 bufs NewChanPipe [] rfl rfl]
    simp only []
    have := callsFrom_reads .q .c1 bufs rbufs hfit
      (NewChanPipe.setChan .c1
        { waiting := (NewChanPipe.chan .c1).waiting ++ bufs, closed := false }) [] [] []
      (by rfl) (by simp [NewChanPipe, ChanPipe.chan, ChanPipe.setChan])
      (fun x hx => by cases hx)
    simp only [List.nil_append, List.append_nil, PipeEnd.peer] at this ⊢
    rw [this]
    simp [NewChanPipe, ChanPipe.setChan, ChanPipe.chan]
  · simp only [ChanPipe.calls]
    rw [callsFrom_append, callsFrom_writes .q .c0 bufs NewChanPipe [] rfl rfl]
    simp only []
    have := callsFrom_reads .p .c0 bufs rbufs hfit
      (NewChanPipe.setChan .c0
        { waiting := (NewChanPipe.chan .c0).waiting ++ bufs, closed := false }) [] [] []
      (by rfl) (by simp [NewChanPipe, ChanPipe.chan, ChanPipe.setChan])
      (fun x hx => by cases hx)
    simp only [List.nil_append, List.append_nil, PipeEnd.peer] at this ⊢
    rw [this]
    simp [NewChanPipe, ChanPipe.setChan, ChanPipe.chan]
  · obtain ⟨⟨a1, a2, a3, a4, a5, a6⟩, hok⟩ :=
      callsFrom_agrees m cs NewChanPipe [] hopen hcs (by simp [NewChanPipe])
        (by simp [NewChanPipe]) hag (fun e he => by cases he)
    have hlog : (NewChanPipe.calls cs) = NewChanPipe.callsFrom [] cs := rfl
    rw [hlog]
    refine ⟨?_, ?_, hok, a3, a4, a1, a2, ?_⟩
    · rw [written_eq .p _ a5, a3, a1]
    · rw [written_eq .q _ a6, a4, a2]
    · intro h0 h1 e he
      rcases hok e he with h | ⟨l, buf, h⟩
      · exact h
      · exfalso
        have hmem : buf ∈ waitingSends l (NewChanPipe.callsFrom [] cs).2 := by
          simp only [waitingSends, List.mem_filterMap]
          exact ⟨e, he, by rw [h]; simp [waitingDatagram]⟩
        cases l with
        | p => rw [a1, h1] at hmem; cases hmem
        | q => rw [a2, h0] at hmem; cases hmem

/-- C21 (witness): the 4-byte integers 1 and 2 written at one end and read at the
other with buffers of 6 bytes, and a run in which reads and writes alternate: the
first read waits, the second takes the first datagram, whose WriteTo returns, and
the second datagram waits. -/
theorem chanPipe_delivers_in_order_witness :
    List.Forall₂ (fun b r => b.length ≤ r.length) [[0, 0, 0, 1], [0, 0, 0, 2]]
      [[9, 9, 9, 9, 9, 9], [9, 9, 9, 9, 9, 9]] ∧
    (NewChanPipe.calls
        ([[0, 0, 0, 1], [0, 0, 0, 2]].map (.WriteTo .p) ++
          [[9, 9, 9, 9, 9, 9], [9, 9, 9, 9, 9, 9]].map (.ReadFrom .q))).2.map Prod.snd =
      [.returns 4 none [0, 0, 0, 1], .returns 4 none [0, 0, 0, 2],
        .returns 4 none [0, 0, 0, 1, 9, 9], .returns 4 none [0, 0, 0, 2, 9, 9]] ∧
    received .q (NewChanPipe.calls [.ReadFrom .q [9, 9, 9, 9], .WriteTo .p [0, 0, 0, 1],
        .ReadFrom .q [9, 9, 9, 9], .WriteTo .p [0, 0, 0, 2]]).2 ++
      (NewChanPipe.calls [.ReadFrom .q [9, 9, 9, 9], .WriteTo .p [0, 0, 0, 1],
        .ReadFrom .q [9, 9, 9, 9], .WriteTo .p [0, 0, 0, 2]]).1.c1.waiting =
      written .p (NewChanPipe.calls [.ReadFrom .q [9, 9, 9, 9], .WriteTo .p [0, 0, 0, 1],
        .ReadFrom .q [9, 9, 9, 9], .WriteTo .p [0, 0, 0, 2]]).2 ∧
    (NewChanPipe.calls [.ReadFrom .q [9, 9, 9, 9], .WriteTo .p [0, 0, 0, 1],
        .ReadFrom .q [9, 9, 9, 9], .WriteTo .p [0, 0, 0, 2]]).2.map Prod.snd =
      [.blocks, .returns 4 none [0, 0, 0, 1], .returns 4 none [0, 0, 0, 1], .blocks] := by
  have h := chanPipe_delivers_in_order [[0, 0, 0, 1], [0, 0, 0, 2]]
    [[9, 9, 9, 9, 9, 9], [9, 9, 9, 9, 9, 9]]
    (List.Forall₂.cons (by decide) (List.Forall₂.cons (by decide) List.Forall₂.nil)) 4
    [.ReadFrom .q [9, 9, 9, 9], .WriteTo .p [0, 0, 0, 1],
      .ReadFrom .q [9, 9, 9, 9], .WriteTo .p [0, 0, 0, 2]]
    (by simp [LinkCall.fits])
  refine ⟨List.Forall₂.cons (by decide) (List.Forall₂.cons (by decide) List.Forall₂.nil), ?_,
    h.2.2.1, by decide⟩
  rw [h.1]
  rfl

theorem link_setLink (w : ChanPipe) (l l1 : PipeEnd) (x : ChanLink) :
    (w.setLink l x).link l1 = if l1 = l then x else w.link l1 := by
  cases l <;> cases l1 <;> rfl

theorem close_keeps_in (w : ChanPipe) (l l1 : PipeEnd) :
    ((ChanLink.Close w l).1.link l1).in_ = (w.link l1).in_ := by
  unfold ChanLink.Close
  split
  · rfl
  · split
    · rfl
    · rw [link_setLink]
      split
      · rename_i h; rw [h]
      · rw [link_setChan]

/-- A call of p.WriteTo whose send waits when p.Close() closes the channel ends
in the panic of a send on a closed channel, its datagram is dropped, and q.ReadFrom
then returns the error EIO. -/
theorem chanLink_close_fails_waiting_send :
    NewChanPipe.calls [.WriteTo .p [1], .Close .p, .ReadFrom .q [0, 0]] =
      ({ c0 := { waiting := [], closed := false }, c1 := { waiting := [], closed := true },
         p := { in_ := some .c0, out := none }, q := { in_ := some .c1, out := some .c0 } },
        [(.WriteTo .p [1], .panics "send on closed channel"), (.Close .p, .returnsNil),
          (.ReadFrom .q [0, 0], .returns 0 (some ConnError.ErrIO) [0, 0])]) := by
  decide

/-- C22: after p.Close() on a new pipe, p.ReadFrom waits and leaves the pipe as
it is, so that it waits for as long as the other end neither writes nor closes,
and a datagram that the other end writes later is returned by p.ReadFrom: Close
closes and clears `out` only, and for every pipe leaves `in` as it was, so that
ReadFrom never finds `in` nil, while WriteTo on the closed link finds `out` nil
and returns an error.  On a new pipe too, ReadFrom with no datagram waiting waits
instead of returning an error. -/
theorem chanLink_read_blocks_after_own_close :
    ChanLink.Close NewChanPipe .p =
      ({ c0 := { waiting := [], closed := false }, c1 := { waiting := [], closed := true },
         p := { in_ := some .c0, out := none }, q := { in_ := some .c1, out := some .c0 } },
        .returnsNil) ∧
    ChanLink.ReadFrom (ChanLink.Close NewChanPipe .p).1 .p [0, 0, 0, 0] =
      ((ChanLink.Close NewChanPipe .p).1, .blocks) ∧
    (NewChanPipe.calls [.Close .p, .ReadFrom .p [0, 0, 0, 0], .ReadFrom .p [0, 0, 0, 0],
        .WriteTo .q [7], .ReadFrom .p [0, 0, 0, 0]]).2.map Prod.snd =
      [.returnsNil, .blocks, .blocks, .returns 1 none [7], .returns 1 none [7, 0, 0, 0]] ∧
    (∀ (w : ChanPipe) (l : PipeEnd),
      ((ChanLink.Close w l).1.link l).in_ = (w.link l).in_) ∧
    ChanLink.WriteTo (ChanLink.Close NewChanPipe .p).1 .p [1] =
      ((ChanLink.Close NewChanPipe .p).1, .returns 0 (some .ErrBad) [1]) ∧
    ChanLink.ReadFrom NewChanPipe .p [0, 0, 0, 0] = (NewChanPipe, .blocks) := by
  refine ⟨by decide, by decide, by decide, fun w l => close_keeps_in w l l, by decide,
    by decide⟩

end dccp
